import Mathlib

/-! Advisory layer of the enhanced xz front end.

A shallow embedding of the predictive / optimisation code under `src/xz`:

* `adaptive.c`        file-type classification by magic numbers and a text heuristic;
* `smart_compress.c`  entropy estimate, ratio prediction, quality scoring;
* `optimizer.c`       trial based preset search;
* `parallel.c`        thread-count and block-size sizing.

Conventions of the embedding.

* A C buffer `(const uint8_t *data, size_t size)` is a `List Byte`; `size` is its length,
  and a call on a prefix `(data, n)` with `n ≤ size` is a call on `data.take n`.
* `double` values are elements of an arbitrary linearly ordered field `α` with a floor
  function (the rationals for evaluation, the reals for the theorems about `log2`);
  rounding, infinities and NaN are not modelled.  `log2` is passed as a function.
* Unsigned machine integers are naturals; where the C arithmetic can wrap, the reduction
  modulo `2 ^ 32` or `2 ^ 64` is written out, and a division whose divisor can be zero
  returns an `Option`.
-/

namespace Xz

/-- An octet, the element type of every buffer. -/
abbrev Byte := Fin 256

/-! ## adaptive.h / adaptive.c -/

/-- The enumeration `file_type_t` of `adaptive.h`. -/
inductive file_type_t where
  | FILE_TYPE_UNKNOWN
  | FILE_TYPE_TEXT
  | FILE_TYPE_BINARY
  | FILE_TYPE_EXECUTABLE
  | FILE_TYPE_IMAGE
  | FILE_TYPE_AUDIO
  | FILE_TYPE_VIDEO
  | FILE_TYPE_ARCHIVE
  | FILE_TYPE_DATABASE
  deriving DecidableEq, Repr

open file_type_t

/-- The byte `data[i]`; reads are only made below `size`, the default is never used there. -/
def at_ (data : List Byte) (i : Nat) : Byte := data.getD i 0

/-- The test `size >= n && memcmp(data, lit, n) == 0` for a literal `lit` of `n` bytes. -/
def memcmp_eq (data : List Byte) (lit : List Byte) : Bool :=
  decide (lit.length ≤ data.length) && decide (data.take lit.length = lit)

/-- Source `is_png`: at least 8 bytes, of which the first four are compared. -/
def is_png (data : List Byte) : Bool :=
  decide (data.length ≥ 8) && decide (at_ data 0 = 0x89) && decide (at_ data 1 = 0x50) &&
    decide (at_ data 2 = 0x4E) && decide (at_ data 3 = 0x47)

/-- Source `is_jpeg`. -/
def is_jpeg (data : List Byte) : Bool :=
  decide (data.length ≥ 3) && decide (at_ data 0 = 0xFF) && decide (at_ data 1 = 0xD8) &&
    decide (at_ data 2 = 0xFF)

/-- The six bytes of the string literal "GIF87a". -/
def GIF87a : List Byte := [0x47, 0x49, 0x46, 0x38, 0x37, 0x61]

/-- The six bytes of the string literal "GIF89a". -/
def GIF89a : List Byte := [0x47, 0x49, 0x46, 0x38, 0x39, 0x61]

/-- Source `is_gif`. -/
def is_gif (data : List Byte) : Bool :=
  memcmp_eq data GIF87a || memcmp_eq data GIF89a

/-- Source `is_elf`: the four bytes 7F 'E' 'L' 'F'. -/
def is_elf (data : List Byte) : Bool :=
  memcmp_eq data [0x7F, 0x45, 0x4C, 0x46]

/-- Source `is_pe`: the two bytes 'M' 'Z'. -/
def is_pe (data : List Byte) : Bool :=
  decide (data.length ≥ 2) && decide (at_ data 0 = 0x4D) && decide (at_ data 1 = 0x5A)

/-- Source `is_zip`: the four bytes 'P' 'K' 03 04. -/
def is_zip (data : List Byte) : Bool :=
  memcmp_eq data [0x50, 0x4B, 0x03, 0x04]

/-- Source `is_tar`: the five bytes of "ustar" at offset 0. -/
def is_tar (data : List Byte) : Bool :=
  memcmp_eq data [0x75, 0x73, 0x74, 0x61, 0x72]

/-- The libc predicate `isprint` in the "C" locale: 0x20 to 0x7E. -/
def isprint (b : Byte) : Bool := decide (0x20 ≤ b.val ∧ b.val ≤ 0x7E)

/-- The libc predicate `isspace` in the "C" locale: 0x09 to 0x0D and the blank. -/
def isspace (b : Byte) : Bool := decide ((0x09 ≤ b.val ∧ b.val ≤ 0x0D) ∨ b.val = 0x20)

/-- The loop of `is_text` over the bytes still to be examined: `none` is the early
`return false` on a zero byte, `some n` the final value of the counter `printable`. -/
def is_text_loop : List Byte → Nat → Option Nat
  | [], printable => some printable
  | b :: rest, printable =>
      if isprint b || isspace b then is_text_loop rest (printable + 1)
      else if b = 0 then none
      else is_text_loop rest printable

/-- Source `is_text`. -/
def is_text (data : List Byte) : Bool :=
  if data.length = 0 then false
  else
    let check_size := if data.length < 512 then data.length else 512
    match is_text_loop (data.take check_size) 0 with
    | none => false
    | some printable => decide (printable * 100 / check_size > 90)

/-- Source `adaptive_detect_file_type`. -/
def adaptive_detect_file_type (data : List Byte) : file_type_t :=
  if data.length = 0 then FILE_TYPE_UNKNOWN
  else if is_png data || is_jpeg data || is_gif data then FILE_TYPE_IMAGE
  else if is_elf data || is_pe data then FILE_TYPE_EXECUTABLE
  else if is_zip data || is_tar data then FILE_TYPE_ARCHIVE
  else if is_text data then FILE_TYPE_TEXT
  else FILE_TYPE_BINARY

/-- The four byte PNG prefix 89 50 4E 47 that the specification names as the signature. -/
def PNG_PREFIX : List Byte := [0x89, 0x50, 0x4E, 0x47]

/-- The signature table of the specification other than PNG. -/
def known_signatures : List (List Byte × file_type_t) :=
  [ ([0xFF, 0xD8, 0xFF], FILE_TYPE_IMAGE),
    (GIF87a, FILE_TYPE_IMAGE),
    (GIF89a, FILE_TYPE_IMAGE),
    ([0x7F, 0x45, 0x4C, 0x46], FILE_TYPE_EXECUTABLE),
    ([0x4D, 0x5A], FILE_TYPE_EXECUTABLE),
    ([0x50, 0x4B, 0x03, 0x04], FILE_TYPE_ARCHIVE),
    ([0x75, 0x73, 0x74, 0x61, 0x72], FILE_TYPE_ARCHIVE) ]

/-! ## smart_compress.h / smart_compress.c -/

/-- The enumeration `smart_strategy_t` of `smart_compress.h`. -/
inductive smart_strategy_t where
  | SMART_STRATEGY_AUTO
  | SMART_STRATEGY_SPEED
  | SMART_STRATEGY_RATIO
  | SMART_STRATEGY_BALANCED
  | SMART_STRATEGY_MEMORY_EFFICIENT
  | SMART_STRATEGY_CUSTOM
  deriving DecidableEq, Repr

open smart_strategy_t

/-- The record `compression_prediction_t`. -/
structure compression_prediction_t (α : Type) where
  predicted_ratio : α
  confidence_level : α
  estimated_output_size : Nat
  recommended_preset : Nat
  estimated_time_seconds : α
  estimated_memory_mb : Nat

/-- The record `benchmark_result_t`. -/
structure benchmark_result_t (α : Type) where
  preset : Nat
  compression_ratio : α
  compression_speed_mbps : α
  decompression_speed_mbps : α
  memory_used_mb : Nat
  compression_time_sec : α
  decompression_time_sec : α
  output_size_bytes : Nat

/-- The record `quality_score_t`; `quality_grade` is the NUL terminated `char[3]`. -/
structure quality_score_t (α : Type) where
  compression_ratio_score : α
  speed_score : α
  memory_efficiency_score : α
  overall_score : α
  quality_grade : String

section Smart

variable {α : Type} [LinearOrderedField α] [FloorRing α]

/-- The first loop of `calculate_entropy`: the table `freq` after `freq[data[i]]++` for
every byte of the buffer, starting from the all-zero table. -/
def count_frequencies (data : List Byte) : Byte → Nat :=
  data.foldl (fun freq b => Function.update freq b (freq b + 1)) (fun _ => 0)

/-- Source `calculate_entropy`; `log2` is the libm function. -/
def calculate_entropy (log2 : α → α) (data : List Byte) : α :=
  if data.length = 0 then 0
  else
    let freq := count_frequencies data
    (List.finRange 256).foldl
      (fun entropy i =>
        if freq i > 0 then
          let probability : α := (freq i : α) / (data.length : α)
          entropy - probability * log2 probability
        else entropy)
      0

/-- Source `estimate_ratio_from_entropy`. -/
def estimate_ratio_from_entropy (entropy : α) : α :=
  let ratio := 1 - entropy / 8
  let ratio := if ratio < 0.1 then 0.1 else ratio
  let ratio := if ratio > 0.95 then 0.95 else ratio
  ratio

/-- The first `switch` of `smart_compress_predict`: the adjustment by file type. -/
def adjust_for_file_type (file_type : file_type_t) (base_ratio : α) : α :=
  match file_type with
  | FILE_TYPE_TEXT => base_ratio * 0.85
  | FILE_TYPE_EXECUTABLE => base_ratio * 0.70
  | FILE_TYPE_IMAGE => base_ratio * 0.95
  | FILE_TYPE_ARCHIVE => base_ratio * 0.90
  | _ => base_ratio

/-- The second `switch` of `smart_compress_predict`: the adjusted ratio and the
recommended preset for the strategy. -/
def adjust_for_strategy (strategy : smart_strategy_t) (base_ratio : α) : α × Nat :=
  match strategy with
  | SMART_STRATEGY_SPEED => (base_ratio * 0.90, 3)
  | SMART_STRATEGY_RATIO =>
      let r := base_ratio * 1.05
      (if r > 0.95 then 0.95 else r, 8)
  | SMART_STRATEGY_BALANCED => (base_ratio, 6)
  | SMART_STRATEGY_MEMORY_EFFICIENT => (base_ratio * 0.92, 5)
  | _ => (base_ratio, 6)

/-- Source `smart_compress_predict` on a non-null buffer.  The call of
`smart_compress_init` only touches the engine counters, which the result does not read. -/
def smart_compress_predict (log2 : α → α) (data : List Byte) (strategy : smart_strategy_t) :
    compression_prediction_t α :=
  if data.length = 0 then
    { predicted_ratio := 0, confidence_level := 0, estimated_output_size := 0,
      recommended_preset := 0, estimated_time_seconds := 0, estimated_memory_mb := 0 }
  else
    let data_size := data.length
    let sample_size := if data_size > 1024 * 1024 then 1024 * 1024 else data_size
    let entropy := calculate_entropy log2 (data.take sample_size)
    let base_ratio := estimate_ratio_from_entropy entropy
    let file_type := adaptive_detect_file_type (data.take sample_size)
    let base_ratio := adjust_for_file_type file_type base_ratio
    let adjusted := adjust_for_strategy strategy base_ratio
    let base_ratio := adjusted.1
    let recommended_preset := adjusted.2
    let confidence_level : α :=
      if sample_size ≥ data_size then 0.95
      else 0.70 + 0.25 * ((sample_size : α) / (data_size : α))
    let mb_size : α := (data_size : α) / (1024 * 1024)
    let speed_mbps : α :=
      if recommended_preset ≤ 3 then 30 else if recommended_preset ≤ 6 then 15 else 5
    let memory_mb := ⌊mb_size * 2 * (recommended_preset : α)⌋₊
    let memory_mb := if memory_mb < 64 then 64 else memory_mb
    let memory_mb := if memory_mb > 1024 then 1024 else memory_mb
    { predicted_ratio := base_ratio
      confidence_level := confidence_level
      estimated_output_size := ⌊(data_size : α) * base_ratio⌋₊
      recommended_preset := recommended_preset
      estimated_time_seconds := mb_size / speed_mbps
      estimated_memory_mb := memory_mb }

/-- Source `smart_compress_calculate_quality` with the doubles taken as exact numbers;
`none` is the null `result` pointer.  `smart_compress_calculate_quality_binary64` below is
the same function with every operation rounded to a double. -/
def smart_compress_calculate_quality (result : Option (benchmark_result_t α))
    (strategy : smart_strategy_t) : quality_score_t α :=
  match result with
  | none =>
      { compression_ratio_score := 0, speed_score := 0, memory_efficiency_score := 0,
        overall_score := 0, quality_grade := "" }
  | some result =>
      let ratio_score := (1 - result.compression_ratio) * 100
      let ratio_score := if ratio_score < 0 then 0 else ratio_score
      let ratio_score := if ratio_score > 100 then 100 else ratio_score
      let speed_score := (result.compression_speed_mbps / 50) * 100
      let speed_score := if speed_score > 100 then 100 else speed_score
      let memory_score := 100 - ((result.memory_used_mb : α) / 500) * 50
      let memory_score := if memory_score < 0 then 0 else memory_score
      let memory_score := if memory_score > 100 then 100 else memory_score
      let overall_score :=
        match strategy with
        | SMART_STRATEGY_SPEED =>
            (speed_score * 0.6) + (ratio_score * 0.2) + (memory_score * 0.2)
        | SMART_STRATEGY_RATIO =>
            (ratio_score * 0.6) + (speed_score * 0.2) + (memory_score * 0.2)
        | SMART_STRATEGY_MEMORY_EFFICIENT =>
            (memory_score * 0.5) + (ratio_score * 0.3) + (speed_score * 0.2)
        | _ => (ratio_score * 0.4) + (speed_score * 0.4) + (memory_score * 0.2)
      let quality_grade :=
        if overall_score ≥ 95 then "A+"
        else if overall_score ≥ 90 then "A"
        else if overall_score ≥ 85 then "B+"
        else if overall_score ≥ 80 then "B"
        else if overall_score ≥ 75 then "C+"
        else if overall_score ≥ 70 then "C"
        else if overall_score ≥ 60 then "D"
        else "F"
      { compression_ratio_score := ratio_score
        speed_score := speed_score
        memory_efficiency_score := memory_score
        overall_score := overall_score
        quality_grade := quality_grade }

end Smart

/-! ## smart_compress.c on the doubles of the machine -/

/-- The integer nearest to `x`, the even one of the two when `x` lies half way between
two integers. -/
def round_half_even (x : ℚ) : ℤ :=
  if x - ⌊x⌋ < 1 / 2 then ⌊x⌋
  else if 1 / 2 < x - ⌊x⌋ then ⌊x⌋ + 1
  else if ⌊x⌋ % 2 = 0 then ⌊x⌋
  else ⌊x⌋ + 1

/-- The `double` nearest to `x` (IEEE 754 binary64, round to nearest, ties to even): a
multiple of `2 ^ e` where `e` leaves 53 significant bits and is never below `-1074`.  A
result of magnitude `2 ^ 1024` or more, which the format turns into an infinity, is kept
as a number. -/
def round_binary64 (x : ℚ) : ℚ :=
  if x = 0 then 0
  else
    let e := max (Int.log 2 |x| - 52) (-1074)
    (round_half_even (x / 2 ^ e) : ℚ) * 2 ^ e

/-- The operator `+` of C on two doubles. -/
def double_add (a b : ℚ) : ℚ := round_binary64 (a + b)

/-- The operator `-` of C on two doubles. -/
def double_sub (a b : ℚ) : ℚ := round_binary64 (a - b)

/-- The operator `*` of C on two doubles. -/
def double_mul (a b : ℚ) : ℚ := round_binary64 (a * b)

/-- The operator `/` of C on two doubles, the divisor not zero. -/
def double_div (a b : ℚ) : ℚ := round_binary64 (a / b)

/-- The chain of `if`s of `smart_compress_calculate_quality` that assigns the letter
grade to an overall score held in a double. -/
def quality_grade_binary64 (overall_score : ℚ) : String :=
  if overall_score ≥ 95 then "A+"
  else if overall_score ≥ 90 then "A"
  else if overall_score ≥ 85 then "B+"
  else if overall_score ≥ 80 then "B"
  else if overall_score ≥ 75 then "C+"
  else if overall_score ≥ 70 then "C"
  else if overall_score ≥ 60 then "D"
  else "F"

/-- Source `smart_compress_calculate_quality` on doubles: every decimal literal, the
conversion `(double)result->memory_used_mb` and every arithmetic operation is rounded to
the nearest double, one operation at a time and in the order of the source; the fields of
`result` are finite doubles. -/
def smart_compress_calculate_quality_binary64 (result : Option (benchmark_result_t ℚ))
    (strategy : smart_strategy_t) : quality_score_t ℚ :=
  match result with
  | none =>
      { compression_ratio_score := 0, speed_score := 0, memory_efficiency_score := 0,
        overall_score := 0, quality_grade := "" }
  | some result =>
      let ratio_score := double_mul (double_sub 1 result.compression_ratio) 100
      let ratio_score := if ratio_score < 0 then 0 else ratio_score
      let ratio_score := if ratio_score > 100 then 100 else ratio_score
      let speed_score := double_mul (double_div result.compression_speed_mbps 50) 100
      let speed_score := if speed_score > 100 then 100 else speed_score
      let memory_score :=
        double_sub 100
          (double_mul (double_div (round_binary64 (result.memory_used_mb : ℚ)) 500) 50)
      let memory_score := if memory_score < 0 then 0 else memory_score
      let memory_score := if memory_score > 100 then 100 else memory_score
      let overall_score :=
        match strategy with
        | SMART_STRATEGY_SPEED =>
            double_add
              (double_add (double_mul speed_score (round_binary64 0.6))
                (double_mul ratio_score (round_binary64 0.2)))
              (double_mul memory_score (round_binary64 0.2))
        | SMART_STRATEGY_RATIO =>
            double_add
              (double_add (double_mul ratio_score (round_binary64 0.6))
                (double_mul speed_score (round_binary64 0.2)))
              (double_mul memory_score (round_binary64 0.2))
        | SMART_STRATEGY_MEMORY_EFFICIENT =>
            double_add
              (double_add (double_mul memory_score (round_binary64 0.5))
                (double_mul ratio_score (round_binary64 0.3)))
              (double_mul speed_score (round_binary64 0.2))
        | _ =>
            double_add
              (double_add (double_mul ratio_score (round_binary64 0.4))
                (double_mul speed_score (round_binary64 0.4)))
              (double_mul memory_score (round_binary64 0.2))
      let quality_grade := quality_grade_binary64 overall_score
      { compression_ratio_score := ratio_score
        speed_score := speed_score
        memory_efficiency_score := memory_score
        overall_score := overall_score
        quality_grade := quality_grade }

/-- The benchmark result with compression ratio `0.38` (as a double), 31 MB/s and 380 MB:
all three component scores are 62. -/
def scores_62_result : benchmark_result_t ℚ :=
  { preset := 6, compression_ratio := round_binary64 0.38, compression_speed_mbps := 31,
    decompression_speed_mbps := 0, memory_used_mb := 380, compression_time_sec := 0,
    decompression_time_sec := 0, output_size_bytes := 0 }

/-- The benchmark result with compression ratio `0.39` (as a double), 30.5 MB/s and
390 MB: all three component scores are 61. -/
def scores_61_result : benchmark_result_t ℚ :=
  { preset := 6, compression_ratio := round_binary64 0.39, compression_speed_mbps := 30.5,
    decompression_speed_mbps := 0, memory_used_mb := 390, compression_time_sec := 0,
    decompression_time_sec := 0, output_size_bytes := 0 }

/-- The grade bands of the specification, highest first: the lower bound of the band and
its letter; below the last bound the grade is F. -/
def grade_bands : List (Nat × String) :=
  [(95, "A+"), (90, "A"), (85, "B+"), (80, "B"), (75, "C+"), (70, "C"), (60, "D")]

/-- The letter of the band of a score, in the words of the specification: the first band,
from the top, whose lower bound the score reaches, and F when it reaches none. -/
def grade_of_band {α : Type} [LinearOrderedField α] (score : α) : String :=
  match grade_bands.find? (fun band => decide ((band.1 : α) ≤ score)) with
  | some band => band.2
  | none => "F"

/-- The position of a letter grade in the order F < D < C < C+ < B < B+ < A < A+. -/
def grade_rank (grade : String) : Nat :=
  ["F", "D", "C", "C+", "B", "B+", "A", "A+"].indexOf grade

/-- The benchmark record of `test_smart_compress_quality_score`. -/
def test_result : benchmark_result_t ℚ :=
  { preset := 6, compression_ratio := 3 / 10, compression_speed_mbps := 20,
    decompression_speed_mbps := 0, memory_used_mb := 256, compression_time_sec := 0,
    decompression_time_sec := 0, output_size_bytes := 0 }

/-- A benchmark record that reaches every maximum: ratio 0, 50 MB/s, no memory. -/
def perfect_result : benchmark_result_t ℚ :=
  { preset := 6, compression_ratio := 0, compression_speed_mbps := 50,
    decompression_speed_mbps := 0, memory_used_mb := 0, compression_time_sec := 0,
    decompression_time_sec := 0, output_size_bytes := 0 }

/-- The number of band bounds that a score reaches. -/
def band_index {α : Type} [LinearOrderedField α] (score : α) : Nat :=
  if score ≥ 95 then 7
  else if score ≥ 90 then 6
  else if score ≥ 85 then 5
  else if score ≥ 80 then 4
  else if score ≥ 75 then 3
  else if score ≥ 70 then 2
  else if score ≥ 60 then 1
  else 0

/-- A benchmark record with a negative speed: ratio 1.0, speed -50 MB/s, 1000 MB. -/
def negative_speed_result : benchmark_result_t ℚ :=
  { preset := 6, compression_ratio := 1, compression_speed_mbps := -50,
    decompression_speed_mbps := 0, memory_used_mb := 1000, compression_time_sec := 0,
    decompression_time_sec := 0, output_size_bytes := 0 }

/-! ## optimizer.h / optimizer.c -/

/-- The enumeration `optimization_strategy_t` of `optimizer.h`. -/
inductive optimization_strategy_t where
  | OPT_STRATEGY_SPEED
  | OPT_STRATEGY_RATIO
  | OPT_STRATEGY_BALANCED
  | OPT_STRATEGY_CUSTOM
  deriving DecidableEq, Repr

open optimization_strategy_t

/-- The filter identifiers of `lzma.h` that the code stores in a filter chain. -/
inductive lzma_filter_id where
  | LZMA_FILTER_X86
  | LZMA_FILTER_LZMA2
  | LZMA_VLI_UNKNOWN
  deriving DecidableEq, Repr

open lzma_filter_id

/-- The record `sample_data_t`; the field `size` is the length of `data`. -/
structure sample_data_t where
  data : List Byte
  sample_size : Nat

/-- The record `optimization_result_t`; `filters` lists the array entries that were
written, terminator included (empty for the zero record). -/
structure optimization_result_t (α : Type) where
  optimal_preset : Nat
  optimal_dict_size : Nat
  filters : List lzma_filter_id
  estimated_ratio : α
  estimated_speed_mbps : α
  estimated_memory_mb : Nat

/-- The static variables of `optimizer.c`. -/
structure optimizer_state (α : Type) where
  optimizer_initialized : Bool
  optimizer_tests_run : Nat
  optimizer_best_ratio : α
  optimizer_average_time : α

/-- What the external codec and the allocator do during one call of
`test_preset_compression`: whether `lzma_easy_encoder` returned `LZMA_OK`, whether
`malloc` returned a buffer, whether `lzma_code` returned `LZMA_STREAM_END`, and the value
of `strm.avail_out` after `lzma_code`. -/
structure trial_outcome where
  encoder_ok : Bool
  malloc_ok : Bool
  stream_end : Bool
  avail_out : Nat

/-- The external codec as seen by one run of the optimizer: the outcome of the trial on
the given input bytes at the given preset. -/
abbrev trial_codec := List Byte → Nat → trial_outcome

/-- Source `adaptive_get_optimal_settings`: the filter chain, the preset and the
dictionary size; `LZMA_PRESET_DEFAULT` is the constant of `lzma.h`. -/
def adaptive_get_optimal_settings (LZMA_PRESET_DEFAULT : Nat) (type : file_type_t) :
    List lzma_filter_id × Nat × Nat :=
  match type with
  | FILE_TYPE_TEXT => ([LZMA_FILTER_LZMA2, LZMA_VLI_UNKNOWN], 7, 8 * 1024 * 1024)
  | FILE_TYPE_EXECUTABLE =>
      ([LZMA_FILTER_X86, LZMA_FILTER_LZMA2, LZMA_VLI_UNKNOWN], 6, 16 * 1024 * 1024)
  | FILE_TYPE_IMAGE => ([LZMA_FILTER_LZMA2, LZMA_VLI_UNKNOWN], 3, 4 * 1024 * 1024)
  | FILE_TYPE_ARCHIVE => ([LZMA_FILTER_LZMA2, LZMA_VLI_UNKNOWN], 6, 8 * 1024 * 1024)
  | _ => ([LZMA_FILTER_LZMA2, LZMA_VLI_UNKNOWN], LZMA_PRESET_DEFAULT, 0)

section Optimizer

variable {α : Type} [LinearOrderedField α]

/-- Source `optimizer_reset`. -/
def optimizer_reset (st : optimizer_state α) : optimizer_state α :=
  { st with optimizer_tests_run := 0, optimizer_best_ratio := 0, optimizer_average_time := 0 }

/-- Source `optimizer_init`. -/
def optimizer_init (st : optimizer_state α) : optimizer_state α :=
  if st.optimizer_initialized then st
  else { optimizer_reset st with optimizer_initialized := true }

/-- Source `test_preset_compression` on the buffer `(data, size)`: the returned ratio
(`-1.0` for a failed trial) and the value of `*compressed_size` after the call, given its
value before.  The elapsed time is computed and dropped by the source.  The codec never
raises `avail_out`, so the subtraction does not wrap. -/
def test_preset_compression (codec : trial_codec) (data : List Byte) (preset : Nat)
    (compressed_size : Nat) : α × Nat :=
  let test_size := if data.length > 1024 * 1024 then 1024 * 1024 else data.length
  let outcome := codec (data.take test_size) preset
  if !outcome.encoder_ok then (-1, compressed_size)
  else if !outcome.malloc_ok then (-1, compressed_size)
  else if outcome.stream_end then
    let compressed := test_size * 2 - outcome.avail_out
    ((compressed : α) / (test_size : α), compressed)
  else (-1, compressed_size)

/-- The `switch` of `optimizer_analyze` that sets `min_preset` and `max_preset`. -/
def preset_range (strategy : optimization_strategy_t) : Nat × Nat :=
  match strategy with
  | OPT_STRATEGY_SPEED => (1, 4)
  | OPT_STRATEGY_RATIO => (7, 9)
  | OPT_STRATEGY_BALANCED => (4, 7)
  | OPT_STRATEGY_CUSTOM => (1, 9)

/-- The variables of the trial loop of `optimizer_analyze`. -/
structure search_state (α : Type) where
  best_ratio : α
  best_preset : Nat
  best_compressed : Nat
  tests_run : Nat

/-- One iteration of the trial loop of `optimizer_analyze`. -/
def search_step (codec : trial_codec) (data : List Byte) (s : search_state α) (preset : Nat) :
    search_state α :=
  let trial : α × Nat := test_preset_compression codec data preset 0
  let ratio := trial.1
  let compressed := trial.2
  let s :=
    if ratio > 0 ∧ ratio < s.best_ratio then
      { s with best_ratio := ratio, best_preset := preset, best_compressed := compressed }
    else s
  { s with tests_run := (s.tests_run + 1) % 2 ^ 32 }

/-- The trial loop `for (preset = min_preset; preset <= max_preset; preset++)`. -/
def search_loop (codec : trial_codec) (data : List Byte) (min_preset max_preset : Nat)
    (s : search_state α) : search_state α :=
  (List.range' min_preset (max_preset + 1 - min_preset)).foldl (search_step codec data) s

/-- Source `optimizer_analyze` on a non-null sample; the advisory limits are not read.
`LZMA_PRESET_DEFAULT` is the constant of `lzma.h`. -/
def optimizer_analyze (LZMA_PRESET_DEFAULT : Nat) (codec : trial_codec)
    (st : optimizer_state α) (sample : sample_data_t) (strategy : optimization_strategy_t) :
    optimization_result_t α × optimizer_state α :=
  if sample.data.length = 0 then
    ({ optimal_preset := 0, optimal_dict_size := 0, filters := [], estimated_ratio := 0,
       estimated_speed_mbps := 0, estimated_memory_mb := 0 }, st)
  else
    let st := optimizer_init st
    let test_size :=
      if sample.sample_size > 0 ∧ sample.sample_size < sample.data.length then sample.sample_size
      else sample.data.length
    let file_type := adaptive_detect_file_type (sample.data.take test_size)
    let range := preset_range strategy
    let start : search_state α :=
      { best_ratio := 1, best_preset := LZMA_PRESET_DEFAULT, best_compressed := 0,
        tests_run := st.optimizer_tests_run }
    let found := search_loop codec (sample.data.take test_size) range.1 range.2 start
    let settings := adaptive_get_optimal_settings LZMA_PRESET_DEFAULT file_type
    let result : optimization_result_t α :=
      { optimal_preset := found.best_preset
        optimal_dict_size := settings.2.2
        filters := settings.1
        estimated_ratio := found.best_ratio
        estimated_speed_mbps := 10
        estimated_memory_mb := 0 }
    let st :=
      { st with
        optimizer_tests_run := found.tests_run
        optimizer_best_ratio :=
          if st.optimizer_best_ratio = 0 ∨ found.best_ratio < st.optimizer_best_ratio then
            found.best_ratio
          else st.optimizer_best_ratio }
    (result, st)

/-- The ratio that the trial of `preset` yields inside `optimizer_analyze` for `sample`. -/
def trial_ratio (codec : trial_codec) (sample : sample_data_t) (preset : Nat) : α :=
  let test_size :=
    if sample.sample_size > 0 ∧ sample.sample_size < sample.data.length then sample.sample_size
    else sample.data.length
  (test_preset_compression codec (sample.data.take test_size) preset 0 : α × Nat).1

end Optimizer

/-- A codec whose encoder never initialises. -/
def failing_codec : trial_codec :=
  fun _ _ => { encoder_ok := false, malloc_ok := true, stream_end := false, avail_out := 0 }

/-- A codec that always finishes and leaves 7 of the output bytes unused. -/
def compressing_codec : trial_codec :=
  fun _ _ => { encoder_ok := true, malloc_ok := true, stream_end := true, avail_out := 7 }

/-- The optimizer statics at program start. -/
def optimizer_start : optimizer_state ℚ :=
  { optimizer_initialized := false, optimizer_tests_run := 0, optimizer_best_ratio := 0,
    optimizer_average_time := 0 }

/-! ## parallel.h / parallel.c -/

/-- The record `parallel_config_t`. -/
structure parallel_config_t where
  threads : Nat
  block_size : Nat
  timeout_ms : Nat
  adaptive_threading : Bool
  load_balancing : Bool
  priority_level : Nat
  deriving DecidableEq, Repr

/-- The statics `current_config` and `parallel_initialized` of `parallel.c`; the metrics
record, which the sizing functions never read, is left out. -/
structure parallel_state where
  current_config : parallel_config_t
  parallel_initialized : Bool
  deriving DecidableEq, Repr

/-- The static initialisers of `parallel.c`. -/
def parallel_start : parallel_state :=
  { current_config :=
      { threads := 0, block_size := 0, timeout_ms := 300, adaptive_threading := false,
        load_balancing := true, priority_level := 0 }
    parallel_initialized := false }

/-- Source `parallel_init`; `hardware_threads` is the value of `hardware_threads_get()`. -/
def parallel_init (hardware_threads : Nat) (st : parallel_state) : parallel_state :=
  if st.parallel_initialized then st
  else
    { current_config :=
        { st.current_config with
          threads := hardware_threads, block_size := 0, adaptive_threading := true,
          load_balancing := true }
      parallel_initialized := true }

/-- Source `parallel_configure` with a non-null argument. -/
def parallel_configure (config : parallel_config_t) (st : parallel_state) : parallel_state :=
  { st with current_config := config }

/-- Source `parallel_get_optimal_threads`; `none` stands for a division by zero. -/
def parallel_get_optimal_threads (hardware_threads : Nat) (st : parallel_state)
    (file_size available_memory : Nat) : Option Nat × parallel_state :=
  let st := if !st.parallel_initialized then parallel_init hardware_threads st else st
  let max_threads := if hardware_threads = 0 then 1 else hardware_threads
  let size_based_threads :=
    if file_size > 100 * 1024 * 1024 then max_threads
    else if file_size > 10 * 1024 * 1024 then
      (if max_threads / 2 = 0 then 1 else max_threads / 2)
    else 1
  let block_size :=
    if st.current_config.block_size = 0 then 3 * 1024 * 1024 else st.current_config.block_size
  let memory_per_thread := (3 * block_size) % 2 ^ 64
  if memory_per_thread = 0 then (none, st)
  else
    let memory_based_threads := (available_memory / memory_per_thread) % 2 ^ 32
    let memory_based_threads := if memory_based_threads = 0 then 1 else memory_based_threads
    let memory_based_threads :=
      if memory_based_threads > max_threads then max_threads else memory_based_threads
    let optimal :=
      if size_based_threads < memory_based_threads then size_based_threads
      else memory_based_threads
    (some optimal, st)

/-- Source `parallel_get_optimal_block_size`; the product `threads * 4` is a `uint32_t`
product, and `none` stands for the division by zero. -/
def parallel_get_optimal_block_size (threads file_size : Nat) : Option Nat :=
  let threads := if threads = 0 then 1 else threads
  let divisor := (threads * 4) % 2 ^ 32
  if divisor = 0 then none
  else
    let optimal_size := file_size / divisor
    let optimal_size := if optimal_size < 64 * 1024 then 64 * 1024 else optimal_size
    let optimal_size :=
      if optimal_size > 64 * 1024 * 1024 then 64 * 1024 * 1024 else optimal_size
    some optimal_size

/-- Source `optimizer_find_best_preset` on a non-null sample: the bounds and the memory
limit are parameters of the function that its body does not read. -/
def optimizer_find_best_preset {α : Type} [LinearOrderedField α] (LZMA_PRESET_DEFAULT : Nat)
    (codec : trial_codec) (st : optimizer_state α) (sample : sample_data_t)
    (min_preset max_preset memory_limit_mb : Nat) :
    optimization_result_t α × optimizer_state α :=
  optimizer_analyze LZMA_PRESET_DEFAULT codec st sample OPT_STRATEGY_CUSTOM

/-- A codec whose trial finishes, leaving 7 output bytes unused, at preset 9 only. -/
def preset9_codec : trial_codec :=
  fun _ preset =>
    if preset = 9 then
      { encoder_ok := true, malloc_ok := true, stream_end := true, avail_out := 7 }
    else { encoder_ok := false, malloc_ok := true, stream_end := false, avail_out := 0 }

/-! ## The prediction formula in the words of the specification -/

/-- The clamp of a value to the interval from `lo` to `hi`. -/
def clamp {α : Type} [LinearOrderedField α] (lo hi x : α) : α := max lo (min hi x)

/-- The category factor of the specification: Text 0.85, Executable 0.70, Image 0.95,
Archive 0.90, every other category 1. -/
def category_factor {α : Type} [LinearOrderedField α] (category : file_type_t) : α :=
  if category = FILE_TYPE_TEXT then 0.85
  else if category = FILE_TYPE_EXECUTABLE then 0.70
  else if category = FILE_TYPE_IMAGE then 0.95
  else if category = FILE_TYPE_ARCHIVE then 0.90
  else 1

/-- The ratio before the strategy is applied, in the words of the specification:
`c * clamp(1 - H/8, 0.1, 0.95)` with H the entropy and c the factor of the category of the
first min(size, 1 MiB) bytes. -/
def spec_base_ratio {α : Type} [LinearOrderedField α] (log2 : α → α) (data : List Byte) : α :=
  category_factor (adaptive_detect_file_type (data.take (min data.length (1024 * 1024)))) *
    clamp 0.1 0.95
      (1 - calculate_entropy log2 (data.take (min data.length (1024 * 1024))) / 8)

/-- The number of bytes among `bytes` that are printable or whitespace. -/
def printable_count (bytes : List Byte) : Nat :=
  bytes.countP (fun b => isprint b || isspace b)

/-- The disjunction of the seven signature tests of `adaptive_detect_file_type`. -/
def matches_signature (data : List Byte) : Bool :=
  is_png data || is_jpeg data || is_gif data || is_elf data || is_pe data || is_zip data ||
    is_tar data

/-- Ten bytes 'A' followed by the byte 01: ten of its eleven bytes are printable. -/
def ten_of_eleven : List Byte :=
  [0x41, 0x41, 0x41, 0x41, 0x41, 0x41, 0x41, 0x41, 0x41, 0x41, 0x01]

/-! ## recovery.h / recovery.c -/

/-- The enumeration `recovery_mode_t` of `recovery.h`. -/
inductive recovery_mode_t where
  | RECOVERY_NONE
  | RECOVERY_PARTIAL
  | RECOVERY_AGGRESSIVE
  | RECOVERY_MAXIMUM
  deriving DecidableEq, Repr

open recovery_mode_t

/-- The integer value of an enumerator of `recovery_mode_t`, which `>=` compares. -/
def recovery_mode_value (mode : recovery_mode_t) : Nat :=
  match mode with
  | RECOVERY_NONE => 0
  | RECOVERY_PARTIAL => 1
  | RECOVERY_AGGRESSIVE => 2
  | RECOVERY_MAXIMUM => 3

/-- The return codes `lzma_ret` of the external codec (`lzma.h`). -/
inductive lzma_ret where
  | LZMA_OK
  | LZMA_STREAM_END
  | LZMA_NO_CHECK
  | LZMA_UNSUPPORTED_CHECK
  | LZMA_GET_CHECK
  | LZMA_MEM_ERROR
  | LZMA_MEMLIMIT_ERROR
  | LZMA_FORMAT_ERROR
  | LZMA_OPTIONS_ERROR
  | LZMA_DATA_ERROR
  | LZMA_BUF_ERROR
  | LZMA_PROG_ERROR
  deriving DecidableEq, Repr

open lzma_ret

/-- The record `recovery_stats_t`: three `uint32_t` counters, a `uint64_t` byte count and
the rate. -/
structure recovery_stats_t (α : Type) where
  corrupted_blocks : Nat
  recovered_blocks : Nat
  skipped_blocks : Nat
  recovered_bytes : Nat
  recovery_rate : α

/-- The statics `current_mode`, `stats` and `recovery_initialized` of `recovery.c`. -/
structure recovery_state (α : Type) where
  current_mode : recovery_mode_t
  stats : recovery_stats_t α
  recovery_initialized : Bool

/-- What the external decoder does during one call of `recovery_attempt`: the value
returned by `lzma_stream_decoder`, the value returned by `lzma_code`, and `strm.avail_out`
after `lzma_code`. -/
structure decode_outcome where
  init_ret : lzma_ret
  code_ret : lzma_ret
  avail_out : Nat

/-- The external tolerant decoder as seen by one call: its outcome on the given input
bytes with the given output capacity. -/
abbrev tolerant_decoder := List Byte → Nat → decode_outcome

section Recovery

variable {α : Type} [LinearOrderedField α]

/-- The all-zero statistics that `memset` leaves. -/
def zero_stats : recovery_stats_t α :=
  { corrupted_blocks := 0, recovered_blocks := 0, skipped_blocks := 0, recovered_bytes := 0,
    recovery_rate := 0 }

/-- The static initialisers of `recovery.c`. -/
def recovery_start : recovery_state α :=
  { current_mode := RECOVERY_PARTIAL, stats := zero_stats, recovery_initialized := false }

/-- Source `recovery_reset_stats`. -/
def recovery_reset_stats (st : recovery_state α) : recovery_state α :=
  { st with stats := zero_stats }

/-- Source `recovery_init`. -/
def recovery_init (st : recovery_state α) : recovery_state α :=
  if st.recovery_initialized then st
  else { recovery_reset_stats st with recovery_initialized := true }

/-- Source `recovery_set_mode`. -/
def recovery_set_mode (mode : recovery_mode_t) (st : recovery_state α) : recovery_state α :=
  { st with current_mode := mode }

/-- Source `recovery_attempt` with non-null pointers: `corrupted_size` is the length of
`corrupted_data` and `recovered_size` the value of `*recovered_size` at entry.  The result
is the returned flag, the value of `*recovered_size` at exit and the new statics.  The
decoder never raises `avail_out`, so the subtraction does not wrap. -/
def recovery_attempt (decoder : tolerant_decoder) (st : recovery_state α)
    (corrupted_data : List Byte) (recovered_size : Nat) (mode : recovery_mode_t) :
    Bool × Nat × recovery_state α :=
  if recovered_size < corrupted_data.length then (false, recovered_size, st)
  else
    let use_mode := if mode = RECOVERY_NONE then st.current_mode else mode
    let st : recovery_state α :=
      { st with stats :=
          { st.stats with corrupted_blocks := (st.stats.corrupted_blocks + 1) % 2 ^ 32 } }
    let outcome := decoder corrupted_data recovered_size
    if outcome.init_ret ≠ LZMA_OK then (false, recovered_size, st)
    else
      let recovered := recovered_size - outcome.avail_out
      let recovered_stats : recovery_stats_t α :=
        { st.stats with
          recovered_blocks := (st.stats.recovered_blocks + 1) % 2 ^ 32
          recovered_bytes := (st.stats.recovered_bytes + recovered) % 2 ^ 64 }
      if outcome.code_ret = LZMA_STREAM_END ∨ outcome.code_ret = LZMA_OK then
        (true, recovered, { st with stats := recovered_stats })
      else if recovery_mode_value use_mode ≥ recovery_mode_value RECOVERY_PARTIAL ∧
          recovered > 0 then
        (true, recovered, { st with stats := recovered_stats })
      else
        (false, recovered,
          { st with stats :=
              { st.stats with skipped_blocks := (st.stats.skipped_blocks + 1) % 2 ^ 32 } })

/-- Source `recovery_get_stats`: the returned record and the new statics. -/
def recovery_get_stats (st : recovery_state α) : recovery_stats_t α × recovery_state α :=
  let st : recovery_state α :=
    if st.stats.corrupted_blocks > 0 then
      { st with stats :=
          { st.stats with recovery_rate :=
              (st.stats.recovered_blocks : α) / (st.stats.corrupted_blocks : α) } }
    else st
  (st.stats, st)

/-- The loop `for (i = 0; i < n; i++) recovery_attempt(data, size, out, &cap, mode)` with
`cap` set to the same capacity before every call: the returned flags in call order and the
final statics. -/
def recovery_attempt_repeat (decoder : tolerant_decoder) (corrupted_data : List Byte)
    (recovered_size : Nat) (mode : recovery_mode_t) :
    Nat → recovery_state α → List Bool × recovery_state α
  | 0, st => ([], st)
  | n + 1, st =>
      let call := recovery_attempt decoder st corrupted_data recovered_size mode
      let rest := recovery_attempt_repeat decoder corrupted_data recovered_size mode n call.2.2
      (call.1 :: rest.1, rest.2)

end Recovery

/-- The six bytes `test_corrupted_data` of the test suite. -/
def test_corrupted_data : List Byte := [0xFD, 0x37, 0x7A, 0x58, 0x5A, 0x00]

/-- A decoder that `lzma_stream_decoder` fails to set up. -/
def uninitialised_decoder : tolerant_decoder :=
  fun _ capacity =>
    { init_ret := LZMA_MEM_ERROR, code_ret := LZMA_PROG_ERROR, avail_out := capacity }

/-- A decoder that writes one byte and then reports `LZMA_DATA_ERROR`. -/
def one_byte_then_error_decoder : tolerant_decoder :=
  fun _ capacity =>
    { init_ret := LZMA_OK, code_ret := LZMA_DATA_ERROR, avail_out := capacity - 1 }

/-- One call of the recovery interface, with the decoder behaviour of that call. -/
inductive recovery_call where
  | attempt (decoder : tolerant_decoder) (corrupted_data : List Byte) (recovered_size : Nat)
      (mode : recovery_mode_t)
  | get_stats
  | reset_stats

/-- The statics after one call of the recovery interface. -/
def recovery_step {α : Type} [LinearOrderedField α] (st : recovery_state α)
    (call : recovery_call) : recovery_state α :=
  match call with
  | recovery_call.attempt decoder corrupted_data recovered_size mode =>
      (recovery_attempt decoder st corrupted_data recovered_size mode).2.2
  | recovery_call.get_stats => (recovery_get_stats st).2
  | recovery_call.reset_stats => recovery_reset_stats st

/-- The statics after a sequence of calls of the recovery interface. -/
def recovery_run {α : Type} [LinearOrderedField α] (calls : List recovery_call)
    (st : recovery_state α) : recovery_state α :=
  calls.foldl recovery_step st

/-- A decoder that reaches the end of the stream at once, writing nothing. -/
def clean_end_decoder : tolerant_decoder :=
  fun _ capacity =>
    { init_ret := LZMA_OK, code_ret := LZMA_STREAM_END, avail_out := capacity }

/-- One attempt whose decoder cannot be set up, then `2 ^ 32 - 1` attempts that succeed:
`2 ^ 32` counted blocks in all. -/
def wrapping_calls : List recovery_call :=
  recovery_call.attempt uninitialised_decoder test_corrupted_data 6 RECOVERY_PARTIAL ::
    List.replicate (2 ^ 32 - 1)
      (recovery_call.attempt clean_end_decoder test_corrupted_data 6 RECOVERY_PARTIAL)

/-! ## The sizing formulas in the words of the specification -/

/-- The thread count of the specification: `min(size_based, memory_based)` for `hw`
hardware threads and block size `b`, the product `3 * b` and the quotient taken over the
integers. -/
def spec_optimal_threads (hw b file_size available_memory : Nat) : Nat :=
  let max_threads := max 1 hw
  let size_based :=
    if file_size ≤ 10 * 1024 * 1024 then 1
    else if file_size ≤ 100 * 1024 * 1024 then max 1 (max_threads / 2)
    else max_threads
  let memory_based := min max_threads (max 1 (available_memory / (3 * b)))
  min size_based memory_based

/-- The block size of the specification: `floor(file_size / (4 * max(threads, 1)))` clamped
to [64 KiB, 64 MiB], the product taken over the integers. -/
def spec_optimal_block_size (threads file_size : Nat) : Nat :=
  min (64 * 1024 * 1024) (max (64 * 1024) (file_size / (4 * max threads 1)))

/-- The weights (speed, ratio, memory) of the specification for a strategy. -/
def spec_weights {α : Type} [LinearOrderedField α] (strategy : smart_strategy_t) : α × α × α :=
  match strategy with
  | SMART_STRATEGY_SPEED => (0.6, 0.2, 0.2)
  | SMART_STRATEGY_RATIO => (0.2, 0.6, 0.2)
  | SMART_STRATEGY_MEMORY_EFFICIENT => (0.2, 0.3, 0.5)
  | _ => (0.4, 0.4, 0.2)

/-- The overall score in the words of the specification, evaluated on doubles: the
weighted sum of the three component scores with the weights of `spec_weights`, every weight
and every product rounded to a double, the products added from left to right in the order
in which the source writes them for the strategy. -/
def spec_overall_binary64 (strategy : smart_strategy_t) (speed ratio memory : ℚ) : ℚ :=
  let speed_part := double_mul speed (round_binary64 (spec_weights strategy : ℚ × ℚ × ℚ).1)
  let ratio_part := double_mul ratio (round_binary64 (spec_weights strategy : ℚ × ℚ × ℚ).2.1)
  let memory_part :=
    double_mul memory (round_binary64 (spec_weights strategy : ℚ × ℚ × ℚ).2.2)
  match strategy with
  | SMART_STRATEGY_SPEED => double_add (double_add speed_part ratio_part) memory_part
  | SMART_STRATEGY_MEMORY_EFFICIENT =>
      double_add (double_add memory_part ratio_part) speed_part
  | _ => double_add (double_add ratio_part speed_part) memory_part

/-- Sixteen bytes 0x80: one symbol, entropy 0, category Binary. -/
def low_entropy_buffer : List Byte := List.replicate 16 0x80

/-- Eight bytes 0x80 and eight bytes 0x81: two equally likely symbols, entropy 1, category
Binary. -/
def high_entropy_buffer : List Byte := List.replicate 8 0x80 ++ List.replicate 8 0x81

/-! ## analytics.h / analytics.c -/

/-- The record `compression_stats_t` of `analytics.h`. -/
structure compression_stats_t (α : Type) where
  uncompressed_size : Nat
  compressed_size : Nat
  compression_ratio : α
  compression_time : α
  decompression_time : α
  blocks_count : Nat
  memory_used : Nat
  threads_used : Nat

/-- The statics of `analytics.c`. -/
structure analytics_state (α : Type) where
  stats : compression_stats_t α
  compress_start_time : Nat
  decompress_start_time : Nat
  analytics_enabled : Bool

section Analytics

variable {α : Type} [LinearOrderedField α]

/-- The static initialisers of `analytics.c`. -/
def analytics_start : analytics_state α :=
  { stats :=
      { uncompressed_size := 0, compressed_size := 0, compression_ratio := 0,
        compression_time := 0, decompression_time := 0, blocks_count := 0, memory_used := 0,
        threads_used := 0 }
    compress_start_time := 0
    decompress_start_time := 0
    analytics_enabled := false }

/-- Source `analytics_reset`. -/
def analytics_reset (st : analytics_state α) : analytics_state α :=
  { st with
    stats :=
      { uncompressed_size := 0, compressed_size := 0, compression_ratio := 0,
        compression_time := 0, decompression_time := 0, blocks_count := 0, memory_used := 0,
        threads_used := 0 }
    compress_start_time := 0
    decompress_start_time := 0 }

/-- Source `analytics_init`. -/
def analytics_init (st : analytics_state α) : analytics_state α :=
  analytics_reset { st with analytics_enabled := true }

/-- Source `analytics_compress_start`; `elapsed` is the value of `mytime_get_elapsed()`. -/
def analytics_compress_start (elapsed : Nat) (st : analytics_state α) : analytics_state α :=
  if !st.analytics_enabled then st
  else { st with compress_start_time := elapsed }

/-- Source `analytics_compress_end`; `elapsed` is the value of `mytime_get_elapsed()`. -/
def analytics_compress_end (elapsed uncompressed compressed : Nat) (st : analytics_state α) :
    analytics_state α :=
  if !st.analytics_enabled then st
  else
    let stats : compression_stats_t α :=
      { st.stats with
        compression_time :=
          if elapsed > st.compress_start_time then
            ((elapsed - st.compress_start_time : Nat) : α) / 1000
          else 0
        uncompressed_size := uncompressed
        compressed_size := compressed }
    let stats : compression_stats_t α :=
      if uncompressed > 0 then
        { stats with compression_ratio := (compressed : α) / (uncompressed : α) }
      else stats
    { st with stats := stats }

/-- Source `analytics_decompress_start`. -/
def analytics_decompress_start (elapsed : Nat) (st : analytics_state α) : analytics_state α :=
  if !st.analytics_enabled then st
  else { st with decompress_start_time := elapsed }

/-- Source `analytics_decompress_end`. -/
def analytics_decompress_end (elapsed uncompressed : Nat) (st : analytics_state α) :
    analytics_state α :=
  if !st.analytics_enabled then st
  else
    { st with stats :=
        { st.stats with
          decompression_time :=
            if elapsed > st.decompress_start_time then
              ((elapsed - st.decompress_start_time : Nat) : α) / 1000
            else 0
          uncompressed_size := uncompressed } }

/-- Source `analytics_get_stats`. -/
def analytics_get_stats (st : analytics_state α) : compression_stats_t α := st.stats

end Analytics

/-- One call of the analytics interface; `elapsed` is the clock value read by the call. -/
inductive analytics_call where
  | init
  | reset
  | compress_start (elapsed : Nat)
  | compress_end (elapsed uncompressed compressed : Nat)
  | decompress_start (elapsed : Nat)
  | decompress_end (elapsed uncompressed : Nat)
  deriving DecidableEq, Repr

/-- The calls that record a measurement: the two start and the two end calls. -/
def is_recording_call (call : analytics_call) : Bool :=
  match call with
  | analytics_call.init => false
  | analytics_call.reset => false
  | _ => true

/-- Every call but `analytics_decompress_end`. -/
def is_not_decompress_end (call : analytics_call) : Bool :=
  match call with
  | analytics_call.decompress_end _ _ => false
  | _ => true

/-- The statics after one call of the analytics interface. -/
def analytics_step {α : Type} [LinearOrderedField α] (st : analytics_state α)
    (call : analytics_call) : analytics_state α :=
  match call with
  | analytics_call.init => analytics_init st
  | analytics_call.reset => analytics_reset st
  | analytics_call.compress_start elapsed => analytics_compress_start elapsed st
  | analytics_call.compress_end elapsed uncompressed compressed =>
      analytics_compress_end elapsed uncompressed compressed st
  | analytics_call.decompress_start elapsed => analytics_decompress_start elapsed st
  | analytics_call.decompress_end elapsed uncompressed =>
      analytics_decompress_end elapsed uncompressed st

/-- The statics after a sequence of calls of the analytics interface. -/
def analytics_run {α : Type} [LinearOrderedField α] (calls : List analytics_call)
    (st : analytics_state α) : analytics_state α :=
  calls.foldl analytics_step st

/-! ## integrity.h / integrity.c -/

/-- The enumeration `integrity_result_t` of `integrity.h`. -/
inductive integrity_result_t where
  | INTEGRITY_OK
  | INTEGRITY_ERROR
  | INTEGRITY_CORRUPTED
  | INTEGRITY_UNKNOWN
  deriving DecidableEq, Repr

open integrity_result_t

/-- What one call of `lzma_code` leaves: the return code and the fields `avail_in` and
`avail_out` of the stream. -/
structure stream_step where
  ret : lzma_ret
  avail_in : Nat
  avail_out : Nat

/-- The external streaming decoder as seen by one run of `integrity_verify_file`: what the
call number `calls` of `lzma_code` does, given `avail_in` and `avail_out` before the call
and whether the action is `LZMA_FINISH`. -/
abbrev stream_decoder := Nat → Nat → Nat → Bool → stream_step

/-- The variables of the loop of `integrity_verify_file`: the bytes of the file not yet
read, the end-of-file indicator, `strm.avail_in`, `strm.avail_out` and the number of
`lzma_code` calls made. -/
structure verify_state where
  remaining : List Byte
  eof : Bool
  avail_in : Nat
  avail_out : Nat
  calls : Nat

/-- The refill `if (strm.avail_in == 0 && !feof(file))` at the head of the loop: `fread`
takes up to `BUFSIZ` bytes and a short read sets the end-of-file indicator. -/
def verify_refill (BUFSIZ : Nat) (s : verify_state) : verify_state :=
  if s.avail_in = 0 ∧ s.eof = false then
    { s with
      avail_in := min BUFSIZ s.remaining.length
      remaining := s.remaining.drop (min BUFSIZ s.remaining.length)
      eof := decide (min BUFSIZ s.remaining.length < BUFSIZ) }
  else s

/-- The loop `while (true)` of `integrity_verify_file`, run for at most `fuel` iterations:
`none` when the loop has not left after `fuel` iterations, else the verdict. -/
def verify_loop (BUFSIZ : Nat) (decoder : stream_decoder) : Nat → verify_state →
    Option integrity_result_t
  | 0, _ => none
  | fuel + 1, s =>
      let s := verify_refill BUFSIZ s
      let step := decoder s.calls s.avail_in s.avail_out s.eof
      if step.ret = LZMA_STREAM_END then some INTEGRITY_OK
      else if step.ret ≠ LZMA_OK ∧ step.ret ≠ LZMA_BUF_ERROR then some INTEGRITY_CORRUPTED
      else
        verify_loop BUFSIZ decoder fuel
          { s with
            avail_in := step.avail_in
            avail_out := if step.avail_out = 0 then BUFSIZ else step.avail_out
            calls := s.calls + 1 }

/-- Source `integrity_verify_file`: `file` is `none` when `fopen` fails and the bytes of
the file otherwise, `init_ret` is the value returned by `lzma_stream_decoder`, `BUFSIZ` is
the constant of `stdio.h`. -/
def integrity_verify_file (BUFSIZ : Nat) (file : Option (List Byte)) (init_ret : lzma_ret)
    (decoder : stream_decoder) (fuel : Nat) : Option integrity_result_t :=
  match file with
  | none => some INTEGRITY_ERROR
  | some bytes =>
      if init_ret ≠ LZMA_OK then some INTEGRITY_ERROR
      else
        verify_loop BUFSIZ decoder fuel
          { remaining := bytes, eof := false, avail_in := 0, avail_out := BUFSIZ, calls := 0 }

/-- A decoder that makes no progress and reports `LZMA_BUF_ERROR` at every call, as the
decoder does once the input is exhausted before the end of the stream. -/
def starving_decoder : stream_decoder :=
  fun _ avail_in avail_out _ =>
    { ret := LZMA_BUF_ERROR, avail_in := avail_in, avail_out := avail_out }

/-- A decoder that consumes all its input at every call and reports `LZMA_STREAM_END` at
call number `k`, `LZMA_OK` before. -/
def finishing_decoder (k : Nat) : stream_decoder :=
  fun calls _ avail_out _ =>
    { ret := if calls = k then LZMA_STREAM_END else LZMA_OK, avail_in := 0,
      avail_out := avail_out }

/-! ## Theorems: adaptive.c -/

theorem is_text_loop_le (l : List Byte) (p n : Nat) (h : is_text_loop l p = some n) :
    n ≤ p + l.length := by
  induction l generalizing p with
  | nil => simp [is_text_loop] at h; omega
  | cons b rest ih =>
    simp only [is_text_loop] at h
    split at h
    · have := ih _ h; simp only [List.length_cons]; omega
    · split at h
      · cases h
      · have := ih _ h; simp only [List.length_cons]; omega

theorem is_text_short_png (rest : List Byte) (h : rest.length < 4) :
    is_text (PNG_PREFIX ++ rest) = false := by
  have hlen : (PNG_PREFIX ++ rest).length = rest.length + 4 := by
    simp [PNG_PREFIX]
  unfold is_text
  rw [hlen]
  have h1 : ¬ (rest.length + 4 = 0) := by omega
  have h2 : rest.length + 4 < 512 := by omega
  simp only [h1, h2, if_true, if_false]
  have htake : List.take (rest.length + 4) (PNG_PREFIX ++ rest) = PNG_PREFIX ++ rest := by
    rw [← hlen]; exact List.take_length _
  rw [htake]
  have e0 : (isprint (0x89 : Byte) || isspace (0x89 : Byte)) = false := by decide
  have e0z : ¬ ((0x89 : Byte) = 0) := by decide
  have e1 : (isprint (0x50 : Byte) || isspace (0x50 : Byte)) = true := by decide
  have e2 : (isprint (0x4E : Byte) || isspace (0x4E : Byte)) = true := by decide
  have e3 : (isprint (0x47 : Byte) || isspace (0x47 : Byte)) = true := by decide
  have hloop : is_text_loop (PNG_PREFIX ++ rest) 0 = is_text_loop rest 3 := by
    simp only [PNG_PREFIX, List.cons_append, List.nil_append, is_text_loop, e0, e0z, e1, e2, e3,
      if_true, if_false, Bool.false_eq_true]
    rfl
  rw [hloop]
  cases hr : is_text_loop rest 3 with
  | none => rfl
  | some n =>
    have hn := is_text_loop_le rest 3 n hr
    have hdiv : n * 100 / (rest.length + 4) ≤ 90 := by
      apply Nat.div_le_of_le_mul
      have : rest.length ≤ 3 := by omega
      nlinarith
    simp only [decide_eq_false_iff_not, not_lt, gt_iff_lt]
    exact hdiv

theorem detect_known_signature (sig : List Byte) (cat : file_type_t) (rest : List Byte)
    (h : (sig, cat) ∈ known_signatures) : adaptive_detect_file_type (sig ++ rest) = cat := by
  simp only [known_signatures, List.mem_cons, Prod.mk.injEq, List.mem_singleton,
    List.not_mem_nil, or_false] at h
  rcases h with ⟨rfl, rfl⟩ | ⟨rfl, rfl⟩ | ⟨rfl, rfl⟩ | ⟨rfl, rfl⟩ | ⟨rfl, rfl⟩ | ⟨rfl, rfl⟩ | ⟨rfl, rfl⟩ <;>
    simp [adaptive_detect_file_type, is_png, is_jpeg, is_gif, is_elf, is_pe, is_zip, is_tar,
      memcmp_eq, at_, GIF87a, GIF89a]

theorem detect_png_long (rest : List Byte) (h : 4 ≤ rest.length) :
    adaptive_detect_file_type (PNG_PREFIX ++ rest) = FILE_TYPE_IMAGE := by
  have h8 : 8 ≤ rest.length + 4 := by omega
  simp [adaptive_detect_file_type, is_png, at_, PNG_PREFIX, h8]

theorem detect_png_short (rest : List Byte) (h : rest.length < 4) :
    adaptive_detect_file_type (PNG_PREFIX ++ rest) = FILE_TYPE_BINARY := by
  have ht := is_text_short_png rest h
  have h8 : ¬ (8 ≤ rest.length + 4) := by omega
  simp only [PNG_PREFIX, List.cons_append, List.nil_append] at ht
  simp [adaptive_detect_file_type, is_png, is_jpeg, is_gif, is_elf, is_pe, is_zip, is_tar,
    memcmp_eq, at_, GIF87a, GIF89a, PNG_PREFIX, h8, ht]

/-- C1 (counterexample): the four byte buffer 89 50 4E 47 starts with the PNG signature and
is not empty, yet `adaptive_detect_file_type` classifies it Binary, not Image: `is_png`
demands at least 8 bytes. -/
theorem C1_png_prefix_alone_is_binary :
    PNG_PREFIX ≠ [] ∧ adaptive_detect_file_type PNG_PREFIX = FILE_TYPE_BINARY ∧
      adaptive_detect_file_type PNG_PREFIX ≠ FILE_TYPE_IMAGE := by
  decide

/-- C1 (amended): whatever bytes `rest` follow, a buffer starting with JPEG FF D8 FF, GIF87a
or GIF89a is Image, one starting with ELF or MZ is Executable, one starting with ZIP
50 4B 03 04 or "ustar" is Archive; a buffer starting with the PNG prefix 89 50 4E 47 is
Image when it has at least 8 bytes and Binary when it has fewer; in no case is it Text. -/
theorem C1_signature_classification (rest : List Byte) :
    (∀ sig cat, (sig, cat) ∈ known_signatures →
        adaptive_detect_file_type (sig ++ rest) = cat ∧ cat ≠ FILE_TYPE_TEXT) ∧
    (8 ≤ (PNG_PREFIX ++ rest).length →
        adaptive_detect_file_type (PNG_PREFIX ++ rest) = FILE_TYPE_IMAGE) ∧
    ((PNG_PREFIX ++ rest).length < 8 →
        adaptive_detect_file_type (PNG_PREFIX ++ rest) = FILE_TYPE_BINARY) ∧
    adaptive_detect_file_type (PNG_PREFIX ++ rest) ≠ FILE_TYPE_TEXT := by
  have hlen : (PNG_PREFIX ++ rest).length = rest.length + 4 := by simp [PNG_PREFIX]
  refine ⟨?_, ?_, ?_, ?_⟩
  · intro sig cat h
    refine ⟨detect_known_signature sig cat rest h, ?_⟩
    simp only [known_signatures, List.mem_cons, Prod.mk.injEq, List.mem_singleton,
      List.not_mem_nil, or_false] at h
    rcases h with ⟨_, rfl⟩ | ⟨_, rfl⟩ | ⟨_, rfl⟩ | ⟨_, rfl⟩ | ⟨_, rfl⟩ | ⟨_, rfl⟩ | ⟨_, rfl⟩ <;>
      decide
  · intro h
    exact detect_png_long rest (by omega)
  · intro h
    exact detect_png_short rest (by omega)
  · rcases Nat.lt_or_ge rest.length 4 with h | h
    · rw [detect_png_short rest h]; decide
    · rw [detect_png_long rest h]; decide

/-- C1 (witness): the amended statement at the bytes 0D 0A 1A 0A following a signature. -/
theorem C1_signature_classification_witness :
    adaptive_detect_file_type ([0x4D, 0x5A] ++ [0x0D, 0x0A, 0x1A, 0x0A]) = FILE_TYPE_EXECUTABLE ∧
    adaptive_detect_file_type (PNG_PREFIX ++ [0x0D, 0x0A, 0x1A, 0x0A]) = FILE_TYPE_IMAGE :=
  ⟨((C1_signature_classification [0x0D, 0x0A, 0x1A, 0x0A]).1 [0x4D, 0x5A] FILE_TYPE_EXECUTABLE
      (by decide)).1,
   (C1_signature_classification [0x0D, 0x0A, 0x1A, 0x0A]).2.1 (by decide)⟩

/-! ## Theorems: smart_compress.c, prediction -/

theorem estimate_ratio_from_entropy_bounds {α : Type} [LinearOrderedField α] (entropy : α) :
    0.1 ≤ estimate_ratio_from_entropy entropy ∧ estimate_ratio_from_entropy entropy ≤ 0.95 := by
  unfold estimate_ratio_from_entropy
  dsimp only
  split_ifs <;> constructor <;> norm_num at * <;> linarith

theorem adjust_for_file_type_bounds {α : Type} [LinearOrderedField α]
    (file_type : file_type_t) (r : α)
    (h0 : 0.1 ≤ r) (h1 : r ≤ 0.95) :
    0 < adjust_for_file_type file_type r ∧ adjust_for_file_type file_type r ≤ 0.95 := by
  have hr : (0 : α) < r := lt_of_lt_of_le (by norm_num) h0
  cases file_type <;> simp only [adjust_for_file_type] <;> constructor <;>
    norm_num at * <;> nlinarith

theorem adjust_for_strategy_bounds {α : Type} [LinearOrderedField α]
    (strategy : smart_strategy_t) (r : α)
    (h0 : 0 < r) (h1 : r ≤ 0.95) :
    0 < (adjust_for_strategy strategy r).1 ∧ (adjust_for_strategy strategy r).1 ≤ 0.95 ∧
      1 ≤ (adjust_for_strategy strategy r).2 ∧ (adjust_for_strategy strategy r).2 ≤ 9 := by
  cases strategy <;> simp only [adjust_for_strategy] <;> refine ⟨?_, ?_, ?_, ?_⟩ <;>
    first
    | omega
    | (split_ifs <;> norm_num at * <;> nlinarith)
    | (norm_num at *; nlinarith)


/-- C2: for every non-empty buffer and every strategy value, the prediction returned by
`smart_compress_predict` satisfies 0 < predicted_ratio ≤ 1, 0 < confidence_level ≤ 1,
estimated_output_size ≤ data_size, 1 ≤ recommended_preset ≤ 9, estimated_time_seconds ≥ 0
and 64 ≤ estimated_memory_mb ≤ 1024 (for any ordered field of values and any `log2`). -/
theorem C2_prediction_well_formed {α : Type} [LinearOrderedField α] [FloorRing α]
    (log2 : α → α) (data : List Byte) (strategy : smart_strategy_t) (hne : data ≠ []) :
    (0 < (smart_compress_predict log2 data strategy).predicted_ratio ∧
      (smart_compress_predict log2 data strategy).predicted_ratio ≤ 1) ∧
    (0 < (smart_compress_predict log2 data strategy).confidence_level ∧
      (smart_compress_predict log2 data strategy).confidence_level ≤ 1) ∧
    (smart_compress_predict log2 data strategy).estimated_output_size ≤ data.length ∧
    (1 ≤ (smart_compress_predict log2 data strategy).recommended_preset ∧
      (smart_compress_predict log2 data strategy).recommended_preset ≤ 9) ∧
    0 ≤ (smart_compress_predict log2 data strategy).estimated_time_seconds ∧
    (64 ≤ (smart_compress_predict log2 data strategy).estimated_memory_mb ∧
      (smart_compress_predict log2 data strategy).estimated_memory_mb ≤ 1024) := by
  have hlen : ¬ (data.length = 0) := by
    intro h; exact hne (List.length_eq_zero.mp h)
  have hpos : (0 : α) < (data.length : α) := by
    have : 0 < data.length := Nat.pos_of_ne_zero hlen
    exact_mod_cast this
  unfold smart_compress_predict
  rw [if_neg hlen]
  dsimp only
  generalize hsample : (if data.length > 1024 * 1024 then 1024 * 1024 else data.length) = sample_size
  have hs_pos : 0 < sample_size := by
    rw [← hsample]; split_ifs <;> omega
  have hs_le : sample_size ≤ data.length := by
    rw [← hsample]; split_ifs <;> omega
  obtain ⟨e0, e1⟩ := estimate_ratio_from_entropy_bounds
    (calculate_entropy log2 (List.take sample_size data))
  obtain ⟨f0, f1⟩ := adjust_for_file_type_bounds
    (adaptive_detect_file_type (List.take sample_size data)) _ e0 e1
  obtain ⟨g0, g1, g2, g3⟩ := adjust_for_strategy_bounds strategy _ f0 f1
  generalize (adjust_for_strategy strategy
    (adjust_for_file_type (adaptive_detect_file_type (List.take sample_size data))
      (estimate_ratio_from_entropy (calculate_entropy log2 (List.take sample_size data))))) = adj
    at g0 g1 g2 g3
  have hr1 : adj.1 ≤ 1 := le_trans g1 (by norm_num)
  refine ⟨⟨g0, hr1⟩, ⟨?_, ?_⟩, ?_, ⟨g2, g3⟩, ?_, ⟨?_, ?_⟩⟩
  · split_ifs
    · norm_num
    · have : (0 : α) ≤ (sample_size : α) / (data.length : α) := by positivity
      linarith [this, (by norm_num : (0:α) < 0.70), (by norm_num : (0:α) < 0.25)]
  · split_ifs
    · norm_num
    · have hle : (sample_size : α) / (data.length : α) ≤ 1 := by
        rw [div_le_one hpos]; exact_mod_cast hs_le
      norm_num at *
      nlinarith
  · apply Nat.floor_le_of_le
    have : (data.length : α) * adj.1 ≤ (data.length : α) * 1 :=
      mul_le_mul_of_nonneg_left hr1 hpos.le
    simpa using this
  · apply div_nonneg
    · positivity
    · split_ifs <;> norm_num
  · split_ifs <;> omega
  · split_ifs <;> omega

/-- C2 (witness): the statement at a one byte buffer, over the reals with the real `log2`. -/
theorem C2_prediction_well_formed_witness :
    ([0x41] : List Byte) ≠ [] ∧
    0 < (smart_compress_predict (Real.logb 2) [0x41] SMART_STRATEGY_BALANCED).predicted_ratio :=
  ⟨by decide,
   (C2_prediction_well_formed (Real.logb 2) [0x41] SMART_STRATEGY_BALANCED (by decide)).1.1⟩

/-! ## Theorems: optimizer.c -/

theorem search_step_spec {α : Type} [LinearOrderedField α] (codec : trial_codec)
    (data : List Byte) (s : search_state α) (p : Nat) :
    ((0 < (test_preset_compression codec data p 0 : α × Nat).1 ∧
        (test_preset_compression codec data p 0 : α × Nat).1 < s.best_ratio) ∧
      (search_step codec data s p).best_ratio = (test_preset_compression codec data p 0 : α × Nat).1 ∧
      (search_step codec data s p).best_preset = p) ∨
    (¬ (0 < (test_preset_compression codec data p 0 : α × Nat).1 ∧
        (test_preset_compression codec data p 0 : α × Nat).1 < s.best_ratio) ∧
      (search_step codec data s p).best_ratio = s.best_ratio ∧
      (search_step codec data s p).best_preset = s.best_preset) := by
  unfold search_step
  dsimp only
  by_cases h : (0 < (test_preset_compression codec data p 0 : α × Nat).1 ∧
        (test_preset_compression codec data p 0 : α × Nat).1 < s.best_ratio)
  · left
    refine ⟨h, ?_, ?_⟩ <;> simp only [gt_iff_lt, h, and_self, if_true]
  · right
    refine ⟨h, ?_, ?_⟩ <;> simp only [gt_iff_lt, h, if_false]

theorem search_fold_spec {α : Type} [LinearOrderedField α] (codec : trial_codec)
    (data : List Byte) (l : List Nat) (s : search_state α) :
    (l.foldl (search_step codec data) s).best_ratio ≤ s.best_ratio ∧
    (∀ p ∈ l, 0 < (test_preset_compression codec data p 0 : α × Nat).1 →
      (l.foldl (search_step codec data) s).best_ratio ≤
        (test_preset_compression codec data p 0 : α × Nat).1) ∧
    (((l.foldl (search_step codec data) s).best_preset = s.best_preset ∧
        (l.foldl (search_step codec data) s).best_ratio = s.best_ratio ∧
        ∀ p ∈ l, ¬ (0 < (test_preset_compression codec data p 0 : α × Nat).1 ∧
          (test_preset_compression codec data p 0 : α × Nat).1 < s.best_ratio)) ∨
      ((l.foldl (search_step codec data) s).best_preset ∈ l ∧
        (l.foldl (search_step codec data) s).best_ratio =
          (test_preset_compression codec data
            (l.foldl (search_step codec data) s).best_preset 0 : α × Nat).1 ∧
        0 < (l.foldl (search_step codec data) s).best_ratio ∧
        (l.foldl (search_step codec data) s).best_ratio < s.best_ratio)) := by
  induction l generalizing s with
  | nil => simp
  | cons q rest ih =>
    simp only [List.foldl_cons]
    obtain ⟨ih1, ih2, ih3⟩ := ih (search_step codec data s q)
    rcases search_step_spec codec data s q with ⟨⟨hq0, hq1⟩, hr, hp⟩ | ⟨hn, hr, hp⟩
    · rw [hr] at ih1 ih3
      rw [hp] at ih3
      refine ⟨le_trans ih1 hq1.le, ?_, ?_⟩
      · intro p hp' hpos
        rcases List.mem_cons.mp hp' with rfl | hmem
        · exact ih1
        · exact ih2 p hmem hpos
      · right
        rcases ih3 with ⟨e1, e2, _⟩ | ⟨m1, m2, m3, m4⟩
        · refine ⟨?_, ?_, ?_, ?_⟩
          · rw [e1]; exact List.mem_cons_self _ _
          · rw [e1, e2]
          · rw [e2]; exact hq0
          · rw [e2]; exact hq1
        · exact ⟨List.mem_cons_of_mem _ m1, m2, m3, lt_trans m4 hq1⟩
    · rw [hr] at ih1 ih3
      rw [hp] at ih3
      refine ⟨ih1, ?_, ?_⟩
      · intro p hp' hpos
        rcases List.mem_cons.mp hp' with rfl | hmem
        · have : s.best_ratio ≤ (test_preset_compression codec data p 0 : α × Nat).1 := by
            by_contra hc
            exact hn ⟨hpos, not_le.mp hc⟩
          exact le_trans ih1 this
        · exact ih2 p hmem hpos
      · rcases ih3 with ⟨e1, e2, e3⟩ | ⟨m1, m2, m3, m4⟩
        · left
          refine ⟨e1, e2, ?_⟩
          intro p hp'
          rcases List.mem_cons.mp hp' with rfl | hmem
          · exact hn
          · exact e3 p hmem
        · right
          exact ⟨List.mem_cons_of_mem _ m1, m2, m3, m4⟩

theorem mem_preset_range (strategy : optimization_strategy_t) (p : Nat) :
    p ∈ List.range' (preset_range strategy).1
        ((preset_range strategy).2 + 1 - (preset_range strategy).1) ↔
      (preset_range strategy).1 ≤ p ∧ p ≤ (preset_range strategy).2 := by
  rw [List.mem_range'_1]
  cases strategy <;> simp only [preset_range] <;> omega

theorem optimizer_analyze_spec {α : Type} [LinearOrderedField α] (LZMA_PRESET_DEFAULT : Nat)
    (codec : trial_codec) (st : optimizer_state α) (sample : sample_data_t)
    (strategy : optimization_strategy_t) (hne : sample.data ≠ []) :
    (∀ p, (preset_range strategy).1 ≤ p → p ≤ (preset_range strategy).2 →
      0 < (trial_ratio codec sample p : α) →
      (optimizer_analyze LZMA_PRESET_DEFAULT codec st sample strategy).1.estimated_ratio ≤
        trial_ratio codec sample p) ∧
    (((optimizer_analyze LZMA_PRESET_DEFAULT codec st sample strategy).1.optimal_preset =
          LZMA_PRESET_DEFAULT ∧
        (optimizer_analyze LZMA_PRESET_DEFAULT codec st sample strategy).1.estimated_ratio = 1 ∧
        ∀ p, (preset_range strategy).1 ≤ p → p ≤ (preset_range strategy).2 →
          ¬ (0 < (trial_ratio codec sample p : α) ∧ (trial_ratio codec sample p : α) < 1)) ∨
      (((preset_range strategy).1 ≤
            (optimizer_analyze LZMA_PRESET_DEFAULT codec st sample strategy).1.optimal_preset ∧
          (optimizer_analyze LZMA_PRESET_DEFAULT codec st sample strategy).1.optimal_preset ≤
            (preset_range strategy).2) ∧
        (optimizer_analyze LZMA_PRESET_DEFAULT codec st sample strategy).1.estimated_ratio =
          trial_ratio codec sample
            (optimizer_analyze LZMA_PRESET_DEFAULT codec st sample strategy).1.optimal_preset ∧
        0 < (optimizer_analyze LZMA_PRESET_DEFAULT codec st sample strategy).1.estimated_ratio ∧
        (optimizer_analyze LZMA_PRESET_DEFAULT codec st sample strategy).1.estimated_ratio < 1)) := by
  have hlen : ¬ (sample.data.length = 0) := by
    intro h; exact hne (List.length_eq_zero.mp h)
  unfold optimizer_analyze trial_ratio search_loop
  rw [if_neg hlen]
  dsimp only
  obtain ⟨-, h2, h3⟩ := search_fold_spec (α := α) codec
    (List.take (if sample.sample_size > 0 ∧ sample.sample_size < sample.data.length
      then sample.sample_size else sample.data.length) sample.data)
    (List.range' (preset_range strategy).1
      ((preset_range strategy).2 + 1 - (preset_range strategy).1))
    { best_ratio := 1, best_preset := LZMA_PRESET_DEFAULT, best_compressed := 0,
      tests_run := (optimizer_init st).optimizer_tests_run }
  refine ⟨?_, ?_⟩
  · intro p hlo hhi hpos
    exact h2 p ((mem_preset_range strategy p).mpr ⟨hlo, hhi⟩) hpos
  · rcases h3 with ⟨e1, e2, e3⟩ | ⟨m1, m2, m3, m4⟩
    · left
      refine ⟨e1, e2, ?_⟩
      intro p hlo hhi
      exact e3 p ((mem_preset_range strategy p).mpr ⟨hlo, hhi⟩)
    · right
      exact ⟨(mem_preset_range strategy _).mp m1, m2, m3, m4⟩

theorem trial_ratio_failing_codec {α : Type} [LinearOrderedField α] (sample : sample_data_t)
    (p : Nat) : (trial_ratio failing_codec sample p : α) = -1 := by
  simp [trial_ratio, test_preset_compression, failing_codec]

/-- C3 (counterexample): with `LZMA_PRESET_DEFAULT = 6`, a one byte sample, the Speed
strategy and a codec whose encoder never initialises, `optimizer_analyze` returns
`optimal_preset = 6`, outside the Speed range [1,4]. -/
theorem C3_speed_all_trials_fail_gives_default :
    (optimizer_analyze 6 failing_codec optimizer_start ⟨[0x41], 0⟩
        OPT_STRATEGY_SPEED).1.optimal_preset = 6 ∧
    ¬ ((preset_range OPT_STRATEGY_SPEED).1 ≤
          (optimizer_analyze 6 failing_codec optimizer_start ⟨[0x41], 0⟩
            OPT_STRATEGY_SPEED).1.optimal_preset ∧
        (optimizer_analyze 6 failing_codec optimizer_start ⟨[0x41], 0⟩
            OPT_STRATEGY_SPEED).1.optimal_preset ≤ (preset_range OPT_STRATEGY_SPEED).2) := by
  have h : (optimizer_analyze 6 failing_codec optimizer_start ⟨[0x41], 0⟩
        OPT_STRATEGY_SPEED).1.optimal_preset = 6 := by
    rcases (optimizer_analyze_spec 6 failing_codec optimizer_start ⟨[0x41], 0⟩
        OPT_STRATEGY_SPEED (by decide)).2 with ⟨e, _, _⟩ | ⟨_, m2, m3, _⟩
    · exact e
    · rw [m2, trial_ratio_failing_codec] at m3
      norm_num at m3
  rw [h]
  exact ⟨rfl, by decide⟩

/-- C3 (amended): for every non-empty sample, strategy and codec, when some preset of the
strategy's range (Speed [1,4], Ratio [7,9], Balanced [4,7], Custom [1,9]) yields a trial
ratio strictly between 0 and 1, `optimal_preset` lies in that range; when none does,
`optimal_preset` is `LZMA_PRESET_DEFAULT`. -/
theorem C3_optimal_preset_in_range_or_default {α : Type} [LinearOrderedField α]
    (LZMA_PRESET_DEFAULT : Nat) (codec : trial_codec) (st : optimizer_state α)
    (sample : sample_data_t) (strategy : optimization_strategy_t) (hne : sample.data ≠ []) :
    ((∃ p, (preset_range strategy).1 ≤ p ∧ p ≤ (preset_range strategy).2 ∧
          0 < (trial_ratio codec sample p : α) ∧ (trial_ratio codec sample p : α) < 1) →
      (preset_range strategy).1 ≤
          (optimizer_analyze LZMA_PRESET_DEFAULT codec st sample strategy).1.optimal_preset ∧
        (optimizer_analyze LZMA_PRESET_DEFAULT codec st sample strategy).1.optimal_preset ≤
          (preset_range strategy).2) ∧
    ((¬ ∃ p, (preset_range strategy).1 ≤ p ∧ p ≤ (preset_range strategy).2 ∧
          0 < (trial_ratio codec sample p : α) ∧ (trial_ratio codec sample p : α) < 1) →
      (optimizer_analyze LZMA_PRESET_DEFAULT codec st sample strategy).1.optimal_preset =
        LZMA_PRESET_DEFAULT) := by
  obtain ⟨-, h⟩ := optimizer_analyze_spec LZMA_PRESET_DEFAULT codec st sample strategy hne
  constructor
  · rintro ⟨p, hlo, hhi, h0, h1⟩
    rcases h with ⟨_, _, e3⟩ | ⟨m1, _, _, _⟩
    · exact absurd ⟨h0, h1⟩ (e3 p hlo hhi)
    · exact m1
  · intro hno
    rcases h with ⟨e1, _, _⟩ | ⟨m1, m2, m3, m4⟩
    · exact e1
    · exact absurd ⟨_, m1.1, m1.2, m2 ▸ m3, m2 ▸ m4⟩ hno

/-- C3 (witness): the amended statement at a four byte sample, once with a codec whose
every trial reaches ratio 1/4 under the Speed strategy, once with every trial failing
under the Ratio strategy. -/
theorem C3_optimal_preset_in_range_or_default_witness :
    (⟨[0x41, 0x42, 0x43, 0x44], 0⟩ : sample_data_t).data ≠ [] ∧
    (1 ≤ (optimizer_analyze 6 compressing_codec optimizer_start ⟨[0x41, 0x42, 0x43, 0x44], 0⟩
          OPT_STRATEGY_SPEED).1.optimal_preset ∧
      (optimizer_analyze 6 compressing_codec optimizer_start ⟨[0x41, 0x42, 0x43, 0x44], 0⟩
          OPT_STRATEGY_SPEED).1.optimal_preset ≤ 4) ∧
    (optimizer_analyze 6 failing_codec optimizer_start ⟨[0x41, 0x42, 0x43, 0x44], 0⟩
        OPT_STRATEGY_RATIO).1.optimal_preset = 6 :=
  ⟨by decide,
   (C3_optimal_preset_in_range_or_default 6 compressing_codec optimizer_start
      ⟨[0x41, 0x42, 0x43, 0x44], 0⟩ OPT_STRATEGY_SPEED (by decide)).1
    ⟨1, by decide, by decide,
      by simp [trial_ratio, test_preset_compression, compressing_codec],
      by simp [trial_ratio, test_preset_compression, compressing_codec]; norm_num⟩,
   (C3_optimal_preset_in_range_or_default 6 failing_codec optimizer_start
      ⟨[0x41, 0x42, 0x43, 0x44], 0⟩ OPT_STRATEGY_RATIO (by decide)).2
    (by
      rintro ⟨p, _, _, h0, _⟩
      rw [trial_ratio_failing_codec] at h0
      norm_num at h0)⟩

/-- C4 (counterexample): with `LZMA_PRESET_DEFAULT = 6`, a one byte sample, the Balanced
strategy and a codec whose encoder never initialises, the trial of preset 6 fails (ratio
`-1.0`), preset 6 lies in the Balanced range [4,7], and `optimal_preset` is 6. -/
theorem C4_failed_preset_is_returned :
    (trial_ratio failing_codec ⟨[0x41], 0⟩ 6 : ℚ) = -1 ∧
    ((preset_range OPT_STRATEGY_BALANCED).1 ≤ 6 ∧ 6 ≤ (preset_range OPT_STRATEGY_BALANCED).2) ∧
    (optimizer_analyze 6 failing_codec optimizer_start ⟨[0x41], 0⟩
        OPT_STRATEGY_BALANCED).1.optimal_preset = 6 := by
  refine ⟨trial_ratio_failing_codec _ _, by decide, ?_⟩
  rcases (optimizer_analyze_spec 6 failing_codec optimizer_start ⟨[0x41], 0⟩
      OPT_STRATEGY_BALANCED (by decide)).2 with ⟨e, _, _⟩ | ⟨_, m2, m3, _⟩
  · exact e
  · rw [m2, trial_ratio_failing_codec] at m3
    norm_num at m3

/-- C4 (amended): for every non-empty sample and strategy, `estimated_ratio` is at most the
trial ratio of every preset of the range whose trial succeeded with a non-empty output
(ratio positive); a failed trial (ratio `-1.0`) never updates the best result, so a preset
of the range whose trial failed equals `optimal_preset` only when it is the initial
`LZMA_PRESET_DEFAULT`, `estimated_ratio` is the initial 1.0 and no trial of the range
reached a ratio strictly between 0 and 1. -/
theorem C4_best_of_range {α : Type} [LinearOrderedField α]
    (LZMA_PRESET_DEFAULT : Nat) (codec : trial_codec) (st : optimizer_state α)
    (sample : sample_data_t) (strategy : optimization_strategy_t) (hne : sample.data ≠ []) :
    (∀ p, (preset_range strategy).1 ≤ p → p ≤ (preset_range strategy).2 →
      0 < (trial_ratio codec sample p : α) →
      (optimizer_analyze LZMA_PRESET_DEFAULT codec st sample strategy).1.estimated_ratio ≤
        trial_ratio codec sample p) ∧
    (∀ p, (preset_range strategy).1 ≤ p → p ≤ (preset_range strategy).2 →
      (trial_ratio codec sample p : α) ≤ 0 →
      (optimizer_analyze LZMA_PRESET_DEFAULT codec st sample strategy).1.optimal_preset = p →
      p = LZMA_PRESET_DEFAULT ∧
        (optimizer_analyze LZMA_PRESET_DEFAULT codec st sample strategy).1.estimated_ratio = 1 ∧
        ∀ q, (preset_range strategy).1 ≤ q → q ≤ (preset_range strategy).2 →
          ¬ (0 < (trial_ratio codec sample q : α) ∧ (trial_ratio codec sample q : α) < 1)) := by
  obtain ⟨h1, h⟩ := optimizer_analyze_spec LZMA_PRESET_DEFAULT codec st sample strategy hne
  refine ⟨h1, ?_⟩
  intro p _ _ hfail hp
  rcases h with ⟨e1, e2, e3⟩ | ⟨_, m2, m3, _⟩
  · exact ⟨hp ▸ e1, e2, e3⟩
  · rw [m2, hp] at m3
    exact absurd m3 (not_lt.mpr hfail)

/-- C4 (witness): the amended statement at a failing codec under the Custom strategy. -/
theorem C4_best_of_range_witness :
    (⟨[0x41], 0⟩ : sample_data_t).data ≠ [] ∧
    (6 = 6 ∧
      (optimizer_analyze 6 failing_codec optimizer_start ⟨[0x41], 0⟩
        OPT_STRATEGY_CUSTOM).1.estimated_ratio = 1) := by
  have h6 : (optimizer_analyze 6 failing_codec optimizer_start ⟨[0x41], 0⟩
      OPT_STRATEGY_CUSTOM).1.optimal_preset = 6 := by
    rcases (optimizer_analyze_spec 6 failing_codec optimizer_start ⟨[0x41], 0⟩
        OPT_STRATEGY_CUSTOM (by decide)).2 with ⟨e, _, _⟩ | ⟨_, m2, m3, _⟩
    · exact e
    · rw [m2, trial_ratio_failing_codec] at m3
      norm_num at m3
  have h := (C4_best_of_range 6 failing_codec optimizer_start ⟨[0x41], 0⟩
      OPT_STRATEGY_CUSTOM (by decide)).2 6 (by decide) (by decide)
      (by rw [trial_ratio_failing_codec]; norm_num) h6
  exact ⟨by decide, h.1, h.2.1⟩

/-! ## Theorems: parallel.c -/

theorem memory_per_thread_ne_zero (b : Nat) (hb : b < 2 ^ 64) :
    (3 * (if b = 0 then 3 * 1024 * 1024 else b)) % 2 ^ 64 ≠ 0 := by
  have h64 : (2 : Nat) ^ 64 = 18446744073709551616 := by norm_num
  rw [h64] at hb ⊢
  split_ifs with h
  · norm_num
  · intro h0
    have hd : 18446744073709551616 ∣ 3 * b := Nat.dvd_of_mod_eq_zero h0
    have hc : Nat.Coprime 18446744073709551616 3 := by norm_num
    have h1 := hc.dvd_of_dvd_mul_left hd
    have h2 := Nat.le_of_dvd (Nat.pos_of_ne_zero h) h1
    exact absurd hb (not_lt.mpr h2)

theorem parallel_init_block_size (hardware_threads : Nat) (st : parallel_state)
    (hb : st.current_config.block_size < 2 ^ 64) :
    (if !st.parallel_initialized then parallel_init hardware_threads st
      else st).current_config.block_size < 2 ^ 64 := by
  unfold parallel_init
  cases h : st.parallel_initialized
  · simp only [Bool.not_false, if_true, Bool.false_eq_true, if_false]
    exact Nat.pos_of_ne_zero (by norm_num)
  · simpa [h] using hb

/-- C5: for every file size, every amount of available memory and every configured block
size (a 64-bit value), `parallel_get_optimal_threads` returns a value `t` with
`1 ≤ t ≤ max(1, hardware thread count)`; its division never divides by zero. -/
theorem C5_optimal_threads_bounds (hardware_threads : Nat) (st : parallel_state)
    (file_size available_memory : Nat) (hb : st.current_config.block_size < 2 ^ 64) :
    ∃ t, (parallel_get_optimal_threads hardware_threads st file_size available_memory).1 =
        some t ∧ 1 ≤ t ∧ t ≤ max 1 hardware_threads := by
  have hb2 := parallel_init_block_size hardware_threads st hb
  have hne := memory_per_thread_ne_zero _ hb2
  unfold parallel_get_optimal_threads
  dsimp only
  rw [if_neg hne]
  refine ⟨_, rfl, ?_, ?_⟩
  · generalize (available_memory / _) % 2 ^ 32 = m
    clear hne hb2 hb
    split_ifs <;> omega
  · generalize (available_memory / _) % 2 ^ 32 = m
    clear hne hb2 hb
    split_ifs <;> omega

/-- C5 (witness): the statement at the initial configuration with 4 hardware threads, a
200 MiB file and 1 GiB of memory. -/
theorem C5_optimal_threads_bounds_witness :
    parallel_start.current_config.block_size < 2 ^ 64 ∧
    ∃ t, (parallel_get_optimal_threads 4 parallel_start (200 * 1024 * 1024)
        (1024 * 1024 * 1024)).1 = some t ∧ 1 ≤ t ∧ t ≤ max 1 4 :=
  ⟨by decide,
   C5_optimal_threads_bounds 4 parallel_start (200 * 1024 * 1024) (1024 * 1024 * 1024)
    (by decide)⟩

/-- C6 (failing input): at `threads = 2 ^ 30` the 32-bit product `threads * 4` wraps to 0,
so `parallel_get_optimal_block_size` divides by zero and returns no value, whatever the
file size. -/
theorem C6_block_size_divides_by_zero (file_size : Nat) :
    parallel_get_optimal_block_size 1073741824 file_size = none := by
  unfold parallel_get_optimal_block_size
  dsimp only
  rw [if_pos (by decide)]

theorem optimal_block_size_small_threads (threads file_size : Nat) (ht : threads < 2 ^ 30) :
    ∃ b, parallel_get_optimal_block_size threads file_size = some b ∧
      64 * 1024 ≤ b ∧ b ≤ 64 * 1024 * 1024 := by
  have h32 : (2 : Nat) ^ 32 = 4294967296 := by norm_num
  have h30 : (2 : Nat) ^ 30 = 1073741824 := by norm_num
  rw [h30] at ht
  have hne : ¬ (((if threads = 0 then 1 else threads) * 4) % 2 ^ 32 = 0) := by
    rw [h32]; split_ifs with h0
    · norm_num
    · omega
  unfold parallel_get_optimal_block_size
  dsimp only
  rw [if_neg hne]
  refine ⟨_, rfl, ?_, ?_⟩
  · generalize file_size / _ = q
    split_ifs <;> omega
  · generalize file_size / _ = q
    split_ifs <;> omega


/-! ## Theorems: smart_compress.c, quality score -/

/-- C9 (failing input): for the record with ratio 1.0, speed -50 MB/s and 1000 MB under the
Speed strategy, `smart_compress_calculate_quality` returns `speed_score = -100` and
`overall_score = -60`, both below 0: the speed score is clamped from above only. -/
theorem C9_negative_speed_scores_below_zero :
    (smart_compress_calculate_quality (some negative_speed_result)
        SMART_STRATEGY_SPEED).speed_score = -100 ∧
    (smart_compress_calculate_quality (some negative_speed_result)
        SMART_STRATEGY_SPEED).overall_score = -60 := by
  unfold smart_compress_calculate_quality
  dsimp only [negative_speed_result]
  norm_num

theorem grade_of_band_eq {α : Type} [LinearOrderedField α] (score : α) :
    grade_of_band score =
      (if score ≥ 95 then "A+"
        else if score ≥ 90 then "A"
        else if score ≥ 85 then "B+"
        else if score ≥ 80 then "B"
        else if score ≥ 75 then "C+"
        else if score ≥ 70 then "C"
        else if score ≥ 60 then "D"
        else "F") := by
  unfold grade_of_band grade_bands
  by_cases h95 : (95 : α) ≤ score
  · simp [List.find?, h95]
  by_cases h90 : (90 : α) ≤ score
  · simp [List.find?, h95, h90]
  by_cases h85 : (85 : α) ≤ score
  · simp [List.find?, h95, h90, h85]
  by_cases h80 : (80 : α) ≤ score
  · simp [List.find?, h95, h90, h85, h80]
  by_cases h75 : (75 : α) ≤ score
  · simp [List.find?, h95, h90, h85, h80, h75]
  by_cases h70 : (70 : α) ≤ score
  · simp [List.find?, h95, h90, h85, h80, h75, h70]
  by_cases h60 : (60 : α) ≤ score
  · simp [List.find?, h95, h90, h85, h80, h75, h70, h60]
  · simp [List.find?, h95, h90, h85, h80, h75, h70, h60]

theorem grade_rank_of_band {α : Type} [LinearOrderedField α] (score : α) :
    grade_rank (grade_of_band score) = band_index score := by
  rw [grade_of_band_eq]
  unfold band_index
  split_ifs <;> decide

theorem band_index_ge {α : Type} [LinearOrderedField α] (score : α) :
    (95 ≤ score → 7 ≤ band_index score) ∧ (90 ≤ score → 6 ≤ band_index score) ∧
    (85 ≤ score → 5 ≤ band_index score) ∧ (80 ≤ score → 4 ≤ band_index score) ∧
    (75 ≤ score → 3 ≤ band_index score) ∧ (70 ≤ score → 2 ≤ band_index score) ∧
    (60 ≤ score → 1 ≤ band_index score) := by
  unfold band_index
  refine ⟨?_, ?_, ?_, ?_, ?_, ?_, ?_⟩ <;> intro h <;> split_ifs <;> omega

theorem band_index_cases {α : Type} [LinearOrderedField α] (score : α) :
    (95 ≤ score ∧ band_index score = 7) ∨ (90 ≤ score ∧ band_index score = 6) ∨
    (85 ≤ score ∧ band_index score = 5) ∨ (80 ≤ score ∧ band_index score = 4) ∨
    (75 ≤ score ∧ band_index score = 3) ∨ (70 ≤ score ∧ band_index score = 2) ∨
    (60 ≤ score ∧ band_index score = 1) ∨ band_index score = 0 := by
  unfold band_index
  split_ifs with h95 h90 h85 h80 h75 h70 h60
  · exact Or.inl ⟨h95, rfl⟩
  · exact Or.inr (Or.inl ⟨h90, rfl⟩)
  · exact Or.inr (Or.inr (Or.inl ⟨h85, rfl⟩))
  · exact Or.inr (Or.inr (Or.inr (Or.inl ⟨h80, rfl⟩)))
  · exact Or.inr (Or.inr (Or.inr (Or.inr (Or.inl ⟨h75, rfl⟩))))
  · exact Or.inr (Or.inr (Or.inr (Or.inr (Or.inr (Or.inl ⟨h70, rfl⟩)))))
  · exact Or.inr (Or.inr (Or.inr (Or.inr (Or.inr (Or.inr (Or.inl ⟨h60, rfl⟩))))))
  · exact Or.inr (Or.inr (Or.inr (Or.inr (Or.inr (Or.inr (Or.inr rfl))))))

theorem band_index_mono {α : Type} [LinearOrderedField α] (a b : α) (h : a < b) :
    band_index a ≤ band_index b := by
  obtain ⟨g7, g6, g5, g4, g3, g2, g1⟩ := band_index_ge b
  have key : ∀ t : α, t ≤ a → t ≤ b := fun t ht => le_trans ht h.le
  rcases band_index_cases a with ⟨c, e⟩ | ⟨c, e⟩ | ⟨c, e⟩ | ⟨c, e⟩ | ⟨c, e⟩ | ⟨c, e⟩ | ⟨c, e⟩ | e <;>
    rw [e]
  · exact g7 (key _ c)
  · exact g6 (key _ c)
  · exact g5 (key _ c)
  · exact g4 (key _ c)
  · exact g3 (key _ c)
  · exact g2 (key _ c)
  · exact g1 (key _ c)
  · exact Nat.zero_le _

theorem grade_rank_mono {α : Type} [LinearOrderedField α] (a b : α) (h : a < b) :
    grade_rank (grade_of_band a) ≤ grade_rank (grade_of_band b) := by
  rw [grade_rank_of_band, grade_rank_of_band]
  exact band_index_mono a b h

theorem quality_grade_eq {α : Type} [LinearOrderedField α] (r : benchmark_result_t α)
    (strategy : smart_strategy_t) :
    (smart_compress_calculate_quality (some r) strategy).quality_grade =
      grade_of_band (smart_compress_calculate_quality (some r) strategy).overall_score := by
  rw [grade_of_band_eq]
  rfl

theorem grade_of_band_ne_empty {α : Type} [LinearOrderedField α] (score : α) :
    grade_of_band score ≠ "" := by
  rw [grade_of_band_eq]
  split_ifs <;> decide

/-- C10: the grade assigned by `smart_compress_calculate_quality` to a non-null result is
the letter of the band of its `overall_score` (≥95 A+, ≥90 A, ≥85 B+, ≥80 B, ≥75 C+, ≥70 C,
≥60 D, otherwise F); it is never empty; and for any two results a strictly higher
`overall_score` never has a lower grade in the order F < D < C < C+ < B < B+ < A < A+. -/
theorem C10_grade_is_band_and_monotone {α : Type} [LinearOrderedField α]
    (r r' : benchmark_result_t α) (s s' : smart_strategy_t) :
    (smart_compress_calculate_quality (some r) s).quality_grade =
      grade_of_band (smart_compress_calculate_quality (some r) s).overall_score ∧
    (smart_compress_calculate_quality (some r) s).quality_grade ≠ "" ∧
    ((smart_compress_calculate_quality (some r) s).overall_score <
        (smart_compress_calculate_quality (some r') s').overall_score →
      grade_rank (smart_compress_calculate_quality (some r) s).quality_grade ≤
        grade_rank (smart_compress_calculate_quality (some r') s').quality_grade) := by
  refine ⟨quality_grade_eq r s, ?_, ?_⟩
  · rw [quality_grade_eq]; exact grade_of_band_ne_empty _
  · intro h
    rw [quality_grade_eq r s, quality_grade_eq r' s']
    exact grade_rank_mono _ _ h

/-- C10 (witness): the record of the unit test under Balanced against a record with all
three scores at 100 under Speed. -/
theorem C10_grade_is_band_and_monotone_witness :
    (smart_compress_calculate_quality (some test_result) SMART_STRATEGY_BALANCED).overall_score <
        (smart_compress_calculate_quality (some perfect_result)
          SMART_STRATEGY_SPEED).overall_score ∧
    grade_rank (smart_compress_calculate_quality (some test_result)
          SMART_STRATEGY_BALANCED).quality_grade ≤
      grade_rank (smart_compress_calculate_quality (some perfect_result)
          SMART_STRATEGY_SPEED).quality_grade :=
  have h : (smart_compress_calculate_quality (some test_result)
        SMART_STRATEGY_BALANCED).overall_score <
      (smart_compress_calculate_quality (some perfect_result)
        SMART_STRATEGY_SPEED).overall_score := by
    unfold smart_compress_calculate_quality
    dsimp only [test_result, perfect_result]
    norm_num
  ⟨h, (C10_grade_is_band_and_monotone test_result perfect_result SMART_STRATEGY_BALANCED
    SMART_STRATEGY_SPEED).2.2 h⟩


/-! ## Theorems: smart_compress.c, entropy -/

theorem count_frequencies_fold (data : List Byte) (acc : Byte → Nat) (b : Byte) :
    data.foldl (fun freq x => Function.update freq x (freq x + 1)) acc b =
      acc b + data.count b := by
  induction data generalizing acc with
  | nil => simp
  | cons x rest ih =>
    rw [List.foldl_cons, ih, List.count_cons]
    by_cases h : x = b
    · subst h; simp; omega
    · have h2 : b ≠ x := fun e => h e.symm
      simp [Function.update_noteq h2, h]

theorem count_frequencies_eq (data : List Byte) (b : Byte) :
    count_frequencies data b = data.count b := by
  unfold count_frequencies
  rw [count_frequencies_fold]
  simp

theorem entropy_fold_eq_sum {α : Type} [LinearOrderedField α] (c : Byte → Prop)
    [DecidablePred c] (f : Byte → α) (l : List Byte) (init : α) :
    l.foldl (fun entropy i => if c i then entropy - f i else entropy) init =
      init + (l.map (fun i => if c i then - f i else 0)).sum := by
  induction l generalizing init with
  | nil => simp
  | cons x rest ih =>
    rw [List.foldl_cons, ih, List.map_cons, List.sum_cons]
    split_ifs <;> ring

theorem calculate_entropy_eq_sum {α : Type} [LinearOrderedField α] (log2 : α → α)
    (data : List Byte) (hne : data ≠ []) :
    calculate_entropy log2 data =
      ∑ i : Byte, (if 0 < data.count i then
        - (((data.count i : α) / (data.length : α)) *
            log2 ((data.count i : α) / (data.length : α))) else 0) := by
  have hlen : ¬ (data.length = 0) := by
    intro h; exact hne (List.length_eq_zero.mp h)
  unfold calculate_entropy
  rw [if_neg hlen]
  dsimp only
  rw [entropy_fold_eq_sum (fun i => count_frequencies data i > 0), zero_add, Fin.sum_univ_def]
  refine congrArg List.sum ?_
  apply List.map_congr_left
  intro i _
  simp only [count_frequencies_eq, gt_iff_lt]

theorem calculate_entropy_replicate {α : Type} [LinearOrderedField α] (log2 : α → α)
    (hlog : log2 1 = 0) (N : Nat) (b : Byte) :
    calculate_entropy log2 (List.replicate N b) = 0 := by
  rcases Nat.eq_zero_or_pos N with h0 | hpos
  · subst h0
    simp [calculate_entropy]
  · have hne : List.replicate N b ≠ [] := by
      intro h
      have := congrArg List.length h
      simp at this
      omega
    rw [calculate_entropy_eq_sum log2 _ hne]
    apply Finset.sum_eq_zero
    intro i _
    rw [List.count_replicate, List.length_replicate]
    by_cases hbi : b = i
    · subst hbi
      have hN : (N : α) ≠ 0 := by exact_mod_cast hpos.ne'
      simp [hpos, div_self hN, hlog]
    · simp [hbi]

/-- C7: for every N (in particular every N > 0) and every byte value b, the entropy that
`calculate_entropy` computes, with the real base 2 logarithm, over a buffer of N copies of
b is exactly 0. -/
theorem C7_entropy_of_constant_buffer (N : Nat) (b : Byte) :
    calculate_entropy (Real.logb 2) (List.replicate N b) = 0 :=
  calculate_entropy_replicate (Real.logb 2) Real.logb_one N b

theorem sum_count_eq_length (data : List Byte) :
    ∑ i : Byte, data.count i = data.length := by
  have h := Multiset.sum_count_eq_card (s := (Finset.univ : Finset Byte))
    (m := (data : Multiset Byte)) (fun a _ => Finset.mem_univ a)
  simpa using h

theorem entropy_term_nonneg (p : ℝ) (h0 : 0 ≤ p) (h1 : p ≤ 1) :
    0 ≤ - (p * Real.logb 2 p) := by
  have hl : Real.logb 2 p ≤ 0 := Real.logb_nonpos (by norm_num) h0 h1
  have := mul_nonpos_of_nonneg_of_nonpos h0 hl
  linarith

theorem entropy_term_le (p : ℝ) (hp : 0 < p) :
    - (p * Real.logb 2 p) ≤ 8 * p + (1 / 256 - p) / Real.log 2 := by
  have hlog2 : 0 < Real.log 2 := Real.log_pos (by norm_num)
  have h256 : Real.log 256 = 8 * Real.log 2 := by
    have : (256 : ℝ) = 2 ^ 8 := by norm_num
    rw [this, Real.log_pow]; norm_num
  have hx : 0 < 1 / (256 * p) := by positivity
  have hle := Real.log_le_sub_one_of_pos hx
  have hexp : Real.log (1 / (256 * p)) = - (8 * Real.log 2) - Real.log p := by
    rw [one_div, Real.log_inv, Real.log_mul (by norm_num) hp.ne', h256]; ring
  rw [hexp] at hle
  have hmul : p * (-(8 * Real.log 2) - Real.log p) ≤ p * (1 / (256 * p) - 1) :=
    mul_le_mul_of_nonneg_left hle hp.le
  have hsimp : p * (1 / (256 * p) - 1) = 1 / 256 - p := by
    field_simp
    ring
  rw [hsimp] at hmul
  unfold Real.logb
  have e1 : -(p * (Real.log p / Real.log 2)) = (-(p * Real.log p)) / Real.log 2 := by ring
  have e2 : 8 * p + (1 / 256 - p) / Real.log 2 =
      (8 * p * Real.log 2 + (1 / 256 - p)) / Real.log 2 := by
    field_simp
    ring
  rw [e1, e2]
  apply (div_le_div_iff_of_pos_right hlog2).mpr
  linarith [hmul]

theorem sum_probabilities (data : List Byte) (hne : data ≠ []) :
    ∑ i : Byte, ((data.count i : ℝ) / (data.length : ℝ)) = 1 := by
  have hpos : (0 : ℝ) < (data.length : ℝ) := by
    have : 0 < data.length := List.length_pos.mpr hne
    exact_mod_cast this
  rw [← Finset.sum_div, ← Nat.cast_sum, sum_count_eq_length, div_self hpos.ne']

theorem logb_two_inv_256 : Real.logb 2 (1 / 256) = -8 := by
  have h : (256 : ℝ) = 2 ^ 8 := by norm_num
  rw [one_div, Real.logb_inv, h, Real.logb_pow, Real.logb_self_eq_one (by norm_num)]
  norm_num

/-- C8: for every byte buffer the entropy computed by `calculate_entropy`, with the real
base 2 logarithm, lies in [0, 8]; and it equals 8 when each of the 256 byte values occurs
in the buffer the same number k ≥ 1 of times. -/
theorem C8_entropy_range (data : List Byte) :
    (0 ≤ calculate_entropy (Real.logb 2) data ∧ calculate_entropy (Real.logb 2) data ≤ 8) ∧
    ∀ k : Nat, 0 < k → (∀ b : Byte, data.count b = k) →
      calculate_entropy (Real.logb 2) data = 8 := by
  by_cases hne : data = []
  · subst hne
    refine ⟨by simp [calculate_entropy], ?_⟩
    intro k hk h
    have := h 0
    simp at this
    omega
  have hlenpos : 0 < data.length := List.length_pos.mpr hne
  have hpos : (0 : ℝ) < (data.length : ℝ) := by exact_mod_cast hlenpos
  have hlog2 : 0 < Real.log 2 := Real.log_pos (by norm_num)
  rw [calculate_entropy_eq_sum _ _ hne]
  refine ⟨⟨?_, ?_⟩, ?_⟩
  · apply Finset.sum_nonneg
    intro i _
    split_ifs with hc
    · apply entropy_term_nonneg
      · positivity
      · rw [div_le_one hpos]
        exact_mod_cast List.count_le_length i data
    · exact le_refl 0
  · have hbound : ∀ i : Byte,
        (if 0 < data.count i then
          - (((data.count i : ℝ) / (data.length : ℝ)) *
              Real.logb 2 ((data.count i : ℝ) / (data.length : ℝ))) else 0) ≤
        8 * ((data.count i : ℝ) / (data.length : ℝ)) +
          (1 / 256 - (data.count i : ℝ) / (data.length : ℝ)) / Real.log 2 := by
      intro i
      split_ifs with hc
      · apply entropy_term_le
        have : (0 : ℝ) < (data.count i : ℝ) := by exact_mod_cast hc
        positivity
      · have h0 : data.count i = 0 := by omega
        rw [h0]
        simp only [Nat.cast_zero, zero_div, mul_zero, sub_zero, zero_add]
        positivity
    calc _ ≤ ∑ i : Byte, (8 * ((data.count i : ℝ) / (data.length : ℝ)) +
          (1 / 256 - (data.count i : ℝ) / (data.length : ℝ)) / Real.log 2) :=
        Finset.sum_le_sum (fun i _ => hbound i)
      _ = 8 := by
        have s1 : ∑ i : Byte, 8 * ((data.count i : ℝ) / (data.length : ℝ)) = 8 := by
          rw [← Finset.mul_sum, sum_probabilities data hne, mul_one]
        have s2 : ∑ i : Byte,
            (1 / 256 - (data.count i : ℝ) / (data.length : ℝ)) / Real.log 2 = 0 := by
          rw [← Finset.sum_div, Finset.sum_sub_distrib, sum_probabilities data hne,
            Finset.sum_const, Finset.card_univ, Fintype.card_fin, nsmul_eq_mul]
          norm_num
        rw [Finset.sum_add_distrib, s1, s2, add_zero]
  · intro k hk h
    have hn : data.length = 256 * k := by
      rw [← sum_count_eq_length, Finset.sum_congr rfl (fun i _ => h i), Finset.sum_const,
        Finset.card_univ, Fintype.card_fin, smul_eq_mul]
    have hk' : (k : ℝ) ≠ 0 := by exact_mod_cast hk.ne'
    have hp : ((k : ℝ) / ((256 * k : Nat) : ℝ)) = 1 / 256 := by
      push_cast
      field_simp
      ring
    have hterm : ∀ i : Byte,
        (if 0 < data.count i then
          - (((data.count i : ℝ) / (data.length : ℝ)) *
              Real.logb 2 ((data.count i : ℝ) / (data.length : ℝ))) else 0) = 8 / 256 := by
      intro i
      rw [h i, hn, if_pos hk, hp, logb_two_inv_256]
      norm_num
    rw [Finset.sum_congr rfl (fun i _ => hterm i), Finset.sum_const, Finset.card_univ,
      Fintype.card_fin, nsmul_eq_mul]
    norm_num

/-- C8 (witness): the buffer 00 01 ... FF, in which every byte value occurs once, has
entropy 8. -/
theorem C8_entropy_range_witness :
    0 < 1 ∧ (∀ b : Byte, (List.finRange 256).count b = 1) ∧
    calculate_entropy (Real.logb 2) (List.finRange 256) = 8 :=
  ⟨Nat.one_pos,
   fun b => List.count_eq_one_of_mem (List.nodup_finRange 256) (List.mem_finRange b),
   (C8_entropy_range (List.finRange 256)).2 1 Nat.one_pos
    (fun b => List.count_eq_one_of_mem (List.nodup_finRange 256) (List.mem_finRange b))⟩

/-! ## Theorems: recovery.c -/

theorem recovery_attempt_small_capacity {α : Type} [LinearOrderedField α]
    (decoder : tolerant_decoder) (st : recovery_state α) (corrupted_data : List Byte)
    (recovered_size : Nat) (mode : recovery_mode_t)
    (h : recovered_size < corrupted_data.length) :
    recovery_attempt decoder st corrupted_data recovered_size mode =
      (false, recovered_size, st) := by
  unfold recovery_attempt
  rw [if_pos h]

theorem recovery_attempt_corrupted_blocks {α : Type} [LinearOrderedField α]
    (decoder : tolerant_decoder) (st : recovery_state α) (corrupted_data : List Byte)
    (recovered_size : Nat) (mode : recovery_mode_t)
    (h : corrupted_data.length ≤ recovered_size) :
    (recovery_attempt decoder st corrupted_data recovered_size mode).2.2.stats.corrupted_blocks =
      (st.stats.corrupted_blocks + 1) % 2 ^ 32 := by
  unfold recovery_attempt
  rw [if_neg (not_lt.mpr h)]
  dsimp only
  split_ifs <;> rfl

/-- C11 (counterexample): a call on the six byte header with an output capacity of 0 and
non-null buffers returns at the capacity guard and leaves `corrupted_blocks` at 0. -/
theorem C11_small_capacity_is_not_counted :
    (recovery_attempt uninitialised_decoder (recovery_start : recovery_state ℚ)
        test_corrupted_data 0 RECOVERY_AGGRESSIVE).2.2.stats.corrupted_blocks = 0 := by
  rw [recovery_attempt_small_capacity _ _ _ _ _ (by decide)]
  rfl

/-- C11 (amended): a call of `recovery_attempt` with non-null buffers whose output capacity
is at least the input size increases `corrupted_blocks` by exactly one (as a `uint32_t`,
so modulo 2^32), whatever the input bytes, the mode and the outcome of the call; a call
whose output capacity is smaller than the input size reports failure and leaves the
statistics unchanged. -/
theorem C11_corrupted_blocks_incremented {α : Type} [LinearOrderedField α]
    (decoder : tolerant_decoder) (st : recovery_state α) (corrupted_data : List Byte)
    (recovered_size : Nat) (mode : recovery_mode_t) :
    (corrupted_data.length ≤ recovered_size →
      (recovery_attempt decoder st corrupted_data recovered_size
          mode).2.2.stats.corrupted_blocks = (st.stats.corrupted_blocks + 1) % 2 ^ 32 ∧
      (st.stats.corrupted_blocks + 1 < 2 ^ 32 →
        (recovery_attempt decoder st corrupted_data recovered_size
          mode).2.2.stats.corrupted_blocks = st.stats.corrupted_blocks + 1)) ∧
    (recovered_size < corrupted_data.length →
      (recovery_attempt decoder st corrupted_data recovered_size mode).1 = false ∧
      (recovery_attempt decoder st corrupted_data recovered_size mode).2.2 = st) := by
  constructor
  · intro h
    have e := recovery_attempt_corrupted_blocks decoder st corrupted_data recovered_size mode h
    refine ⟨e, ?_⟩
    intro hlt
    rw [e, Nat.mod_eq_of_lt hlt]
  · intro h
    rw [recovery_attempt_small_capacity decoder st corrupted_data recovered_size mode h]
    exact ⟨rfl, rfl⟩

/-- C11 (witness): the amended statement at the six byte header with capacity 6 from the
initial statics. -/
theorem C11_corrupted_blocks_incremented_witness :
    test_corrupted_data.length ≤ 6 ∧
    (recovery_attempt uninitialised_decoder (recovery_start : recovery_state ℚ)
        test_corrupted_data 6 RECOVERY_AGGRESSIVE).2.2.stats.corrupted_blocks = 0 + 1 :=
  ⟨by decide,
   ((C11_corrupted_blocks_incremented uninitialised_decoder (recovery_start : recovery_state ℚ)
      test_corrupted_data 6 RECOVERY_AGGRESSIVE).1 (by decide)).2 (by decide)⟩

/-- C12 (counterexample): with the initial `current_mode` (Partial), a call with mode None
whose decoder writes one byte and then reports a data error reports success. -/
theorem C12_mode_none_partial_success :
    (recovery_attempt one_byte_then_error_decoder (recovery_start : recovery_state ℚ)
        test_corrupted_data 6 RECOVERY_NONE).1 = true := by
  decide

/-- C12 (amended): `recovery_attempt` reports success if and only if the output capacity is
at least the input size, the decoder was set up, and either `lzma_code` finished without
error (`LZMA_STREAM_END` or `LZMA_OK`) or at least one byte was produced and the effective
mode is at least Partial, the effective mode being the mode passed to the call, or
`current_mode` when the mode passed is None.  A call with mode None that hits a decode
error after producing bytes reports failure only when `current_mode` is None. -/
theorem C12_success_iff {α : Type} [LinearOrderedField α]
    (decoder : tolerant_decoder) (st : recovery_state α) (corrupted_data : List Byte)
    (recovered_size : Nat) (mode : recovery_mode_t) :
    (recovery_attempt decoder st corrupted_data recovered_size mode).1 = true ↔
      corrupted_data.length ≤ recovered_size ∧
      (decoder corrupted_data recovered_size).init_ret = LZMA_OK ∧
      (((decoder corrupted_data recovered_size).code_ret = LZMA_STREAM_END ∨
          (decoder corrupted_data recovered_size).code_ret = LZMA_OK) ∨
        (recovery_mode_value RECOVERY_PARTIAL ≤
            recovery_mode_value (if mode = RECOVERY_NONE then st.current_mode else mode) ∧
          0 < recovered_size - (decoder corrupted_data recovered_size).avail_out)) := by
  unfold recovery_attempt
  by_cases hcap : recovered_size < corrupted_data.length
  · rw [if_pos hcap]
    simp only [Bool.false_eq_true, false_iff, not_and]
    intro h
    omega
  · rw [if_neg hcap]
    dsimp only
    have hcap' : corrupted_data.length ≤ recovered_size := not_lt.mp hcap
    by_cases hinit : (decoder corrupted_data recovered_size).init_ret = LZMA_OK
    · rw [if_neg (not_not.mpr hinit)]
      by_cases hend : (decoder corrupted_data recovered_size).code_ret = LZMA_STREAM_END ∨
          (decoder corrupted_data recovered_size).code_ret = LZMA_OK
      · rw [if_pos hend]
        simp only [true_iff]
        exact ⟨hcap', hinit, Or.inl hend⟩
      · rw [if_neg hend]
        by_cases hpart : recovery_mode_value
              (if mode = RECOVERY_NONE then st.current_mode else mode) ≥
              recovery_mode_value RECOVERY_PARTIAL ∧
            recovered_size - (decoder corrupted_data recovered_size).avail_out > 0
        · rw [if_pos hpart]
          simp only [true_iff]
          exact ⟨hcap', hinit, Or.inr hpart⟩
        · rw [if_neg hpart]
          simp only [Bool.false_eq_true, false_iff]
          rintro ⟨_, _, h | h⟩
          · exact hend h
          · exact hpart h
    · rw [if_pos hinit]
      simp only [Bool.false_eq_true, false_iff]
      rintro ⟨_, h, _⟩
      exact hinit h

theorem recovery_attempt_init_failure {α : Type} [LinearOrderedField α]
    (decoder : tolerant_decoder) (st : recovery_state α) (corrupted_data : List Byte)
    (recovered_size : Nat) (mode : recovery_mode_t)
    (hcap : corrupted_data.length ≤ recovered_size)
    (hinit : (decoder corrupted_data recovered_size).init_ret ≠ LZMA_OK) :
    recovery_attempt decoder st corrupted_data recovered_size mode =
      (false, recovered_size,
        { st with stats :=
            { st.stats with corrupted_blocks := (st.stats.corrupted_blocks + 1) % 2 ^ 32 } }) := by
  unfold recovery_attempt
  rw [if_neg (not_lt.mpr hcap)]
  dsimp only
  rw [if_pos hinit]

theorem recovery_attempt_repeat_init_failure {α : Type} [LinearOrderedField α]
    (decoder : tolerant_decoder) (corrupted_data : List Byte) (recovered_size : Nat)
    (mode : recovery_mode_t) (hcap : corrupted_data.length ≤ recovered_size)
    (hinit : (decoder corrupted_data recovered_size).init_ret ≠ LZMA_OK)
    (N : Nat) (st : recovery_state α) (hst : st.stats.corrupted_blocks < 2 ^ 32) :
    (recovery_attempt_repeat decoder corrupted_data recovered_size mode N st).1 =
        List.replicate N false ∧
    (recovery_attempt_repeat decoder corrupted_data recovered_size mode N
        st).2.stats.corrupted_blocks = (st.stats.corrupted_blocks + N) % 2 ^ 32 ∧
    (recovery_attempt_repeat decoder corrupted_data recovered_size mode N
        st).2.stats.recovered_blocks = st.stats.recovered_blocks := by
  induction N generalizing st with
  | zero =>
    refine ⟨rfl, ?_, rfl⟩
    simp only [recovery_attempt_repeat, add_zero]
    exact (Nat.mod_eq_of_lt hst).symm
  | succ n ih =>
    simp only [recovery_attempt_repeat]
    rw [recovery_attempt_init_failure decoder st corrupted_data recovered_size mode hcap hinit]
    dsimp only
    have hlt : (st.stats.corrupted_blocks + 1) % 2 ^ 32 < 2 ^ 32 :=
      Nat.mod_lt _ (by norm_num)
    obtain ⟨h1, h2, h3⟩ := ih
      { st with stats :=
          { st.stats with corrupted_blocks := (st.stats.corrupted_blocks + 1) % 2 ^ 32 } } hlt
    refine ⟨?_, ?_, ?_⟩
    · rw [h1]; rfl
    · rw [h2]
      dsimp only
      rw [Nat.mod_add_mod, Nat.add_assoc, Nat.add_comm 1 n]
    · rw [h3]

/-- C13 (counterexample): from reset statistics, `2 ^ 32` calls of `recovery_attempt` under
Aggressive mode on `test_corrupted_data` with capacity 6, the decoder failing to initialise
each time, leave `corrupted_blocks = 0`, not `2 ^ 32`: the `uint32_t` counter has wrapped. -/
theorem C13_count_wraps_at_two_pow_32 :
    (recovery_reset_stats (recovery_start : recovery_state ℚ)).stats = zero_stats ∧
    (recovery_attempt_repeat uninitialised_decoder test_corrupted_data 6 RECOVERY_AGGRESSIVE
        (2 ^ 32) (recovery_reset_stats (recovery_start : recovery_state ℚ))
        ).2.stats.corrupted_blocks = 0 ∧
    (recovery_attempt_repeat uninitialised_decoder test_corrupted_data 6 RECOVERY_AGGRESSIVE
        (2 ^ 32) (recovery_reset_stats (recovery_start : recovery_state ℚ))
        ).2.stats.corrupted_blocks ≠ 2 ^ 32 := by
  have h := (recovery_attempt_repeat_init_failure uninitialised_decoder test_corrupted_data 6
    RECOVERY_AGGRESSIVE (by decide) (by decide) (2 ^ 32)
    (recovery_reset_stats (recovery_start : recovery_state ℚ)) (by decide)).2.1
  have h0 : (recovery_reset_stats (recovery_start : recovery_state ℚ)).stats.corrupted_blocks
      = 0 := rfl
  rw [h0, Nat.zero_add, Nat.mod_self] at h
  refine ⟨rfl, h, ?_⟩
  rw [h]
  norm_num

/-- C13 (amended): starting from reset statistics, N calls of `recovery_attempt` under
Aggressive mode on the same six byte input with an output capacity of at least 6, the
decoder failing to initialise each time, all report failure and leave
`recovered_blocks = 0` and `corrupted_blocks = N mod 2^32`, which is N for every N below
`2 ^ 32`, the values that the `uint32_t` counter can hold. -/
theorem C13_repeated_init_failure {α : Type} [LinearOrderedField α]
    (decoder : tolerant_decoder) (corrupted_data : List Byte) (recovered_size : Nat)
    (N : Nat) (st : recovery_state α)
    (hreset : st.stats = zero_stats) (hlen : corrupted_data.length = 6)
    (hcap : 6 ≤ recovered_size)
    (hinit : (decoder corrupted_data recovered_size).init_ret ≠ LZMA_OK) :
    (recovery_attempt_repeat decoder corrupted_data recovered_size RECOVERY_AGGRESSIVE N
        st).1 = List.replicate N false ∧
    (recovery_attempt_repeat decoder corrupted_data recovered_size RECOVERY_AGGRESSIVE N
        st).2.stats.recovered_blocks = 0 ∧
    (recovery_attempt_repeat decoder corrupted_data recovered_size RECOVERY_AGGRESSIVE N
        st).2.stats.corrupted_blocks = N % 2 ^ 32 ∧
    (N < 2 ^ 32 →
      (recovery_attempt_repeat decoder corrupted_data recovered_size RECOVERY_AGGRESSIVE N
        st).2.stats.corrupted_blocks = N) := by
  have hc : st.stats.corrupted_blocks = 0 := by rw [hreset]; rfl
  have hr : st.stats.recovered_blocks = 0 := by rw [hreset]; rfl
  obtain ⟨h1, h2, h3⟩ := recovery_attempt_repeat_init_failure decoder corrupted_data
    recovered_size RECOVERY_AGGRESSIVE (by omega) hinit N st (by rw [hc]; norm_num)
  rw [hc, Nat.zero_add] at h2
  refine ⟨h1, h3.trans hr, h2, ?_⟩
  intro hN
  rw [h2, Nat.mod_eq_of_lt hN]

/-- C13 (witness): three calls on `test_corrupted_data` with capacity 6 from the initial
statics. -/
theorem C13_repeated_init_failure_witness :
    (recovery_start : recovery_state ℚ).stats = zero_stats ∧
    test_corrupted_data.length = 6 ∧
    (uninitialised_decoder test_corrupted_data 6).init_ret ≠ LZMA_OK ∧
    (recovery_attempt_repeat uninitialised_decoder test_corrupted_data 6 RECOVERY_AGGRESSIVE 3
        (recovery_start : recovery_state ℚ)).2.stats.corrupted_blocks = 3 :=
  ⟨rfl, by decide, by decide,
   (C13_repeated_init_failure uninitialised_decoder test_corrupted_data 6 3
      (recovery_start : recovery_state ℚ) rfl (by decide) (by decide) (by decide)).2.2.2
    (by norm_num)⟩

/-! ## Theorems: adaptive.c, text heuristic and empty input -/

/-- C14: for a zero-length sample `adaptive_detect_file_type` returns Unknown, and for every
strategy `smart_compress_predict` returns the all-zero record: predicted ratio 0,
confidence 0, output size 0, preset 0, time 0 and memory 0. -/
theorem C14_zero_length_sample {α : Type} [LinearOrderedField α] [FloorRing α]
    (log2 : α → α) (strategy : smart_strategy_t) :
    adaptive_detect_file_type [] = FILE_TYPE_UNKNOWN ∧
    (smart_compress_predict log2 [] strategy).predicted_ratio = 0 ∧
    (smart_compress_predict log2 [] strategy).confidence_level = 0 ∧
    (smart_compress_predict log2 [] strategy).estimated_output_size = 0 ∧
    (smart_compress_predict log2 [] strategy).recommended_preset = 0 ∧
    (smart_compress_predict log2 [] strategy).estimated_time_seconds = 0 ∧
    (smart_compress_predict log2 [] strategy).estimated_memory_mb = 0 := by
  refine ⟨rfl, ?_, ?_, ?_, ?_, ?_, ?_⟩ <;> simp [smart_compress_predict]

theorem is_text_loop_of_zero (l : List Byte) (p : Nat) (h : (0 : Byte) ∈ l) :
    is_text_loop l p = none := by
  induction l generalizing p with
  | nil => simp at h
  | cons b rest ih =>
    simp only [is_text_loop]
    by_cases hb : b = 0
    · subst hb
      have e : (isprint (0 : Byte) || isspace (0 : Byte)) = false := by decide
      simp [e]
    · have hrest : (0 : Byte) ∈ rest := by
        rcases List.mem_cons.mp h with h0 | h0
        · exact absurd h0.symm hb
        · exact h0
      split_ifs
      · exact ih _ hrest
      · exact ih _ hrest

theorem is_text_loop_of_no_zero (l : List Byte) (p : Nat) (h : (0 : Byte) ∉ l) :
    is_text_loop l p = some (p + printable_count l) := by
  induction l generalizing p with
  | nil => simp [is_text_loop, printable_count]
  | cons b rest ih =>
    have hb : ¬ b = 0 := fun e => h (e ▸ List.mem_cons_self _ _)
    have hrest : (0 : Byte) ∉ rest := fun e => h (List.mem_cons_of_mem _ e)
    simp only [is_text_loop, printable_count]
    by_cases hp : (isprint b || isspace b) = true
    · rw [if_pos hp, ih _ hrest, List.countP_cons, if_pos hp]
      simp only [printable_count]
      congr 1
      omega
    · rw [if_neg hp, if_neg hb, ih _ hrest, List.countP_cons, if_neg hp]
      simp only [printable_count, Nat.add_zero]

theorem check_size_eq_min (n : Nat) : (if n < 512 then n else 512) = min n 512 := by
  split_ifs <;> omega

theorem is_text_of_zero (data : List Byte)
    (h : (0 : Byte) ∈ data.take (min data.length 512)) : is_text data = false := by
  unfold is_text
  by_cases hlen : data.length = 0
  · rw [if_pos hlen]
  · rw [if_neg hlen]
    dsimp only
    rw [check_size_eq_min, is_text_loop_of_zero _ _ h]

theorem is_text_of_no_zero (data : List Byte) (hne : data ≠ [])
    (h : (0 : Byte) ∉ data.take (min data.length 512)) :
    is_text data =
      decide (printable_count (data.take (min data.length 512)) * 100 /
        min data.length 512 > 90) := by
  have hlen : ¬ (data.length = 0) := by
    intro e; exact hne (List.length_eq_zero.mp e)
  unfold is_text
  rw [if_neg hlen]
  dsimp only
  rw [check_size_eq_min, is_text_loop_of_no_zero _ _ h, Nat.zero_add]

theorem detect_of_no_signature (data : List Byte) (hne : data ≠ [])
    (hsig : matches_signature data = false) :
    adaptive_detect_file_type data =
      if is_text data then FILE_TYPE_TEXT else FILE_TYPE_BINARY := by
  have hlen : ¬ (data.length = 0) := by
    intro e; exact hne (List.length_eq_zero.mp e)
  simp only [matches_signature, Bool.or_eq_false_iff] at hsig
  obtain ⟨⟨⟨⟨⟨⟨h1, h2⟩, h3⟩, h4⟩, h5⟩, h6⟩, h7⟩ := hsig
  unfold adaptive_detect_file_type
  simp [hlen, h1, h2, h3, h4, h5, h6, h7]

theorem detect_text_iff_floor_percent (data : List Byte) (hne : data ≠ [])
    (hsig : matches_signature data = false)
    (hzero : (0 : Byte) ∉ data.take (min data.length 512)) :
    (adaptive_detect_file_type data = FILE_TYPE_TEXT ↔
      91 * min data.length 512 ≤
        100 * printable_count (data.take (min data.length 512))) ∧
    (adaptive_detect_file_type data ≠ FILE_TYPE_TEXT →
      adaptive_detect_file_type data = FILE_TYPE_BINARY) := by
  have hpos : 0 < min data.length 512 := by
    have : 0 < data.length := List.length_pos.mpr hne
    omega
  rw [detect_of_no_signature data hne hsig, is_text_of_no_zero data hne hzero]
  by_cases hc : printable_count (data.take (min data.length 512)) * 100 /
      min data.length 512 > 90
  · have h91 : 91 ≤ printable_count (data.take (min data.length 512)) * 100 /
        min data.length 512 := hc
    rw [Nat.le_div_iff_mul_le hpos] at h91
    rw [decide_eq_true hc, if_pos rfl]
    refine ⟨⟨fun _ => (by omega), fun _ => rfl⟩, fun h => absurd rfl h⟩
  · have h91 : ¬ (91 ≤ printable_count (data.take (min data.length 512)) * 100 /
        min data.length 512) := hc
    rw [Nat.le_div_iff_mul_le hpos] at h91
    rw [decide_eq_false hc, if_neg (by decide)]
    refine ⟨⟨fun h => (by cases h), fun h => (by omega)⟩, fun _ => rfl⟩

/-- C15 (failing input): the eleven byte buffer of ten 'A' and one byte 01 is not empty,
matches no signature, has no zero byte, and 10 of its 11 bytes are printable, more than
90% (10 * 10 > 9 * 11); `adaptive_detect_file_type` returns Binary, because the integer
quotient 1000 / 11 = 90 is not above 90. -/
theorem C15_ten_of_eleven_is_binary :
    ten_of_eleven ≠ [] ∧ matches_signature ten_of_eleven = false ∧
    (0 : Byte) ∉ ten_of_eleven.take (min ten_of_eleven.length 512) ∧
    printable_count (ten_of_eleven.take (min ten_of_eleven.length 512)) = 10 ∧
    9 * min ten_of_eleven.length 512 <
      10 * printable_count (ten_of_eleven.take (min ten_of_eleven.length 512)) ∧
    adaptive_detect_file_type ten_of_eleven = FILE_TYPE_BINARY := by
  decide

theorem at_take (data : List Byte) (n i : Nat) (h : i < n) :
    at_ (data.take n) i = at_ data i := by
  unfold at_
  rw [List.getD_eq_getElem?_getD, List.getD_eq_getElem?_getD, List.getElem?_take_of_lt h]

theorem memcmp_eq_take (data lit : List Byte) (n : Nat) (hlit : lit.length ≤ n)
    (hn : n ≤ data.length) : memcmp_eq (data.take n) lit = memcmp_eq data lit := by
  unfold memcmp_eq
  have h1 : (lit.length ≤ (data.take n).length) ↔ (lit.length ≤ data.length) := by
    rw [List.length_take]; omega
  have h2 : List.take lit.length (data.take n) = List.take lit.length data := by
    rw [List.take_take, Nat.min_eq_left hlit]
  rw [h2, decide_eq_decide.mpr h1]

theorem is_text_take (data : List Byte) (h : 512 < data.length) :
    is_text (data.take 512) = is_text data := by
  have hl : (data.take 512).length = 512 := by
    rw [List.length_take]; omega
  unfold is_text
  rw [hl]
  have e1 : ¬ (512 = 0) := by decide
  have e2 : ¬ (data.length = 0) := by omega
  have e3 : ¬ (512 < 512) := by decide
  have e4 : ¬ (data.length < 512) := by omega
  simp only [e1, e2, e3, e4, if_false, List.take_take, Nat.min_self]

theorem detect_take_512 (data : List Byte) :
    adaptive_detect_file_type (data.take 512) = adaptive_detect_file_type data := by
  rcases Nat.lt_or_ge 512 data.length with h | h
  · have hl : (data.take 512).length = 512 := by
      rw [List.length_take]; omega
    have e1 : ¬ (data.length = 0) := by omega
    have e8 : data.length ≥ 8 := by omega
    have e3 : data.length ≥ 3 := by omega
    have e2 : data.length ≥ 2 := by omega
    unfold adaptive_detect_file_type is_png is_jpeg is_gif is_elf is_pe is_zip is_tar
    rw [hl, is_text_take data h,
      at_take data 512 0 (by decide), at_take data 512 1 (by decide),
      at_take data 512 2 (by decide), at_take data 512 3 (by decide),
      memcmp_eq_take data GIF87a 512 (by decide) h.le,
      memcmp_eq_take data GIF89a 512 (by decide) h.le,
      memcmp_eq_take data [0x7F, 0x45, 0x4C, 0x46] 512 (by decide) h.le,
      memcmp_eq_take data [0x50, 0x4B, 0x03, 0x04] 512 (by decide) h.le,
      memcmp_eq_take data [0x75, 0x73, 0x74, 0x61, 0x72] 512 (by decide) h.le]
    simp [e1, e8, e3, e2]
  · rw [List.take_of_length_le h]

/-- C16: a non-empty buffer that matches no signature and has a 0x00 byte among its first
min(size, 512) bytes is classified Binary, whatever its other bytes are; and the result of
`adaptive_detect_file_type` is a function of the first 512 bytes only, so a byte after
them, 0x00 or not, does not affect it. -/
theorem C16_zero_byte_is_binary (data : List Byte) :
    (data ≠ [] → matches_signature data = false →
      (0 : Byte) ∈ data.take (min data.length 512) →
      adaptive_detect_file_type data = FILE_TYPE_BINARY) ∧
    adaptive_detect_file_type data = adaptive_detect_file_type (data.take 512) := by
  refine ⟨?_, (detect_take_512 data).symm⟩
  intro hne hsig hzero
  rw [detect_of_no_signature data hne hsig, is_text_of_zero data hzero]
  rfl

/-- C16 (witness): the bytes 'A' 'B' 00 'C' are classified Binary. -/
theorem C16_zero_byte_is_binary_witness :
    ([0x41, 0x42, 0x00, 0x43] : List Byte) ≠ [] ∧
    matches_signature [0x41, 0x42, 0x00, 0x43] = false ∧
    adaptive_detect_file_type [0x41, 0x42, 0x00, 0x43] = FILE_TYPE_BINARY :=
  ⟨by decide, by decide,
   (C16_zero_byte_is_binary [0x41, 0x42, 0x00, 0x43]).1 (by decide) (by decide) (by decide)⟩

/-! ## Theorems: smart_compress.c, the prediction formula -/

theorem estimate_ratio_eq_clamp {α : Type} [LinearOrderedField α] (entropy : α) :
    estimate_ratio_from_entropy entropy = clamp 0.1 0.95 (1 - entropy / 8) := by
  unfold estimate_ratio_from_entropy clamp
  dsimp only
  have h : (0.1 : α) < 0.95 := by norm_num
  by_cases h1 : 1 - entropy / 8 < 0.1
  · rw [if_pos h1, if_neg (not_lt.mpr h.le)]
    rw [min_eq_right (le_trans h1.le h.le), max_eq_left h1.le]
  · rw [if_neg h1]
    by_cases h2 : 1 - entropy / 8 > 0.95
    · rw [if_pos h2, min_eq_left h2.le, max_eq_right h.le]
    · rw [if_neg h2, min_eq_right (not_lt.mp h2), max_eq_right (not_lt.mp h1)]

theorem adjust_for_file_type_eq {α : Type} [LinearOrderedField α] (file_type : file_type_t)
    (r : α) : adjust_for_file_type file_type r = category_factor file_type * r := by
  cases file_type <;> simp [adjust_for_file_type, category_factor, mul_comm]

theorem sample_size_eq_min (n : Nat) :
    (if n > 1024 * 1024 then 1024 * 1024 else n) = min n (1024 * 1024) := by
  split_ifs <;> omega

theorem smart_compress_predict_ratio {α : Type} [LinearOrderedField α] [FloorRing α]
    (log2 : α → α) (data : List Byte) (strategy : smart_strategy_t) (hne : data ≠ []) :
    (smart_compress_predict log2 data strategy).predicted_ratio =
        (adjust_for_strategy strategy (spec_base_ratio log2 data)).1 ∧
    (smart_compress_predict log2 data strategy).recommended_preset =
        (adjust_for_strategy strategy (spec_base_ratio log2 data)).2 := by
  have hlen : ¬ (data.length = 0) := by
    intro e; exact hne (List.length_eq_zero.mp e)
  unfold smart_compress_predict spec_base_ratio
  rw [if_neg hlen]
  dsimp only
  rw [sample_size_eq_min, estimate_ratio_eq_clamp, adjust_for_file_type_eq]
  exact ⟨rfl, rfl⟩

/-- C17: for every non-empty buffer, with H the entropy and C the category of the first
min(size, 1 MiB) bytes and `spec_base_ratio = c(C) * clamp(1 - H/8, 0.1, 0.95)`,
`smart_compress_predict` returns `spec_base_ratio * 0.90` and preset 3 for Speed,
`min(spec_base_ratio * 1.05, 0.95)` and preset 8 for Ratio, `spec_base_ratio * 1` and
preset 6 for Balanced, `spec_base_ratio * 0.92` and preset 5 for MemoryEfficient. -/
theorem C17_predicted_ratio_formula {α : Type} [LinearOrderedField α] [FloorRing α]
    (log2 : α → α) (data : List Byte) (hne : data ≠ []) :
    ((smart_compress_predict log2 data SMART_STRATEGY_SPEED).predicted_ratio =
        spec_base_ratio log2 data * 0.90 ∧
      (smart_compress_predict log2 data SMART_STRATEGY_SPEED).recommended_preset = 3) ∧
    ((smart_compress_predict log2 data SMART_STRATEGY_RATIO).predicted_ratio =
        min (spec_base_ratio log2 data * 1.05) 0.95 ∧
      (smart_compress_predict log2 data SMART_STRATEGY_RATIO).recommended_preset = 8) ∧
    ((smart_compress_predict log2 data SMART_STRATEGY_BALANCED).predicted_ratio =
        spec_base_ratio log2 data * 1 ∧
      (smart_compress_predict log2 data SMART_STRATEGY_BALANCED).recommended_preset = 6) ∧
    ((smart_compress_predict log2 data SMART_STRATEGY_MEMORY_EFFICIENT).predicted_ratio =
        spec_base_ratio log2 data * 0.92 ∧
      (smart_compress_predict log2 data SMART_STRATEGY_MEMORY_EFFICIENT).recommended_preset =
        5) := by
  refine ⟨?_, ?_, ?_, ?_⟩
  · obtain ⟨h1, h2⟩ := smart_compress_predict_ratio log2 data SMART_STRATEGY_SPEED hne
    rw [h1, h2]
    exact ⟨rfl, rfl⟩
  · obtain ⟨h1, h2⟩ := smart_compress_predict_ratio log2 data SMART_STRATEGY_RATIO hne
    rw [h1, h2]
    refine ⟨?_, rfl⟩
    simp only [adjust_for_strategy]
    split_ifs with h
    · rw [min_eq_right h.le]
    · rw [min_eq_left (not_lt.mp h)]
  · obtain ⟨h1, h2⟩ := smart_compress_predict_ratio log2 data SMART_STRATEGY_BALANCED hne
    rw [h1, h2]
    exact ⟨(mul_one _).symm, rfl⟩
  · obtain ⟨h1, h2⟩ := smart_compress_predict_ratio log2 data
      SMART_STRATEGY_MEMORY_EFFICIENT hne
    rw [h1, h2]
    exact ⟨rfl, rfl⟩

/-- C17 (witness): the Speed conjunct at a one byte buffer over the reals. -/
theorem C17_predicted_ratio_formula_witness :
    ([0x41] : List Byte) ≠ [] ∧
    (smart_compress_predict (Real.logb 2) [0x41] SMART_STRATEGY_SPEED).recommended_preset = 3 :=
  ⟨by decide, (C17_predicted_ratio_formula (Real.logb 2) [0x41] (by decide)).1.2⟩

theorem smart_compress_predict_size {α : Type} [LinearOrderedField α] [FloorRing α]
    (log2 : α → α) (data : List Byte) (strategy : smart_strategy_t) (hne : data ≠ []) :
    (smart_compress_predict log2 data strategy).estimated_output_size =
      ⌊(data.length : α) * (smart_compress_predict log2 data strategy).predicted_ratio⌋₊ := by
  have hlen : ¬ (data.length = 0) := by
    intro e; exact hne (List.length_eq_zero.mp e)
  unfold smart_compress_predict
  rw [if_neg hlen]

theorem smart_compress_predict_confidence {α : Type} [LinearOrderedField α] [FloorRing α]
    (log2 : α → α) (data : List Byte) (strategy : smart_strategy_t) (hne : data ≠ [])
    (hsmall : data.length ≤ 1024 * 1024) :
    (smart_compress_predict log2 data strategy).confidence_level = 0.95 := by
  have hlen : ¬ (data.length = 0) := by
    intro e; exact hne (List.length_eq_zero.mp e)
  unfold smart_compress_predict
  rw [if_neg hlen]
  dsimp only
  rw [sample_size_eq_min, Nat.min_eq_left hsmall, if_pos (le_refl _)]

theorem printable_count_replicate_A (n : Nat) :
    printable_count (List.replicate n (0x41 : Byte)) = n := by
  unfold printable_count
  rw [List.countP_eq_length.mpr, List.length_replicate]
  intro b hb
  rw [List.eq_of_mem_replicate hb]
  decide

theorem matches_signature_A (rest : List Byte) :
    matches_signature ((0x41 : Byte) :: rest) = false := by
  simp [matches_signature, is_png, is_jpeg, is_gif, is_elf, is_pe, is_zip, is_tar,
    memcmp_eq, at_, GIF87a, GIF89a]

theorem detect_replicate_A :
    adaptive_detect_file_type (List.replicate 1024 (0x41 : Byte)) = FILE_TYPE_TEXT := by
  have hne : List.replicate 1024 (0x41 : Byte) ≠ [] := by
    rw [List.replicate_succ]
    exact List.cons_ne_nil _ _
  have hsig : matches_signature (List.replicate 1024 (0x41 : Byte)) = false := by
    rw [List.replicate_succ]
    exact matches_signature_A _
  have hmin : min (List.replicate 1024 (0x41 : Byte)).length 512 = 512 := by
    rw [List.length_replicate]
    rfl
  have htake : List.take 512 (List.replicate 1024 (0x41 : Byte)) = List.replicate 512 0x41 := by
    rw [List.take_replicate]
    rfl
  have hzero : (0 : Byte) ∉ List.take (min (List.replicate 1024 (0x41 : Byte)).length 512)
      (List.replicate 1024 (0x41 : Byte)) := by
    rw [hmin, htake]
    intro h
    have := List.eq_of_mem_replicate h
    exact absurd this (by decide)
  rw [detect_of_no_signature _ hne hsig, is_text_of_no_zero _ hne hzero, hmin, htake,
    printable_count_replicate_A]
  decide

theorem spec_base_ratio_replicate_A :
    spec_base_ratio (Real.logb 2) (List.replicate 1024 (0x41 : Byte)) = 0.8075 := by
  have htake : List.take (min (List.replicate 1024 (0x41 : Byte)).length (1024 * 1024))
      (List.replicate 1024 (0x41 : Byte)) = List.replicate 1024 0x41 := by
    rw [List.length_replicate, List.take_replicate]
    rfl
  unfold spec_base_ratio
  rw [htake, detect_replicate_A, calculate_entropy_replicate (Real.logb 2) Real.logb_one]
  have hc : clamp (0.1 : ℝ) 0.95 (1 - 0 / 8) = 0.95 := by
    unfold clamp
    rw [zero_div, sub_zero, min_eq_left (by norm_num), max_eq_right (by norm_num)]
  rw [hc]
  simp only [category_factor, if_true]
  norm_num

theorem predict_replicate_A :
    (smart_compress_predict (Real.logb 2) (List.replicate 1024 (0x41 : Byte))
        SMART_STRATEGY_BALANCED).predicted_ratio = 0.8075 ∧
    (smart_compress_predict (Real.logb 2) (List.replicate 1024 (0x41 : Byte))
        SMART_STRATEGY_BALANCED).recommended_preset = 6 ∧
    (smart_compress_predict (Real.logb 2) (List.replicate 1024 (0x41 : Byte))
        SMART_STRATEGY_BALANCED).confidence_level = 0.95 ∧
    (smart_compress_predict (Real.logb 2) (List.replicate 1024 (0x41 : Byte))
        SMART_STRATEGY_BALANCED).estimated_output_size = 826 := by
  have hne : List.replicate 1024 (0x41 : Byte) ≠ [] := by
    rw [List.replicate_succ]
    exact List.cons_ne_nil _ _
  obtain ⟨h1, h2⟩ := smart_compress_predict_ratio (Real.logb 2)
    (List.replicate 1024 (0x41 : Byte)) SMART_STRATEGY_BALANCED hne
  have hr : (smart_compress_predict (Real.logb 2) (List.replicate 1024 (0x41 : Byte))
      SMART_STRATEGY_BALANCED).predicted_ratio = 0.8075 := by
    rw [h1, spec_base_ratio_replicate_A]
    rfl
  refine ⟨hr, ?_, ?_, ?_⟩
  · rw [h2]; rfl
  · apply smart_compress_predict_confidence _ _ _ hne
    rw [List.length_replicate]
    decide
  · rw [smart_compress_predict_size _ _ _ hne, hr, List.length_replicate, Nat.floor_eq_iff]
    · norm_num
    · norm_num

/-- C18 (counterexample): for the 1024 byte buffer of 0x41 bytes under Balanced,
`estimated_output_size` is 826, not 827. -/
theorem C18_output_size_is_not_827 :
    (smart_compress_predict (Real.logb 2) (List.replicate 1024 (0x41 : Byte))
        SMART_STRATEGY_BALANCED).estimated_output_size = 826 ∧
    (smart_compress_predict (Real.logb 2) (List.replicate 1024 (0x41 : Byte))
        SMART_STRATEGY_BALANCED).estimated_output_size ≠ 827 := by
  rw [predict_replicate_A.2.2.2]
  exact ⟨rfl, by decide⟩

/-- C18 (amended): for the 1024 byte buffer of 0x41 bytes under Balanced,
`smart_compress_predict` returns predicted_ratio 0.95 * 0.85 = 0.8075, recommended_preset
6, confidence 0.95 and estimated_output_size 826, the floor of 1024 * 0.8075 = 826.88. -/
theorem C18_scenario_all_A :
    (smart_compress_predict (Real.logb 2) (List.replicate 1024 (0x41 : Byte))
        SMART_STRATEGY_BALANCED).predicted_ratio = 0.95 * 0.85 ∧
    (0.95 * 0.85 : ℝ) = 0.8075 ∧
    (smart_compress_predict (Real.logb 2) (List.replicate 1024 (0x41 : Byte))
        SMART_STRATEGY_BALANCED).recommended_preset = 6 ∧
    (smart_compress_predict (Real.logb 2) (List.replicate 1024 (0x41 : Byte))
        SMART_STRATEGY_BALANCED).confidence_level = 0.95 ∧
    (smart_compress_predict (Real.logb 2) (List.replicate 1024 (0x41 : Byte))
        SMART_STRATEGY_BALANCED).estimated_output_size = 826 ∧
    ⌊(1024 : ℝ) * 0.8075⌋₊ = 826 := by
  obtain ⟨h1, h2, h3, h4⟩ := predict_replicate_A
  have e : (0.95 * 0.85 : ℝ) = 0.8075 := by norm_num
  refine ⟨by rw [h1, e], e, h2, h3, h4, ?_⟩
  rw [Nat.floor_eq_iff]
  · norm_num
  · norm_num

/-! ## Theorems: optimizer.c, result range and `optimizer_find_best_preset` -/

theorem preset_range_within (strategy : optimization_strategy_t) :
    1 ≤ (preset_range strategy).1 ∧ (preset_range strategy).2 ≤ 9 := by
  cases strategy <;> simp [preset_range]

/-- C19: for every non-empty sample, strategy and codec behaviour, `optimizer_analyze`
returns `1 ≤ optimal_preset ≤ 9` and `0 < estimated_ratio ≤ 1`, the constant
`LZMA_PRESET_DEFAULT` of `lzma.h` being a preset between 1 and 9 (it is 6). -/
theorem C19_result_well_formed {α : Type} [LinearOrderedField α]
    (LZMA_PRESET_DEFAULT : Nat) (codec : trial_codec) (st : optimizer_state α)
    (sample : sample_data_t) (strategy : optimization_strategy_t)
    (hdefault : 1 ≤ LZMA_PRESET_DEFAULT ∧ LZMA_PRESET_DEFAULT ≤ 9)
    (hne : sample.data ≠ []) :
    (1 ≤ (optimizer_analyze LZMA_PRESET_DEFAULT codec st sample strategy).1.optimal_preset ∧
      (optimizer_analyze LZMA_PRESET_DEFAULT codec st sample strategy).1.optimal_preset ≤ 9) ∧
    (0 < (optimizer_analyze LZMA_PRESET_DEFAULT codec st sample strategy).1.estimated_ratio ∧
      (optimizer_analyze LZMA_PRESET_DEFAULT codec st sample strategy).1.estimated_ratio ≤
        1) := by
  obtain ⟨r1, r2⟩ := preset_range_within strategy
  rcases (optimizer_analyze_spec LZMA_PRESET_DEFAULT codec st sample strategy hne).2 with
    ⟨e1, e2, _⟩ | ⟨⟨m1, m2⟩, _, m3, m4⟩
  · rw [e1, e2]
    exact ⟨hdefault, by norm_num⟩
  · exact ⟨⟨le_trans r1 m1, le_trans m2 r2⟩, m3, m4.le⟩

/-- C19 (witness): the statement with the default preset 6 and every trial failing. -/
theorem C19_result_well_formed_witness :
    (1 ≤ 6 ∧ 6 ≤ 9) ∧ (⟨[0x41], 0⟩ : sample_data_t).data ≠ [] ∧
    1 ≤ (optimizer_analyze 6 failing_codec optimizer_start ⟨[0x41], 0⟩
        OPT_STRATEGY_SPEED).1.optimal_preset :=
  ⟨by decide, by decide,
   (C19_result_well_formed 6 failing_codec optimizer_start ⟨[0x41], 0⟩ OPT_STRATEGY_SPEED
      (by decide) (by decide)).1.1⟩

theorem search_step_tests_run {α : Type} [LinearOrderedField α] (codec : trial_codec)
    (data : List Byte) (s : search_state α) (p : Nat) :
    (search_step codec data s p).tests_run = (s.tests_run + 1) % 2 ^ 32 := by
  unfold search_step
  dsimp only
  split_ifs <;> rfl

theorem search_fold_tests_run {α : Type} [LinearOrderedField α] (codec : trial_codec)
    (data : List Byte) (l : List Nat) (s : search_state α) :
    (l.foldl (search_step codec data) s).tests_run =
      (fun t => (t + 1) % 2 ^ 32)^[l.length] s.tests_run := by
  induction l generalizing s with
  | nil => rfl
  | cons q rest ih =>
    rw [List.foldl_cons, ih, search_step_tests_run, List.length_cons, Function.iterate_succ_apply]

theorem trial_ratio_preset9_codec {α : Type} [LinearOrderedField α] (p : Nat) :
    (trial_ratio preset9_codec ⟨[0x41, 0x42, 0x43, 0x44], 0⟩ p : α) =
      if p = 9 then 1 / 4 else -1 := by
  by_cases h : p = 9
  · subst h
    simp [trial_ratio, test_preset_compression, preset9_codec]
  · simp [trial_ratio, test_preset_compression, preset9_codec, h]

/-- C20 (failing input): with bounds `min_preset = 2`, `max_preset = 3`, a four byte sample
and a codec whose trial succeeds at preset 9 only, `optimizer_find_best_preset` returns
`optimal_preset = 9`, outside [2,3], and runs 9 trials (presets 1 to 9), not 2. -/
theorem C20_find_best_preset_ignores_bounds :
    (optimizer_find_best_preset 6 preset9_codec optimizer_start
        ⟨[0x41, 0x42, 0x43, 0x44], 0⟩ 2 3 100).1.optimal_preset = 9 ∧
    ¬ (2 ≤ 9 ∧ 9 ≤ 3) ∧
    (optimizer_find_best_preset 6 preset9_codec optimizer_start
        ⟨[0x41, 0x42, 0x43, 0x44], 0⟩ 2 3 100).2.optimizer_tests_run = 9 := by
  refine ⟨?_, by decide, ?_⟩
  · unfold optimizer_find_best_preset
    rcases (optimizer_analyze_spec 6 preset9_codec optimizer_start
        ⟨[0x41, 0x42, 0x43, 0x44], 0⟩ OPT_STRATEGY_CUSTOM (by decide)).2 with
      ⟨_, _, e3⟩ | ⟨_, m2, m3, _⟩
    · exfalso
      apply e3 9 (by decide) (by decide)
      rw [trial_ratio_preset9_codec]
      norm_num
    · rw [m2, trial_ratio_preset9_codec] at m3
      by_contra hne
      rw [if_neg hne] at m3
      norm_num at m3
  · unfold optimizer_find_best_preset optimizer_analyze search_loop
    rw [if_neg (by decide)]
    dsimp only
    rw [search_fold_tests_run]
    rfl

/-! ## Theorems: parallel.c against the sizing formulas -/

theorem optimal_threads_eq_spec (hardware_threads : Nat) (st : parallel_state)
    (file_size available_memory : Nat) (hinit : st.parallel_initialized = true)
    (hb : 3 * (if st.current_config.block_size = 0 then 3 * 1024 * 1024
      else st.current_config.block_size) < 2 ^ 64)
    (hq : available_memory / (3 * (if st.current_config.block_size = 0 then 3 * 1024 * 1024
      else st.current_config.block_size)) < 2 ^ 32) :
    (parallel_get_optimal_threads hardware_threads st file_size available_memory).1 =
      some (spec_optimal_threads hardware_threads
        (if st.current_config.block_size = 0 then 3 * 1024 * 1024
          else st.current_config.block_size) file_size available_memory) := by
  unfold parallel_get_optimal_threads spec_optimal_threads
  simp only [hinit, Bool.not_true, Bool.false_eq_true, if_false]
  generalize hB : (if st.current_config.block_size = 0 then 3 * 1024 * 1024
      else st.current_config.block_size) = B at hb hq
  have hBpos : 0 < B := by
    rw [← hB]; split_ifs with h
    · norm_num
    · exact Nat.pos_of_ne_zero h
  rw [Nat.mod_eq_of_lt hb, Nat.mod_eq_of_lt hq]
  have hne : ¬ (3 * B = 0) := by omega
  rw [if_neg hne]
  generalize available_memory / (3 * B) = q
  clear hb hq hB hne
  have hM : (if hardware_threads = 0 then 1 else hardware_threads) = max 1 hardware_threads := by
    split_ifs <;> omega
  rw [hM]
  have hMpos : 1 ≤ max 1 hardware_threads := le_max_left _ _
  generalize max 1 hardware_threads = M at hMpos
  generalize M / 2 = H
  have hs : (if file_size > 100 * 1024 * 1024 then M
      else if file_size > 10 * 1024 * 1024 then (if H = 0 then 1 else H) else 1) =
      (if file_size ≤ 10 * 1024 * 1024 then 1
        else if file_size ≤ 100 * 1024 * 1024 then max 1 H else M) := by
    simp only [Nat.max_def]
    split_ifs <;> omega
  have hm : (if (if q = 0 then 1 else q) > M then M else (if q = 0 then 1 else q)) =
      min M (max 1 q) := by
    simp only [Nat.max_def, Nat.min_def]
    split_ifs <;> omega
  rw [hs, hm]
  generalize (if file_size ≤ 10 * 1024 * 1024 then 1
    else if file_size ≤ 100 * 1024 * 1024 then max 1 H else M) = a
  generalize min M (max 1 q) = b
  clear hs hm
  refine congrArg some ?_
  simp only [Nat.min_def]
  split_ifs <;> omega

/-- C21 (failing input): with 4 hardware threads, no configured block size, a 200 MiB file
and `available_memory = 2^32 * 9 MiB`, the quotient `available_memory / (3 * 3 MiB)` is
2^32, its conversion to `uint32_t` is 0, and `parallel_get_optimal_threads` returns 1; the
formula of the specification gives 4. -/
theorem C21_memory_quotient_is_truncated :
    (parallel_get_optimal_threads 4 parallel_start (200 * 1024 * 1024)
        40532396646334464).1 = some 1 ∧
    40532396646334464 < 2 ^ 64 ∧
    spec_optimal_threads 4 (3 * 1024 * 1024) (200 * 1024 * 1024) 40532396646334464 = 4 := by
  decide

/-! The two scenarios of the specification hold on the code. -/

theorem optimal_threads_scenarios :
    (parallel_get_optimal_threads 4 parallel_start (200 * 1024 * 1024)
        (1024 * 1024 * 1024)).1 = some 4 ∧
    (parallel_get_optimal_threads 4 parallel_start (50 * 1024 * 1024)
        (2 ^ 64 - 1)).1 = some 2 := by
  decide

theorem optimal_block_size_eq_spec (threads file_size : Nat) (ht : threads < 2 ^ 30) :
    parallel_get_optimal_block_size threads file_size =
      some (spec_optimal_block_size threads file_size) := by
  have h32 : (2 : Nat) ^ 32 = 4294967296 := by norm_num
  have h30 : (2 : Nat) ^ 30 = 1073741824 := by norm_num
  rw [h30] at ht
  have hdiv : ((if threads = 0 then 1 else threads) * 4) % 2 ^ 32 = 4 * max threads 1 := by
    rw [h32]; split_ifs with h0
    · subst h0; rfl
    · have : max threads 1 = threads := by omega
      rw [this]; omega
  have hne : ¬ (4 * max threads 1 = 0) := by omega
  unfold parallel_get_optimal_block_size spec_optimal_block_size
  dsimp only
  rw [hdiv, if_neg hne]
  generalize file_size / (4 * max threads 1) = q
  congr 1
  simp only [Nat.max_def, Nat.min_def]
  split_ifs <;> omega

/-- C22 (failing input): at `threads = 2^30 + 1` and `file_size = 2^40` the 32-bit product
`threads * 4` wraps to 4, so `parallel_get_optimal_block_size` returns 64 MiB (2^38
clamped); with the product taken over the integers the quotient is 255 and the clamped
value 64 KiB. -/
theorem C22_product_wraps :
    parallel_get_optimal_block_size 1073741825 1099511627776 = some (64 * 1024 * 1024) ∧
    spec_optimal_block_size 1073741825 1099511627776 = 64 * 1024 ∧
    1073741825 < 2 ^ 32 ∧ 1099511627776 < 2 ^ 64 := by
  decide

/-! ## Theorems: smart_compress.c, the weights of the overall score -/

theorem overall_score_eq {α : Type} [LinearOrderedField α] (r : benchmark_result_t α)
    (strategy : smart_strategy_t) :
    (smart_compress_calculate_quality (some r) strategy).overall_score =
      (spec_weights strategy : α × α × α).1 *
          (smart_compress_calculate_quality (some r) strategy).speed_score +
        (spec_weights strategy : α × α × α).2.1 *
          (smart_compress_calculate_quality (some r) strategy).compression_ratio_score +
        (spec_weights strategy : α × α × α).2.2 *
          (smart_compress_calculate_quality (some r) strategy).memory_efficiency_score := by
  cases strategy <;> unfold smart_compress_calculate_quality spec_weights <;> dsimp only <;>
    ring

theorem spec_weights_convex {α : Type} [LinearOrderedField α] (strategy : smart_strategy_t) :
    0 ≤ (spec_weights strategy : α × α × α).1 ∧ 0 ≤ (spec_weights strategy : α × α × α).2.1 ∧
    0 ≤ (spec_weights strategy : α × α × α).2.2 ∧
    (spec_weights strategy : α × α × α).1 + (spec_weights strategy : α × α × α).2.1 +
      (spec_weights strategy : α × α × α).2.2 = 1 := by
  cases strategy <;> unfold spec_weights <;> dsimp only <;> norm_num

theorem convex_combination_bounds {α : Type} [LinearOrderedField α] (w1 w2 w3 x y z : α)
    (h1 : 0 ≤ w1) (h2 : 0 ≤ w2) (h3 : 0 ≤ w3) (hsum : w1 + w2 + w3 = 1) :
    min x (min y z) ≤ w1 * x + w2 * y + w3 * z ∧
    w1 * x + w2 * y + w3 * z ≤ max x (max y z) := by
  constructor
  · have hx : min x (min y z) ≤ x := min_le_left _ _
    have hy : min x (min y z) ≤ y := le_trans (min_le_right _ _) (min_le_left _ _)
    have hz : min x (min y z) ≤ z := le_trans (min_le_right _ _) (min_le_right _ _)
    calc min x (min y z) = (w1 + w2 + w3) * min x (min y z) := by rw [hsum, one_mul]
      _ = w1 * min x (min y z) + w2 * min x (min y z) + w3 * min x (min y z) := by ring
      _ ≤ w1 * x + w2 * y + w3 * z := by
        have a := mul_le_mul_of_nonneg_left hx h1
        have b := mul_le_mul_of_nonneg_left hy h2
        have c := mul_le_mul_of_nonneg_left hz h3
        linarith
  · have hx : x ≤ max x (max y z) := le_max_left _ _
    have hy : y ≤ max x (max y z) := le_trans (le_max_left _ _) (le_max_right _ _)
    have hz : z ≤ max x (max y z) := le_trans (le_max_right _ _) (le_max_right _ _)
    calc w1 * x + w2 * y + w3 * z
        ≤ w1 * max x (max y z) + w2 * max x (max y z) + w3 * max x (max y z) := by
          have a := mul_le_mul_of_nonneg_left hx h1
          have b := mul_le_mul_of_nonneg_left hy h2
          have c := mul_le_mul_of_nonneg_left hz h3
          linarith
      _ = (w1 + w2 + w3) * max x (max y z) := by ring
      _ = max x (max y z) := by rw [hsum, one_mul]

/-- With the doubles taken as exact numbers, `overall_score` is the weighted sum of the
three component scores with the weights (speed, ratio, memory) of the specification, the
weights are non-negative and sum to 1, and `overall_score` lies between the smallest and
the largest of the three component scores. -/
theorem overall_score_exact_arithmetic {α : Type} [LinearOrderedField α]
    (r : benchmark_result_t α) (strategy : smart_strategy_t) :
    (smart_compress_calculate_quality (some r) strategy).overall_score =
      (spec_weights strategy : α × α × α).1 *
          (smart_compress_calculate_quality (some r) strategy).speed_score +
        (spec_weights strategy : α × α × α).2.1 *
          (smart_compress_calculate_quality (some r) strategy).compression_ratio_score +
        (spec_weights strategy : α × α × α).2.2 *
          (smart_compress_calculate_quality (some r) strategy).memory_efficiency_score ∧
    (0 ≤ (spec_weights strategy : α × α × α).1 ∧ 0 ≤ (spec_weights strategy : α × α × α).2.1 ∧
      0 ≤ (spec_weights strategy : α × α × α).2.2 ∧
      (spec_weights strategy : α × α × α).1 + (spec_weights strategy : α × α × α).2.1 +
        (spec_weights strategy : α × α × α).2.2 = 1) ∧
    min (smart_compress_calculate_quality (some r) strategy).speed_score
        (min (smart_compress_calculate_quality (some r) strategy).compression_ratio_score
          (smart_compress_calculate_quality (some r) strategy).memory_efficiency_score) ≤
      (smart_compress_calculate_quality (some r) strategy).overall_score ∧
    (smart_compress_calculate_quality (some r) strategy).overall_score ≤
      max (smart_compress_calculate_quality (some r) strategy).speed_score
        (max (smart_compress_calculate_quality (some r) strategy).compression_ratio_score
          (smart_compress_calculate_quality (some r) strategy).memory_efficiency_score) := by
  obtain ⟨h1, h2, h3, hsum⟩ := spec_weights_convex (α := α) strategy
  have he := overall_score_eq r strategy
  obtain ⟨hlo, hhi⟩ := convex_combination_bounds _ _ _
    (smart_compress_calculate_quality (some r) strategy).speed_score
    (smart_compress_calculate_quality (some r) strategy).compression_ratio_score
    (smart_compress_calculate_quality (some r) strategy).memory_efficiency_score h1 h2 h3 hsum
  refine ⟨he, ⟨h1, h2, h3, hsum⟩, ?_, ?_⟩
  · rw [he]; exact hlo
  · rw [he]; exact hhi

/-! ## Theorems: analytics.c -/

theorem analytics_step_disabled {α : Type} [LinearOrderedField α] (st : analytics_state α)
    (call : analytics_call) (hoff : st.analytics_enabled = false)
    (hrec : is_recording_call call = true) : analytics_step st call = st := by
  cases call <;>
    simp_all [analytics_step, is_recording_call, analytics_compress_start,
      analytics_compress_end, analytics_decompress_start, analytics_decompress_end]

/-- C24: while analytics is disabled, every sequence of `analytics_compress_start`,
`analytics_compress_end`, `analytics_decompress_start` and `analytics_decompress_end`
calls, with any arguments and clock values, leaves the statics, and so the snapshot
returned by `analytics_get_stats`, unchanged; analytics is disabled at program start. -/
theorem C24_disabled_analytics_records_nothing {α : Type} [LinearOrderedField α]
    (st : analytics_state α) (calls : List analytics_call)
    (hoff : st.analytics_enabled = false)
    (hrec : ∀ call ∈ calls, is_recording_call call = true) :
    analytics_run calls st = st ∧
    analytics_get_stats (analytics_run calls st) = analytics_get_stats st ∧
    (analytics_start : analytics_state α).analytics_enabled = false := by
  have h : analytics_run calls st = st := by
    unfold analytics_run
    induction calls with
    | nil => rfl
    | cons c rest ih =>
      rw [List.foldl_cons, analytics_step_disabled st c hoff (hrec c (List.mem_cons_self _ _))]
      exact ih (fun call hc => hrec call (List.mem_cons_of_mem _ hc))
  exact ⟨h, by rw [h], rfl⟩

/-- C24 (witness): a start and an end call from the initial statics. -/
theorem C24_disabled_analytics_records_nothing_witness :
    (analytics_start : analytics_state ℚ).analytics_enabled = false ∧
    analytics_get_stats (analytics_run
        [analytics_call.compress_start 5, analytics_call.compress_end 9 1000 500]
        (analytics_start : analytics_state ℚ)) =
      analytics_get_stats (analytics_start : analytics_state ℚ) :=
  ⟨rfl,
   (C24_disabled_analytics_records_nothing (analytics_start : analytics_state ℚ)
      [analytics_call.compress_start 5, analytics_call.compress_end 9 1000 500] rfl
      (by decide)).2.1⟩

/-- C30 (counterexample): after `analytics_init`, `analytics_compress_end(1000, 500)` and
`analytics_decompress_end(2000)` the snapshot stores uncompressed_size 2000,
compressed_size 500 and ratio 1/2, which is not 500 / 2000. -/
theorem C30_decompress_end_leaves_stale_ratio :
    (analytics_get_stats (analytics_run
        [analytics_call.init, analytics_call.compress_end 0 1000 500,
          analytics_call.decompress_end 0 2000]
        (analytics_start : analytics_state ℚ))).uncompressed_size = 2000 ∧
    (analytics_get_stats (analytics_run
        [analytics_call.init, analytics_call.compress_end 0 1000 500,
          analytics_call.decompress_end 0 2000]
        (analytics_start : analytics_state ℚ))).compressed_size = 500 ∧
    (analytics_get_stats (analytics_run
        [analytics_call.init, analytics_call.compress_end 0 1000 500,
          analytics_call.decompress_end 0 2000]
        (analytics_start : analytics_state ℚ))).compression_ratio = 1 / 2 ∧
    (1 / 2 : ℚ) ≠ ((500 : Nat) : ℚ) / ((2000 : Nat) : ℚ) := by
  refine ⟨?_, ?_, ?_, by norm_num⟩ <;>
    simp [analytics_get_stats, analytics_run, analytics_step, analytics_init, analytics_reset,
      analytics_compress_end, analytics_decompress_end, analytics_start] <;>
    norm_num

theorem analytics_step_ratio_invariant {α : Type} [LinearOrderedField α]
    (st : analytics_state α) (call : analytics_call)
    (hcall : is_not_decompress_end call = true)
    (hinv : 0 < st.stats.uncompressed_size →
      st.stats.compression_ratio =
        (st.stats.compressed_size : α) / (st.stats.uncompressed_size : α)) :
    0 < (analytics_step st call).stats.uncompressed_size →
      (analytics_step st call).stats.compression_ratio =
        ((analytics_step st call).stats.compressed_size : α) /
          ((analytics_step st call).stats.uncompressed_size : α) := by
  cases call with
  | init => intro h; simp [analytics_step, analytics_init, analytics_reset] at h
  | reset => intro h; simp [analytics_step, analytics_reset] at h
  | compress_start elapsed =>
    unfold analytics_step analytics_compress_start
    dsimp only
    split_ifs <;> exact hinv
  | decompress_start elapsed =>
    unfold analytics_step analytics_decompress_start
    dsimp only
    split_ifs <;> exact hinv
  | decompress_end elapsed uncompressed => simp [is_not_decompress_end] at hcall
  | compress_end elapsed uncompressed compressed =>
    unfold analytics_step analytics_compress_end
    dsimp only
    by_cases hen : (!st.analytics_enabled) = true
    · rw [if_pos hen]; exact hinv
    · rw [if_neg hen]
      by_cases hu : uncompressed > 0
      · rw [if_pos hu]
        intro _
        rfl
      · rw [if_neg hu]
        intro h
        exact absurd h hu

theorem analytics_run_ratio_invariant {α : Type} [LinearOrderedField α]
    (calls : List analytics_call) (st : analytics_state α)
    (hcalls : ∀ call ∈ calls, is_not_decompress_end call = true)
    (hinv : 0 < st.stats.uncompressed_size →
      st.stats.compression_ratio =
        (st.stats.compressed_size : α) / (st.stats.uncompressed_size : α)) :
    0 < (analytics_run calls st).stats.uncompressed_size →
      (analytics_run calls st).stats.compression_ratio =
        ((analytics_run calls st).stats.compressed_size : α) /
          ((analytics_run calls st).stats.uncompressed_size : α) := by
  unfold analytics_run
  induction calls generalizing st with
  | nil => exact hinv
  | cons c rest ih =>
    rw [List.foldl_cons]
    apply ih
    · exact fun call hc => hcalls call (List.mem_cons_of_mem _ hc)
    · exact analytics_step_ratio_invariant st c (hcalls c (List.mem_cons_self _ _)) hinv

/-- C30 (amended): after `analytics_init` followed by any sequence of
`analytics_compress_end(u, c)` and `analytics_reset` calls (start calls and further
`analytics_init` calls allowed), whenever the snapshot's uncompressed_size is positive its
compression_ratio equals compressed_size / uncompressed_size; with analytics enabled
`analytics_compress_end(u, c)` with u > 0 stores u, c and c / u; and
`analytics_decompress_end(u)` stores u as uncompressed_size and leaves compressed_size and
compression_ratio as they were. -/
theorem C30_ratio_matches_sizes {α : Type} [LinearOrderedField α]
    (st : analytics_state α) (calls : List analytics_call) (elapsed u c : Nat) :
    ((∀ call ∈ calls, is_not_decompress_end call = true) →
      0 < (analytics_get_stats (analytics_run calls (analytics_init st))).uncompressed_size →
      (analytics_get_stats (analytics_run calls (analytics_init st))).compression_ratio =
        ((analytics_get_stats (analytics_run calls (analytics_init st))).compressed_size : α) /
          ((analytics_get_stats
            (analytics_run calls (analytics_init st))).uncompressed_size : α)) ∧
    (st.analytics_enabled = true → 0 < u →
      (analytics_get_stats (analytics_compress_end elapsed u c st)).uncompressed_size = u ∧
      (analytics_get_stats (analytics_compress_end elapsed u c st)).compressed_size = c ∧
      (analytics_get_stats (analytics_compress_end elapsed u c st)).compression_ratio =
        (c : α) / (u : α)) ∧
    ((analytics_get_stats (analytics_decompress_end elapsed u st)).compressed_size =
        (analytics_get_stats st).compressed_size ∧
      (analytics_get_stats (analytics_decompress_end elapsed u st)).compression_ratio =
        (analytics_get_stats st).compression_ratio ∧
      (st.analytics_enabled = true →
        (analytics_get_stats (analytics_decompress_end elapsed u st)).uncompressed_size =
          u)) := by
  refine ⟨?_, ?_, ?_⟩
  · intro hcalls
    unfold analytics_get_stats
    apply analytics_run_ratio_invariant calls (analytics_init st) hcalls
    intro h
    simp [analytics_init, analytics_reset] at h
  · intro hen hu
    unfold analytics_get_stats analytics_compress_end
    rw [if_neg (by simp [hen])]
    dsimp only
    rw [if_pos hu]
    exact ⟨rfl, rfl, rfl⟩
  · unfold analytics_get_stats analytics_decompress_end
    refine ⟨?_, ?_, ?_⟩
    · split_ifs <;> rfl
    · split_ifs <;> rfl
    · intro hen
      simp only [hen, Bool.not_true, Bool.false_eq_true, if_false]

/-- C30 (witness): `analytics_compress_end(1000, 500)` after `analytics_init` stores 1000,
500 and the ratio 500 / 1000. -/
theorem C30_ratio_matches_sizes_witness :
    (analytics_init (analytics_start : analytics_state ℚ)).analytics_enabled = true ∧
    0 < 1000 ∧
    (analytics_get_stats (analytics_compress_end 7 1000 500
        (analytics_init (analytics_start : analytics_state ℚ)))).compression_ratio =
      ((500 : Nat) : ℚ) / ((1000 : Nat) : ℚ) :=
  ⟨rfl, by decide,
   ((C30_ratio_matches_sizes (analytics_init (analytics_start : analytics_state ℚ)) [] 7 1000
      500).2.1 rfl (by decide)).2.2⟩

/-! ## Theorems: adaptive_get_optimal_settings -/

/-- C25: for every content category, with the library default preset in [1,9],
`adaptive_get_optimal_settings` yields a preset in [1,9] and a filter array that is a chain
of at most two filters followed by the terminator, whose last filter is LZMA2; for Text and
Executable the preset is at least 6 and the dictionary size is positive; the x86 BCJ filter
is in the chain, directly before LZMA2, exactly when the category is Executable. -/
theorem C25_optimal_settings_contract (LZMA_PRESET_DEFAULT : Nat)
    (hdefault : 1 ≤ LZMA_PRESET_DEFAULT ∧ LZMA_PRESET_DEFAULT ≤ 9) (type : file_type_t) :
    (1 ≤ (adaptive_get_optimal_settings LZMA_PRESET_DEFAULT type).2.1 ∧
      (adaptive_get_optimal_settings LZMA_PRESET_DEFAULT type).2.1 ≤ 9) ∧
    (∃ chain : List lzma_filter_id,
      (adaptive_get_optimal_settings LZMA_PRESET_DEFAULT type).1 =
        chain ++ [LZMA_VLI_UNKNOWN] ∧
      LZMA_VLI_UNKNOWN ∉ chain ∧
      chain.length ≤ 2 ∧
      chain.getLast? = some LZMA_FILTER_LZMA2 ∧
      (LZMA_FILTER_X86 ∈ chain ↔ type = FILE_TYPE_EXECUTABLE) ∧
      (chain = [LZMA_FILTER_X86, LZMA_FILTER_LZMA2] ↔ type = FILE_TYPE_EXECUTABLE)) ∧
    (type = FILE_TYPE_TEXT ∨ type = FILE_TYPE_EXECUTABLE →
      6 ≤ (adaptive_get_optimal_settings LZMA_PRESET_DEFAULT type).2.1 ∧
      0 < (adaptive_get_optimal_settings LZMA_PRESET_DEFAULT type).2.2) := by
  obtain ⟨hlo, hhi⟩ := hdefault
  refine ⟨?_, ?_, ?_⟩
  · cases type <;> simp only [adaptive_get_optimal_settings] <;>
      first
        | exact ⟨hlo, hhi⟩
        | exact ⟨by decide, by decide⟩
  · cases type
    case FILE_TYPE_EXECUTABLE =>
      exact ⟨[LZMA_FILTER_X86, LZMA_FILTER_LZMA2], rfl, by decide, by decide, rfl,
        by decide, by decide⟩
    all_goals
      exact ⟨[LZMA_FILTER_LZMA2], rfl, by decide, by decide, rfl, by decide, by decide⟩
  · intro h
    rcases h with h | h <;> subst h <;> simp only [adaptive_get_optimal_settings] <;>
      exact ⟨by decide, by decide⟩

/-- C25 (witness): the settings for an executable with the library default preset 6. -/
theorem C25_optimal_settings_contract_witness :
    (1 ≤ 6 ∧ 6 ≤ 9) ∧
    (1 ≤ (adaptive_get_optimal_settings 6 FILE_TYPE_EXECUTABLE).2.1 ∧
      (adaptive_get_optimal_settings 6 FILE_TYPE_EXECUTABLE).2.1 ≤ 9) :=
  ⟨by decide, (C25_optimal_settings_contract 6 (by decide) FILE_TYPE_EXECUTABLE).1⟩

/-! ## Theorems: recovery statistics -/

theorem recovery_attempt_initialised {α : Type} [LinearOrderedField α]
    (decoder : tolerant_decoder) (st : recovery_state α) (corrupted_data : List Byte)
    (recovered_size : Nat) (mode : recovery_mode_t)
    (hcap : corrupted_data.length ≤ recovered_size)
    (hinit : (decoder corrupted_data recovered_size).init_ret = LZMA_OK) :
    (recovery_attempt decoder st corrupted_data recovered_size mode).2.2.stats.corrupted_blocks
        = (st.stats.corrupted_blocks + 1) % 2 ^ 32 ∧
    (((recovery_attempt decoder st corrupted_data recovered_size mode).1 = true ∧
        (recovery_attempt decoder st corrupted_data recovered_size
          mode).2.2.stats.recovered_blocks = (st.stats.recovered_blocks + 1) % 2 ^ 32 ∧
        (recovery_attempt decoder st corrupted_data recovered_size
          mode).2.2.stats.skipped_blocks = st.stats.skipped_blocks) ∨
      ((recovery_attempt decoder st corrupted_data recovered_size mode).1 = false ∧
        (recovery_attempt decoder st corrupted_data recovered_size
          mode).2.2.stats.recovered_blocks = st.stats.recovered_blocks ∧
        (recovery_attempt decoder st corrupted_data recovered_size
          mode).2.2.stats.skipped_blocks = (st.stats.skipped_blocks + 1) % 2 ^ 32)) := by
  unfold recovery_attempt
  rw [if_neg (not_lt.mpr hcap)]
  dsimp only
  rw [if_neg (not_not.mpr hinit)]
  split_ifs <;>
    first
      | exact ⟨rfl, Or.inl ⟨rfl, rfl, rfl⟩⟩
      | exact ⟨rfl, Or.inr ⟨rfl, rfl, rfl⟩⟩

/-- C28: one `recovery_attempt` whose decoder cannot be set up, from reset statistics with
room for the output, returns false with corrupted_blocks = 1 while recovered_blocks and
skipped_blocks are both still 0, so corrupted_blocks is not their sum. -/
theorem C28_init_failure_is_not_skipped :
    (recovery_attempt uninitialised_decoder
        (recovery_reset_stats (recovery_start : recovery_state ℚ))
        test_corrupted_data 6 RECOVERY_PARTIAL).1 = false ∧
    (recovery_attempt uninitialised_decoder
        (recovery_reset_stats (recovery_start : recovery_state ℚ))
        test_corrupted_data 6 RECOVERY_PARTIAL).2.2.stats.corrupted_blocks = 1 ∧
    (recovery_attempt uninitialised_decoder
        (recovery_reset_stats (recovery_start : recovery_state ℚ))
        test_corrupted_data 6 RECOVERY_PARTIAL).2.2.stats.recovered_blocks = 0 ∧
    (recovery_attempt uninitialised_decoder
        (recovery_reset_stats (recovery_start : recovery_state ℚ))
        test_corrupted_data 6 RECOVERY_PARTIAL).2.2.stats.skipped_blocks = 0 := by
  rw [recovery_attempt_init_failure uninitialised_decoder _ test_corrupted_data 6
    RECOVERY_PARTIAL (by decide) (by decide)]
  exact ⟨rfl, by decide, rfl, rfl⟩

theorem recovery_step_invariant {α : Type} [LinearOrderedField α]
    (st : recovery_state α) (call : recovery_call) (n : Nat) (hn : n + 1 < 2 ^ 32)
    (hle : st.stats.recovered_blocks ≤ st.stats.corrupted_blocks)
    (hcount : st.stats.corrupted_blocks ≤ n)
    (hrate : st.stats.corrupted_blocks = 0 → st.stats.recovery_rate = 0) :
    (recovery_step st call).stats.recovered_blocks ≤
        (recovery_step st call).stats.corrupted_blocks ∧
    (recovery_step st call).stats.corrupted_blocks ≤ n + 1 ∧
    ((recovery_step st call).stats.corrupted_blocks = 0 →
      (recovery_step st call).stats.recovery_rate = 0) := by
  have hc : (st.stats.corrupted_blocks + 1) % 2 ^ 32 = st.stats.corrupted_blocks + 1 :=
    Nat.mod_eq_of_lt (by omega)
  have hr : (st.stats.recovered_blocks + 1) % 2 ^ 32 = st.stats.recovered_blocks + 1 :=
    Nat.mod_eq_of_lt (by omega)
  cases call with
  | attempt decoder corrupted_data recovered_size mode =>
    unfold recovery_step recovery_attempt
    dsimp only
    rw [hc, hr]
    split_ifs <;> dsimp only <;>
      first
        | exact ⟨hle, by omega, hrate⟩
        | exact ⟨by omega, by omega, fun h => absurd h (Nat.succ_ne_zero _)⟩
  | get_stats =>
    unfold recovery_step recovery_get_stats
    dsimp only
    split_ifs with hpos
    · exact ⟨hle, Nat.le_succ_of_le hcount, fun h => absurd h (Nat.pos_iff_ne_zero.mp hpos)⟩
    · exact ⟨hle, Nat.le_succ_of_le hcount, hrate⟩
  | reset_stats =>
    unfold recovery_step recovery_reset_stats zero_stats
    dsimp only
    exact ⟨le_refl _, by omega, fun _ => rfl⟩

theorem recovery_run_invariant {α : Type} [LinearOrderedField α]
    (calls : List recovery_call) (st : recovery_state α) (n : Nat)
    (hn : n + calls.length < 2 ^ 32)
    (hle : st.stats.recovered_blocks ≤ st.stats.corrupted_blocks)
    (hcount : st.stats.corrupted_blocks ≤ n)
    (hrate : st.stats.corrupted_blocks = 0 → st.stats.recovery_rate = 0) :
    (recovery_run calls st).stats.recovered_blocks ≤
        (recovery_run calls st).stats.corrupted_blocks ∧
    ((recovery_run calls st).stats.corrupted_blocks = 0 →
      (recovery_run calls st).stats.recovery_rate = 0) := by
  unfold recovery_run
  induction calls generalizing st n with
  | nil => exact ⟨hle, hrate⟩
  | cons c rest ih =>
    rw [List.foldl_cons]
    rw [List.length_cons] at hn
    obtain ⟨h1, h2, h3⟩ := recovery_step_invariant st c n (by omega) hle hcount hrate
    exact ih (recovery_step st c) (n + 1) (by omega) h1 h2 h3

theorem recovery_run_cons {α : Type} [LinearOrderedField α] (call : recovery_call)
    (calls : List recovery_call) (st : recovery_state α) :
    recovery_run (call :: calls) st = recovery_run calls (recovery_step st call) :=
  rfl

theorem recovery_get_stats_report {α : Type} [LinearOrderedField α] (st : recovery_state α) :
    (recovery_get_stats st).1.corrupted_blocks = st.stats.corrupted_blocks ∧
    (recovery_get_stats st).1.recovered_blocks = st.stats.recovered_blocks ∧
    (recovery_get_stats st).1.skipped_blocks = st.stats.skipped_blocks ∧
    (recovery_get_stats st).1.recovered_bytes = st.stats.recovered_bytes ∧
    (recovery_get_stats st).1.recovery_rate =
      if st.stats.corrupted_blocks > 0 then
        (st.stats.recovered_blocks : α) / (st.stats.corrupted_blocks : α)
      else st.stats.recovery_rate := by
  unfold recovery_get_stats
  dsimp only
  split_ifs <;> exact ⟨rfl, rfl, rfl, rfl, rfl⟩

theorem recovery_run_clean_end {α : Type} [LinearOrderedField α]
    (corrupted_data : List Byte) (recovered_size : Nat) (mode : recovery_mode_t)
    (hcap : corrupted_data.length ≤ recovered_size) (k : Nat) (st : recovery_state α)
    (hc : st.stats.corrupted_blocks < 2 ^ 32) (hr : st.stats.recovered_blocks < 2 ^ 32) :
    (recovery_run (List.replicate k
        (recovery_call.attempt clean_end_decoder corrupted_data recovered_size mode))
        st).stats.corrupted_blocks = (st.stats.corrupted_blocks + k) % 2 ^ 32 ∧
    (recovery_run (List.replicate k
        (recovery_call.attempt clean_end_decoder corrupted_data recovered_size mode))
        st).stats.recovered_blocks = (st.stats.recovered_blocks + k) % 2 ^ 32 ∧
    (recovery_run (List.replicate k
        (recovery_call.attempt clean_end_decoder corrupted_data recovered_size mode))
        st).stats.recovery_rate = st.stats.recovery_rate := by
  unfold recovery_run
  induction k generalizing st with
  | zero =>
    rw [List.replicate_zero, List.foldl_nil, Nat.add_zero, Nat.add_zero,
      Nat.mod_eq_of_lt hc, Nat.mod_eq_of_lt hr]
    exact ⟨rfl, rfl, rfl⟩
  | succ k ih =>
    rw [List.replicate_succ, List.foldl_cons]
    have hstep : (recovery_step st (recovery_call.attempt clean_end_decoder corrupted_data
          recovered_size mode)).stats.corrupted_blocks =
            (st.stats.corrupted_blocks + 1) % 2 ^ 32 ∧
        (recovery_step st (recovery_call.attempt clean_end_decoder corrupted_data
          recovered_size mode)).stats.recovered_blocks =
            (st.stats.recovered_blocks + 1) % 2 ^ 32 ∧
        (recovery_step st (recovery_call.attempt clean_end_decoder corrupted_data
          recovered_size mode)).stats.recovery_rate = st.stats.recovery_rate := by
      unfold recovery_step recovery_attempt
      dsimp only
      rw [if_neg (not_lt.mpr hcap), if_neg (by simp [clean_end_decoder]),
        if_pos (Or.inl (by simp [clean_end_decoder]))]
      exact ⟨rfl, rfl, rfl⟩
    obtain ⟨h1, h2, h3⟩ := ih (recovery_step st
      (recovery_call.attempt clean_end_decoder corrupted_data recovered_size mode))
      (by rw [hstep.1]; exact Nat.mod_lt _ (by norm_num))
      (by rw [hstep.2.1]; exact Nat.mod_lt _ (by norm_num))
    rw [h1, h2, h3, hstep.1, hstep.2.1, hstep.2.2]
    refine ⟨?_, ?_, rfl⟩
    · rw [Nat.mod_add_mod]; congr 1; omega
    · rw [Nat.mod_add_mod]; congr 1; omega

/-- C29 (counterexample): from reset statistics, one attempt whose decoder cannot be set up
followed by `2 ^ 32 - 1` successful attempts wraps the 32-bit counter corrupted_blocks to 0
while recovered_blocks is `2 ^ 32 - 1`, so recovered_blocks exceeds corrupted_blocks. -/
theorem C29_counters_wrap :
    wrapping_calls.length = 2 ^ 32 ∧
    (recovery_get_stats (recovery_run wrapping_calls
        (recovery_reset_stats (recovery_start : recovery_state ℚ)))).1.corrupted_blocks = 0 ∧
    (recovery_get_stats (recovery_run wrapping_calls
        (recovery_reset_stats (recovery_start : recovery_state ℚ)))).1.recovered_blocks =
          4294967295 ∧
    ¬ ((recovery_get_stats (recovery_run wrapping_calls
        (recovery_reset_stats (recovery_start : recovery_state ℚ)))).1.recovered_blocks ≤
      (recovery_get_stats (recovery_run wrapping_calls
        (recovery_reset_stats (recovery_start : recovery_state ℚ)))).1.corrupted_blocks) := by
  have hfirst : recovery_step (recovery_reset_stats (recovery_start : recovery_state ℚ))
      (recovery_call.attempt uninitialised_decoder test_corrupted_data 6 RECOVERY_PARTIAL) =
      { recovery_reset_stats (recovery_start : recovery_state ℚ) with
        stats := { (zero_stats : recovery_stats_t ℚ) with corrupted_blocks := 1 } } := by
    unfold recovery_step
    dsimp only
    rw [recovery_attempt_init_failure uninitialised_decoder _ test_corrupted_data 6
      RECOVERY_PARTIAL (by decide) (by decide)]
    rfl
  have hrun := recovery_run_clean_end test_corrupted_data 6 RECOVERY_PARTIAL (by decide)
    (2 ^ 32 - 1)
    ({ recovery_reset_stats (recovery_start : recovery_state ℚ) with
        stats := { (zero_stats : recovery_stats_t ℚ) with corrupted_blocks := 1 } })
    (by decide) (by decide)
  have hc : (recovery_run wrapping_calls
      (recovery_reset_stats (recovery_start : recovery_state ℚ))).stats.corrupted_blocks =
        0 := by
    rw [wrapping_calls, recovery_run_cons, hfirst, hrun.1]
    norm_num
  have hr : (recovery_run wrapping_calls
      (recovery_reset_stats (recovery_start : recovery_state ℚ))).stats.recovered_blocks =
        4294967295 := by
    rw [wrapping_calls, recovery_run_cons, hfirst, hrun.2.1]
    norm_num [zero_stats]
  have hrep := recovery_get_stats_report (recovery_run wrapping_calls
      (recovery_reset_stats (recovery_start : recovery_state ℚ)))
  refine ⟨?_, ?_, ?_, ?_⟩
  · unfold wrapping_calls
    rw [List.length_cons, List.length_replicate]
    decide
  · rw [hrep.1, hc]
  · rw [hrep.2.1, hr]
  · rw [hrep.2.1, hrep.1, hc, hr]
    decide

/-- C29 (amended): starting from reset statistics, after any sequence of fewer than `2 ^ 32`
`recovery_attempt`, `recovery_get_stats` and `recovery_reset_stats` calls, the record that
`recovery_get_stats` reports has recovered_blocks <= corrupted_blocks, its recovery_rate is
recovered_blocks / corrupted_blocks when corrupted_blocks > 0 and 0 otherwise, the rate
lies in [0, 1], and after `recovery_reset_stats` the reported record is all zero. -/
theorem C29_recovery_rate_of_counters {α : Type} [LinearOrderedField α]
    (st0 : recovery_state α) (calls : List recovery_call) (hlen : calls.length < 2 ^ 32) :
    (recovery_get_stats (recovery_run calls (recovery_reset_stats st0))).1.recovered_blocks ≤
      (recovery_get_stats (recovery_run calls
        (recovery_reset_stats st0))).1.corrupted_blocks ∧
    (recovery_get_stats (recovery_run calls (recovery_reset_stats st0))).1.recovery_rate =
      (if (recovery_get_stats (recovery_run calls
          (recovery_reset_stats st0))).1.corrupted_blocks > 0 then
        ((recovery_get_stats (recovery_run calls
            (recovery_reset_stats st0))).1.recovered_blocks : α) /
          ((recovery_get_stats (recovery_run calls
            (recovery_reset_stats st0))).1.corrupted_blocks : α)
      else 0) ∧
    0 ≤ (recovery_get_stats (recovery_run calls
      (recovery_reset_stats st0))).1.recovery_rate ∧
    (recovery_get_stats (recovery_run calls
      (recovery_reset_stats st0))).1.recovery_rate ≤ 1 ∧
    (recovery_get_stats (recovery_reset_stats
      (recovery_run calls (recovery_reset_stats st0)))).1 = zero_stats := by
  obtain ⟨hle, hrate⟩ := recovery_run_invariant calls (recovery_reset_stats st0) 0
    (by omega) (le_refl _) (le_refl _) (fun _ => rfl)
  obtain ⟨h1, h2, _, _, h5⟩ :=
    recovery_get_stats_report (recovery_run calls (recovery_reset_stats st0))
  generalize recovery_run calls (recovery_reset_stats st0) = st at hle hrate h1 h2 h5 ⊢
  rw [h1, h2, h5]
  refine ⟨hle, ?_, ?_, ?_, ?_⟩
  · by_cases hpos : st.stats.corrupted_blocks > 0
    · rw [if_pos hpos, if_pos hpos]
    · rw [if_neg hpos, if_neg hpos]
      exact hrate (by omega)
  · by_cases hpos : st.stats.corrupted_blocks > 0
    · rw [if_pos hpos]
      exact div_nonneg (Nat.cast_nonneg _) (Nat.cast_nonneg _)
    · rw [if_neg hpos, hrate (by omega)]
  · by_cases hpos : st.stats.corrupted_blocks > 0
    · rw [if_pos hpos]
      have hcpos : (0 : α) < (st.stats.corrupted_blocks : α) := Nat.cast_pos.mpr hpos
      rw [div_le_one hcpos]
      exact Nat.cast_le.mpr hle
    · rw [if_neg hpos, hrate (by omega)]
      exact zero_le_one
  · unfold recovery_get_stats recovery_reset_stats zero_stats
    dsimp only
    rw [if_neg (by decide)]

/-- C29 (witness): a failed and a successful attempt with a statistics query in between,
from reset statistics, report a rate within [0, 1]. -/
theorem C29_recovery_rate_of_counters_witness :
    [recovery_call.attempt uninitialised_decoder test_corrupted_data 6 RECOVERY_PARTIAL,
      recovery_call.get_stats,
      recovery_call.attempt clean_end_decoder test_corrupted_data 6 RECOVERY_PARTIAL].length
        < 2 ^ 32 ∧
    (recovery_get_stats (recovery_run
      [recovery_call.attempt uninitialised_decoder test_corrupted_data 6
          RECOVERY_PARTIAL,
        recovery_call.get_stats,
        recovery_call.attempt clean_end_decoder test_corrupted_data 6 RECOVERY_PARTIAL]
      (recovery_reset_stats (recovery_start : recovery_state ℚ)))).1.recovery_rate ≤ 1 :=
  ⟨by decide,
   (C29_recovery_rate_of_counters (recovery_start : recovery_state ℚ)
      [recovery_call.attempt uninitialised_decoder test_corrupted_data 6
          RECOVERY_PARTIAL,
        recovery_call.get_stats,
        recovery_call.attempt clean_end_decoder test_corrupted_data 6 RECOVERY_PARTIAL]
      (by decide)).2.2.2.1⟩

/-! ## Theorems: integrity.c -/

theorem verify_loop_never_leaves (BUFSIZ : Nat) (decoder : stream_decoder)
    (hret : ∀ calls avail_in avail_out finish,
      (decoder calls avail_in avail_out finish).ret = LZMA_OK ∨
      (decoder calls avail_in avail_out finish).ret = LZMA_BUF_ERROR)
    (fuel : Nat) (s : verify_state) :
    verify_loop BUFSIZ decoder fuel s = none := by
  induction fuel generalizing s with
  | zero => rfl
  | succ fuel ih =>
    unfold verify_loop
    dsimp only
    have h := hret (verify_refill BUFSIZ s).calls (verify_refill BUFSIZ s).avail_in
      (verify_refill BUFSIZ s).avail_out (verify_refill BUFSIZ s).eof
    rw [if_neg (by rcases h with h | h <;> rw [h] <;> decide),
      if_neg (by rcases h with h | h <;> rw [h] <;> decide)]
    exact ih _

theorem integrity_verify_file_verdicts (BUFSIZ : Nat) (bytes : List Byte)
    (decoder : stream_decoder) (fuel : Nat) :
    integrity_verify_file BUFSIZ none LZMA_OK decoder fuel = some INTEGRITY_ERROR ∧
    integrity_verify_file BUFSIZ (some bytes) LZMA_MEM_ERROR decoder fuel =
      some INTEGRITY_ERROR ∧
    integrity_verify_file 8192 (some test_corrupted_data) LZMA_OK (finishing_decoder 2) 3 =
      some INTEGRITY_OK :=
  ⟨rfl, rfl, by decide⟩

/-- C26: on an empty file whose decoder was set up and reports `LZMA_BUF_ERROR` at every
`lzma_code` call, the loop of `integrity_verify_file` has not been left after any number of
iterations, so no verdict is ever returned. -/
theorem C26_verify_never_returns_on_empty_stream (fuel : Nat) :
    integrity_verify_file 8192 (some []) LZMA_OK starving_decoder fuel = none := by
  unfold integrity_verify_file
  dsimp only
  rw [if_neg (by decide)]
  exact verify_loop_never_leaves 8192 starving_decoder (fun _ _ _ _ => Or.inr rfl) fuel _

/-! ## Theorems: direction of the entropy estimate -/

theorem estimate_ratio_antitone {α : Type} [LinearOrderedField α] (h1 h2 : α)
    (hle : h1 ≤ h2) :
    estimate_ratio_from_entropy h2 ≤ estimate_ratio_from_entropy h1 := by
  rw [estimate_ratio_eq_clamp, estimate_ratio_eq_clamp]
  unfold clamp
  have h : 1 - h2 / 8 ≤ 1 - h1 / 8 := by linarith
  exact max_le_max (le_refl _) (min_le_min (le_refl _) h)

theorem high_entropy_buffer_count (i : Byte) :
    List.count i high_entropy_buffer =
      if i = 0x80 then 8 else if i = 0x81 then 8 else 0 := by
  unfold high_entropy_buffer
  rw [List.count_append, List.count_replicate, List.count_replicate]
  by_cases h0 : i = 0x80
  · subst h0; decide
  · by_cases h1 : i = 0x81
    · subst h1; decide
    · have e0 : ((0x80 : Byte) == i) = false := beq_false_of_ne (fun e => h0 e.symm)
      have e1 : ((0x81 : Byte) == i) = false := beq_false_of_ne (fun e => h1 e.symm)
      rw [if_neg h0, if_neg h1, e0, e1]
      rfl

theorem high_entropy_buffer_entropy :
    calculate_entropy (Real.logb 2) high_entropy_buffer = 1 := by
  have hhalf : Real.logb 2 ((8 : ℝ) / 16) = -1 := by
    have e : (8 : ℝ) / 16 = 2⁻¹ := by norm_num
    rw [e, Real.logb_inv, Real.logb_self_eq_one (by norm_num)]
  rw [calculate_entropy_eq_sum _ _ (by decide)]
  rw [Finset.sum_eq_add (0x80 : Byte) (0x81 : Byte) (by decide)]
  · have hlen : high_entropy_buffer.length = 16 := by decide
    have h80 : List.count (0x80 : Byte) high_entropy_buffer = 8 := by decide
    have h81 : List.count (0x81 : Byte) high_entropy_buffer = 8 := by decide
    rw [h80, h81, hlen, if_pos (by decide)]
    push_cast
    rw [hhalf]
    norm_num
  · intro c _ hc
    rw [high_entropy_buffer_count, if_neg hc.1, if_neg hc.2, if_neg (lt_irrefl 0)]
  · intro h; exact absurd (Finset.mem_univ _) h
  · intro h; exact absurd (Finset.mem_univ _) h

theorem predict_balanced_binary (data : List Byte) (hne : data ≠ [])
    (hsmall : data.length ≤ 1024 * 1024)
    (hbin : adaptive_detect_file_type data = FILE_TYPE_BINARY) :
    (smart_compress_predict (Real.logb 2) data SMART_STRATEGY_BALANCED).predicted_ratio =
      estimate_ratio_from_entropy (calculate_entropy (Real.logb 2) data) := by
  rw [(smart_compress_predict_ratio (Real.logb 2) data SMART_STRATEGY_BALANCED hne).1]
  unfold spec_base_ratio adjust_for_strategy
  dsimp only
  rw [Nat.min_eq_left hsmall, List.take_length, hbin, estimate_ratio_eq_clamp]
  unfold category_factor
  rw [if_neg (by decide), if_neg (by decide), if_neg (by decide), if_neg (by decide), one_mul]

/-- C27: `estimate_ratio_from_entropy` falls from 0.95 at entropy 0 to 0.1 at entropy 8; of
two 16-byte buffers of category Binary under the Balanced strategy, the one with entropy 1
gets predicted_ratio 0.875 and estimated_output_size 14 while the one with entropy 0 gets
0.95 and 15, so the buffer with the higher entropy gets the smaller prediction. -/
theorem C27_higher_entropy_gets_smaller_ratio :
    estimate_ratio_from_entropy (0 : ℝ) = 0.95 ∧
    estimate_ratio_from_entropy (8 : ℝ) = 0.1 ∧
    low_entropy_buffer.length = high_entropy_buffer.length ∧
    adaptive_detect_file_type low_entropy_buffer = FILE_TYPE_BINARY ∧
    adaptive_detect_file_type high_entropy_buffer = FILE_TYPE_BINARY ∧
    calculate_entropy (Real.logb 2) low_entropy_buffer = 0 ∧
    calculate_entropy (Real.logb 2) high_entropy_buffer = 1 ∧
    (smart_compress_predict (Real.logb 2) low_entropy_buffer
      SMART_STRATEGY_BALANCED).predicted_ratio = 0.95 ∧
    (smart_compress_predict (Real.logb 2) high_entropy_buffer
      SMART_STRATEGY_BALANCED).predicted_ratio = 0.875 ∧
    (smart_compress_predict (Real.logb 2) low_entropy_buffer
      SMART_STRATEGY_BALANCED).estimated_output_size = 15 ∧
    (smart_compress_predict (Real.logb 2) high_entropy_buffer
      SMART_STRATEGY_BALANCED).estimated_output_size = 14 := by
  have e0 : estimate_ratio_from_entropy (0 : ℝ) = 0.95 := by
    unfold estimate_ratio_from_entropy; norm_num
  have e1 : estimate_ratio_from_entropy (1 : ℝ) = 0.875 := by
    unfold estimate_ratio_from_entropy; norm_num
  have e8 : estimate_ratio_from_entropy (8 : ℝ) = 0.1 := by
    unfold estimate_ratio_from_entropy; norm_num
  have hlow : calculate_entropy (Real.logb 2) low_entropy_buffer = 0 :=
    calculate_entropy_replicate (Real.logb 2) Real.logb_one 16 0x80
  have blow : adaptive_detect_file_type low_entropy_buffer = FILE_TYPE_BINARY := by decide
  have bhigh : adaptive_detect_file_type high_entropy_buffer = FILE_TYPE_BINARY := by decide
  have rlow := predict_balanced_binary low_entropy_buffer (by decide) (by decide) blow
  have rhigh := predict_balanced_binary high_entropy_buffer (by decide) (by decide) bhigh
  rw [hlow, e0] at rlow
  rw [high_entropy_buffer_entropy, e1] at rhigh
  have slow := smart_compress_predict_size (Real.logb 2) low_entropy_buffer
    SMART_STRATEGY_BALANCED (by decide)
  have shigh := smart_compress_predict_size (Real.logb 2) high_entropy_buffer
    SMART_STRATEGY_BALANCED (by decide)
  rw [rlow] at slow
  rw [rhigh] at shigh
  have llow : low_entropy_buffer.length = 16 := by decide
  have lhigh : high_entropy_buffer.length = 16 := by decide
  rw [llow] at slow
  rw [lhigh] at shigh
  refine ⟨e0, e8, by decide, blow, bhigh, hlow, high_entropy_buffer_entropy, rlow, rhigh,
    ?_, ?_⟩
  · rw [slow, Nat.floor_eq_iff (by norm_num)]
    norm_num
  · rw [shigh, Nat.floor_eq_iff (by norm_num)]
    norm_num

/-! ## Theorems: smart_compress.c, the overall score on doubles -/

theorem round_half_even_error (x : ℚ) : |(round_half_even x : ℚ) - x| ≤ 1 / 2 := by
  have h1 : ((⌊x⌋ : ℤ) : ℚ) ≤ x := Int.floor_le x
  have h2 : x < ((⌊x⌋ : ℤ) : ℚ) + 1 := Int.lt_floor_add_one x
  unfold round_half_even
  split_ifs with ha hb hc <;> push_cast <;> rw [abs_le] <;> constructor <;> linarith

theorem round_binary64_error (x : ℚ) :
    |round_binary64 x - x| ≤ 1 / 2 ^ 53 * |x| + 1 / 2 ^ 1075 := by
  unfold round_binary64
  by_cases hx : x = 0
  · rw [if_pos hx, hx]
    norm_num
  · rw [if_neg hx]
    dsimp only
    have hxpos : 0 < |x| := abs_pos.mpr hx
    generalize he : max (Int.log 2 |x| - 52) (-1074) = e
    have hpos : (0 : ℚ) < 2 ^ e := zpow_pos (by norm_num) e
    have hquantum : (2 : ℚ) ^ e ≤ 1 / 2 ^ 52 * |x| + 1 / 2 ^ 1074 := by
      have hlog : (2 : ℚ) ^ (Int.log 2 |x| - 52) ≤ 1 / 2 ^ 52 * |x| := by
        have h := Int.zpow_log_le_self (b := 2) (by norm_num) hxpos
        rw [zpow_sub₀ (by norm_num)]
        have h52 : (2 : ℚ) ^ (52 : ℤ) = 2 ^ 52 := by norm_cast
        rw [h52, div_eq_mul_inv, mul_comm, one_div]
        push_cast at h
        exact mul_le_mul_of_nonneg_left h (by positivity)
      have hsub : (2 : ℚ) ^ (-1074 : ℤ) = 1 / 2 ^ 1074 := by
        rw [zpow_neg, one_div]; norm_cast
      rcases max_cases (Int.log 2 |x| - 52) (-1074) with ⟨hm, _⟩ | ⟨hm, _⟩
      · rw [← he, hm]
        have : (0 : ℚ) ≤ 1 / 2 ^ 1074 := by positivity
        linarith
      · rw [← he, hm, hsub]
        have : (0 : ℚ) ≤ 1 / 2 ^ 52 * |x| := by positivity
        linarith
    have herr := round_half_even_error (x / 2 ^ e)
    have hfac : (round_half_even (x / 2 ^ e) : ℚ) * 2 ^ e - x =
        ((round_half_even (x / 2 ^ e) : ℚ) - x / 2 ^ e) * 2 ^ e := by
      field_simp
    rw [hfac, abs_mul, abs_of_pos hpos]
    have hstep : |(round_half_even (x / 2 ^ e) : ℚ) - x / 2 ^ e| * 2 ^ e ≤ 1 / 2 * 2 ^ e :=
      mul_le_mul_of_nonneg_right herr hpos.le
    have e53 : (1 : ℚ) / 2 ^ 53 = 1 / 2 * (1 / 2 ^ 52) := by norm_num
    have e1075 : (1 : ℚ) / 2 ^ 1075 = 1 / 2 * (1 / 2 ^ 1074) := by norm_num
    rw [e53, e1075]
    linarith
theorem double_mul_weight_error (x w M : ℚ) (hx : |x| ≤ M) (hw : 0 ≤ w) :
    |double_mul x (round_binary64 w) - w * x| ≤
      (2 / 2 ^ 53 + 1 / 2 ^ 106) * (w * M) + (1 + 1 / 2 ^ 53) * (1 / 2 ^ 1075) * M +
        1 / 2 ^ 1075 := by
  have hM : 0 ≤ M := le_trans (abs_nonneg x) hx
  have hW := round_binary64_error w
  rw [abs_of_nonneg hw] at hW
  unfold double_mul
  generalize round_binary64 w = W at hW ⊢
  have hWabs : |W| ≤ w + (1 / 2 ^ 53 * w + 1 / 2 ^ 1075) := by
    have h := abs_add (W - w) w
    rw [sub_add_cancel, abs_of_nonneg hw] at h
    linarith
  have h1 := round_binary64_error (x * W)
  have hxW : |x * W| ≤ M * (w + (1 / 2 ^ 53 * w + 1 / 2 ^ 1075)) := by
    rw [abs_mul]
    exact mul_le_mul hx hWabs (abs_nonneg _) hM
  have h2 : |x * W - w * x| ≤ M * (1 / 2 ^ 53 * w + 1 / 2 ^ 1075) := by
    have e : x * W - w * x = x * (W - w) := by ring
    rw [e, abs_mul]
    exact mul_le_mul hx hW (abs_nonneg _) hM
  have h3 := abs_sub_le (round_binary64 (x * W)) (x * W) (w * x)
  generalize |round_binary64 (x * W) - w * x| = A at h3 ⊢
  generalize |round_binary64 (x * W) - x * W| = B at h1 h3
  generalize |x * W - w * x| = C at h2 h3
  generalize |x * W| = D at h1 hxW
  have e1 : M * (w + (1 / 2 ^ 53 * w + 1 / 2 ^ 1075)) =
      (1 + 1 / 2 ^ 53) * (w * M) + 1 / 2 ^ 1075 * M := by ring
  have e2 : M * (1 / 2 ^ 53 * w + 1 / 2 ^ 1075) =
      1 / 2 ^ 53 * (w * M) + 1 / 2 ^ 1075 * M := by ring
  rw [e1] at hxW
  rw [e2] at h2
  generalize w * M = P at hxW h2 ⊢
  linarith
theorem abs_weight_mul_le (x w M : ℚ) (hx : |x| ≤ M) (hw : 0 ≤ w) : |w * x| ≤ w * M := by
  rw [abs_mul, abs_of_nonneg hw]
  exact mul_le_mul_of_nonneg_left hx hw

theorem rounded_weighted_sum_error (a b c wa wb wc M : ℚ)
    (ha : |a| ≤ M) (hb : |b| ≤ M) (hc : |c| ≤ M)
    (hwa : 0 ≤ wa) (hwb : 0 ≤ wb) (hwc : 0 ≤ wc) (hsum : wa + wb + wc = 1) :
    |double_add
        (double_add (double_mul a (round_binary64 wa)) (double_mul b (round_binary64 wb)))
        (double_mul c (round_binary64 wc)) - (wa * a + wb * b + wc * c)| ≤
      1 / 2 ^ 50 * M + 1 / 2 ^ 1072 := by
  have hM : 0 ≤ M := le_trans (abs_nonneg a) ha
  have e1 := double_mul_weight_error a wa M ha hwa
  have e2 := double_mul_weight_error b wb M hb hwb
  have e3 := double_mul_weight_error c wc M hc hwc
  have w1 := abs_weight_mul_le a wa M ha hwa
  have w2 := abs_weight_mul_le b wb M hb hwb
  have w3 := abs_weight_mul_le c wc M hc hwc
  have hP : wa * M + wb * M + wc * M = M := by
    rw [← add_mul, ← add_mul, hsum, one_mul]
  have hP1 : 0 ≤ wa * M := mul_nonneg hwa hM
  have hP2 : 0 ≤ wb * M := mul_nonneg hwb hM
  have hP3 : 0 ≤ wc * M := mul_nonneg hwc hM
  generalize wa * M = P1 at e1 w1 hP hP1
  generalize wb * M = P2 at e2 w2 hP hP2
  generalize wc * M = P3 at e3 w3 hP hP3
  generalize double_mul a (round_binary64 wa) = p1 at e1 ⊢
  generalize double_mul b (round_binary64 wb) = p2 at e2 ⊢
  generalize double_mul c (round_binary64 wc) = p3 at e3 ⊢
  generalize wa * a = x1 at e1 w1 ⊢
  generalize wb * b = x2 at e2 w2 ⊢
  generalize wc * c = x3 at e3 w3 ⊢
  unfold double_add
  have ht := round_binary64_error (p1 + p2)
  generalize round_binary64 (p1 + p2) = t at ht ⊢
  have ho := round_binary64_error (t + p3)
  generalize round_binary64 (t + p3) = o at ho ⊢
  obtain ⟨e1l, e1u⟩ := abs_le.mp e1
  obtain ⟨e2l, e2u⟩ := abs_le.mp e2
  obtain ⟨e3l, e3u⟩ := abs_le.mp e3
  obtain ⟨w1l, w1u⟩ := abs_le.mp w1
  obtain ⟨w2l, w2u⟩ := abs_le.mp w2
  obtain ⟨w3l, w3u⟩ := abs_le.mp w3
  have hs12 : |p1 + p2| ≤
      (2 / 2 ^ 53 + 1 / 2 ^ 106) * (P1 + P2) + 2 * ((1 + 1 / 2 ^ 53) * (1 / 2 ^ 1075) * M) +
        2 * (1 / 2 ^ 1075) + P1 + P2 := by
    rw [abs_le]
    constructor <;> linarith
  obtain ⟨htl, htu⟩ := abs_le.mp (le_trans ht (add_le_add_right
    (mul_le_mul_of_nonneg_left hs12 (by norm_num)) _))
  have hs3 : |t + p3| ≤ 2 * M + 1 / 2 ^ 1072 := by
    rw [abs_le]
    constructor
    · linarith only [e1l, e2l, e3l, w1l, w2l, w3l, htl, hP, hP1, hP2, hP3, hM]
    · linarith only [e1u, e2u, e3u, w1u, w2u, w3u, htu, hP, hP1, hP2, hP3, hM]
  obtain ⟨hol, hou⟩ := abs_le.mp (le_trans ho (add_le_add_right
    (mul_le_mul_of_nonneg_left hs3 (by norm_num)) _))
  rw [abs_le]
  constructor
  · linarith only [e1l, e2l, e3l, w1l, w2l, w3l, htl, hol, hP, hP1, hP2, hP3, hM]
  · linarith only [e1u, e2u, e3u, w1u, w2u, w3u, htu, hou, hP, hP1, hP2, hP3, hM]
theorem overall_score_binary64_eq (r : benchmark_result_t ℚ) (strategy : smart_strategy_t) :
    (smart_compress_calculate_quality_binary64 (some r) strategy).overall_score =
      spec_overall_binary64 strategy
        (smart_compress_calculate_quality_binary64 (some r) strategy).speed_score
        (smart_compress_calculate_quality_binary64 (some r) strategy).compression_ratio_score
        (smart_compress_calculate_quality_binary64 (some r) strategy).memory_efficiency_score
    := by
  cases strategy <;> rfl

theorem spec_overall_binary64_error (strategy : smart_strategy_t) (speed ratio memory : ℚ) :
    |spec_overall_binary64 strategy speed ratio memory -
        ((spec_weights strategy : ℚ × ℚ × ℚ).1 * speed +
          (spec_weights strategy : ℚ × ℚ × ℚ).2.1 * ratio +
          (spec_weights strategy : ℚ × ℚ × ℚ).2.2 * memory)| ≤
      1 / 2 ^ 50 * max |speed| (max |ratio| |memory|) + 1 / 2 ^ 1072 := by
  have hs : |speed| ≤ max |speed| (max |ratio| |memory|) := le_max_left _ _
  have hr : |ratio| ≤ max |speed| (max |ratio| |memory|) :=
    le_trans (le_max_left _ _) (le_max_right _ _)
  have hm : |memory| ≤ max |speed| (max |ratio| |memory|) :=
    le_trans (le_max_right _ _) (le_max_right _ _)
  generalize max |speed| (max |ratio| |memory|) = M at hs hr hm ⊢
  obtain ⟨h1, h2, h3, hsum⟩ := spec_weights_convex (α := ℚ) strategy
  have order_srm := rounded_weighted_sum_error speed ratio memory
    (spec_weights strategy : ℚ × ℚ × ℚ).1 (spec_weights strategy : ℚ × ℚ × ℚ).2.1
    (spec_weights strategy : ℚ × ℚ × ℚ).2.2 M hs hr hm h1 h2 h3 hsum
  have order_mrs := rounded_weighted_sum_error memory ratio speed
    (spec_weights strategy : ℚ × ℚ × ℚ).2.2 (spec_weights strategy : ℚ × ℚ × ℚ).2.1
    (spec_weights strategy : ℚ × ℚ × ℚ).1 M hm hr hs h3 h2 h1 (by rw [← hsum]; ring)
  have order_rsm := rounded_weighted_sum_error ratio speed memory
    (spec_weights strategy : ℚ × ℚ × ℚ).2.1 (spec_weights strategy : ℚ × ℚ × ℚ).1
    (spec_weights strategy : ℚ × ℚ × ℚ).2.2 M hr hs hm h2 h1 h3 (by rw [← hsum]; ring)
  have e_mrs : (spec_weights strategy : ℚ × ℚ × ℚ).2.2 * memory +
      (spec_weights strategy : ℚ × ℚ × ℚ).2.1 * ratio +
      (spec_weights strategy : ℚ × ℚ × ℚ).1 * speed =
      (spec_weights strategy : ℚ × ℚ × ℚ).1 * speed +
      (spec_weights strategy : ℚ × ℚ × ℚ).2.1 * ratio +
      (spec_weights strategy : ℚ × ℚ × ℚ).2.2 * memory := by ring
  have e_rsm : (spec_weights strategy : ℚ × ℚ × ℚ).2.1 * ratio +
      (spec_weights strategy : ℚ × ℚ × ℚ).1 * speed +
      (spec_weights strategy : ℚ × ℚ × ℚ).2.2 * memory =
      (spec_weights strategy : ℚ × ℚ × ℚ).1 * speed +
      (spec_weights strategy : ℚ × ℚ × ℚ).2.1 * ratio +
      (spec_weights strategy : ℚ × ℚ × ℚ).2.2 * memory := by ring
  rw [e_mrs] at order_mrs
  rw [e_rsm] at order_rsm
  cases strategy
  case SMART_STRATEGY_SPEED => exact order_srm
  case SMART_STRATEGY_MEMORY_EFFICIENT => exact order_mrs
  all_goals exact order_rsm
/-- C23 (counterexample): on doubles the overall score can leave the range of the three
component scores.  For compression ratio 0.38, 31 MB/s and 380 MB under Speed all three
scores are 62 and `overall_score` is 62 - 2^(-47), below the smallest; for 0.39, 30.5 MB/s
and 390 MB under Balanced all three are 61 and `overall_score` is 61 + 2^(-47), above the
largest. -/
theorem C23_rounded_sum_leaves_the_range :
    ((smart_compress_calculate_quality_binary64 (some scores_62_result)
        SMART_STRATEGY_SPEED).speed_score = 62 ∧
      (smart_compress_calculate_quality_binary64 (some scores_62_result)
        SMART_STRATEGY_SPEED).compression_ratio_score = 62 ∧
      (smart_compress_calculate_quality_binary64 (some scores_62_result)
        SMART_STRATEGY_SPEED).memory_efficiency_score = 62 ∧
      (smart_compress_calculate_quality_binary64 (some scores_62_result)
        SMART_STRATEGY_SPEED).overall_score = 62 - 1 / 2 ^ 47 ∧
      (smart_compress_calculate_quality_binary64 (some scores_62_result)
        SMART_STRATEGY_SPEED).overall_score <
        min (smart_compress_calculate_quality_binary64 (some scores_62_result)
            SMART_STRATEGY_SPEED).speed_score
          (min (smart_compress_calculate_quality_binary64 (some scores_62_result)
              SMART_STRATEGY_SPEED).compression_ratio_score
            (smart_compress_calculate_quality_binary64 (some scores_62_result)
              SMART_STRATEGY_SPEED).memory_efficiency_score)) ∧
    ((smart_compress_calculate_quality_binary64 (some scores_61_result)
        SMART_STRATEGY_BALANCED).speed_score = 61 ∧
      (smart_compress_calculate_quality_binary64 (some scores_61_result)
        SMART_STRATEGY_BALANCED).compression_ratio_score = 61 ∧
      (smart_compress_calculate_quality_binary64 (some scores_61_result)
        SMART_STRATEGY_BALANCED).memory_efficiency_score = 61 ∧
      (smart_compress_calculate_quality_binary64 (some scores_61_result)
        SMART_STRATEGY_BALANCED).overall_score = 61 + 1 / 2 ^ 47 ∧
      max (smart_compress_calculate_quality_binary64 (some scores_61_result)
            SMART_STRATEGY_BALANCED).speed_score
          (max (smart_compress_calculate_quality_binary64 (some scores_61_result)
              SMART_STRATEGY_BALANCED).compression_ratio_score
            (smart_compress_calculate_quality_binary64 (some scores_61_result)
              SMART_STRATEGY_BALANCED).memory_efficiency_score) <
        (smart_compress_calculate_quality_binary64 (some scores_61_result)
          SMART_STRATEGY_BALANCED).overall_score) := by
  decide!

/-- C23 (amended): for every benchmark result and strategy, `overall_score` is the weighted
sum of the three component scores with the weights (speed, ratio, memory) of the
specification, evaluated on doubles (every weight, product and sum rounded to the nearest
double, in the order of the source); the weights are non-negative and sum to 1, so the exact
weighted sum lies between the smallest and the largest component score; `overall_score`
differs from the exact weighted sum by at most `2^(-50) * S + 2^(-1072)`, where S is the
largest magnitude of the three scores, and so lies within that distance of the range of the
three scores.  Doubles are finite, and a result of magnitude `2 ^ 1024` or more is not turned
into an infinity. -/
theorem C23_overall_score_rounded_weighted_sum (r : benchmark_result_t ℚ)
    (strategy : smart_strategy_t) :
    (smart_compress_calculate_quality_binary64 (some r) strategy).overall_score =
      spec_overall_binary64 strategy
        (smart_compress_calculate_quality_binary64 (some r) strategy).speed_score
        (smart_compress_calculate_quality_binary64 (some r) strategy).compression_ratio_score
        (smart_compress_calculate_quality_binary64 (some r) strategy).memory_efficiency_score ∧
    (0 ≤ (spec_weights strategy : ℚ × ℚ × ℚ).1 ∧ 0 ≤ (spec_weights strategy : ℚ × ℚ × ℚ).2.1 ∧
      0 ≤ (spec_weights strategy : ℚ × ℚ × ℚ).2.2 ∧
      (spec_weights strategy : ℚ × ℚ × ℚ).1 + (spec_weights strategy : ℚ × ℚ × ℚ).2.1 +
        (spec_weights strategy : ℚ × ℚ × ℚ).2.2 = 1) ∧
    (min (smart_compress_calculate_quality_binary64 (some r) strategy).speed_score
        (min (smart_compress_calculate_quality_binary64 (some r)
            strategy).compression_ratio_score
          (smart_compress_calculate_quality_binary64 (some r)
            strategy).memory_efficiency_score) ≤
      (spec_weights strategy : ℚ × ℚ × ℚ).1 *
          (smart_compress_calculate_quality_binary64 (some r) strategy).speed_score +
        (spec_weights strategy : ℚ × ℚ × ℚ).2.1 *
          (smart_compress_calculate_quality_binary64 (some r)
            strategy).compression_ratio_score +
        (spec_weights strategy : ℚ × ℚ × ℚ).2.2 *
          (smart_compress_calculate_quality_binary64 (some r)
            strategy).memory_efficiency_score ∧
      (spec_weights strategy : ℚ × ℚ × ℚ).1 *
          (smart_compress_calculate_quality_binary64 (some r) strategy).speed_score +
        (spec_weights strategy : ℚ × ℚ × ℚ).2.1 *
          (smart_compress_calculate_quality_binary64 (some r)
            strategy).compression_ratio_score +
        (spec_weights strategy : ℚ × ℚ × ℚ).2.2 *
          (smart_compress_calculate_quality_binary64 (some r)
            strategy).memory_efficiency_score ≤
      max (smart_compress_calculate_quality_binary64 (some r) strategy).speed_score
        (max (smart_compress_calculate_quality_binary64 (some r)
            strategy).compression_ratio_score
          (smart_compress_calculate_quality_binary64 (some r)
            strategy).memory_efficiency_score)) ∧
    |(smart_compress_calculate_quality_binary64 (some r) strategy).overall_score -
        ((spec_weights strategy : ℚ × ℚ × ℚ).1 *
            (smart_compress_calculate_quality_binary64 (some r) strategy).speed_score +
          (spec_weights strategy : ℚ × ℚ × ℚ).2.1 *
            (smart_compress_calculate_quality_binary64 (some r)
              strategy).compression_ratio_score +
          (spec_weights strategy : ℚ × ℚ × ℚ).2.2 *
            (smart_compress_calculate_quality_binary64 (some r)
              strategy).memory_efficiency_score)| ≤
      1 / 2 ^ 50 *
          max |(smart_compress_calculate_quality_binary64 (some r) strategy).speed_score|
            (max |(smart_compress_calculate_quality_binary64 (some r)
                strategy).compression_ratio_score|
              |(smart_compress_calculate_quality_binary64 (some r)
                strategy).memory_efficiency_score|) +
        1 / 2 ^ 1072 ∧
    min (smart_compress_calculate_quality_binary64 (some r) strategy).speed_score
        (min (smart_compress_calculate_quality_binary64 (some r)
            strategy).compression_ratio_score
          (smart_compress_calculate_quality_binary64 (some r)
            strategy).memory_efficiency_score) -
        (1 / 2 ^ 50 *
          max |(smart_compress_calculate_quality_binary64 (some r) strategy).speed_score|
            (max |(smart_compress_calculate_quality_binary64 (some r)
                strategy).compression_ratio_score|
              |(smart_compress_calculate_quality_binary64 (some r)
                strategy).memory_efficiency_score|) +
        1 / 2 ^ 1072) ≤
      (smart_compress_calculate_quality_binary64 (some r) strategy).overall_score ∧
    (smart_compress_calculate_quality_binary64 (some r) strategy).overall_score ≤
      max (smart_compress_calculate_quality_binary64 (some r) strategy).speed_score
        (max (smart_compress_calculate_quality_binary64 (some r)
            strategy).compression_ratio_score
          (smart_compress_calculate_quality_binary64 (some r)
            strategy).memory_efficiency_score) +
        (1 / 2 ^ 50 *
          max |(smart_compress_calculate_quality_binary64 (some r) strategy).speed_score|
            (max |(smart_compress_calculate_quality_binary64 (some r)
                strategy).compression_ratio_score|
              |(smart_compress_calculate_quality_binary64 (some r)
                strategy).memory_efficiency_score|) +
        1 / 2 ^ 1072) := by
  have heq := overall_score_binary64_eq r strategy
  obtain ⟨h1, h2, h3, hsum⟩ := spec_weights_convex (α := ℚ) strategy
  have herr := spec_overall_binary64_error strategy
    (smart_compress_calculate_quality_binary64 (some r) strategy).speed_score
    (smart_compress_calculate_quality_binary64 (some r) strategy).compression_ratio_score
    (smart_compress_calculate_quality_binary64 (some r) strategy).memory_efficiency_score
  rw [← heq] at herr
  obtain ⟨hlo, hhi⟩ := convex_combination_bounds _ _ _
    (smart_compress_calculate_quality_binary64 (some r) strategy).speed_score
    (smart_compress_calculate_quality_binary64 (some r) strategy).compression_ratio_score
    (smart_compress_calculate_quality_binary64 (some r) strategy).memory_efficiency_score
    h1 h2 h3 hsum
  obtain ⟨hl, hu⟩ := abs_le.mp herr
  refine ⟨heq, ⟨h1, h2, h3, hsum⟩, ⟨hlo, hhi⟩, herr, ?_, ?_⟩
  · linarith
  · linarith

end Xz
